import Mathlib

/-!
Verification of the NT v3 wire codec (`src/protocol/v3/v3-messages.ts`).

Buffers are modelled as `List Nat` (one `Nat` per byte; a real `Buffer` holds
values `< 256`, and every write site that truncates in JS — `Buffer.from`,
`Uint8Array` stores — is modelled with an explicit `% 256`).  Thrown JS errors
are modelled by `Except` with the error inductive `Err`, one constructor per
distinct throw site class of the source.  `undefined` results of out-of-range
indexing (`buf[i]`) are modelled with `List.get?` at the sites where the
source can actually meet them.

The helper modules `protocol-utils` and `v3-types` and the `ieee754` npm
package are not part of `src/`; they are modelled from the spec (each such
definition carries a doc comment starting with `Modelled from the spec:`).
-/

/-- Error kinds; one constructor per distinct throw site class of the source
(`InvalidMessageTypeError`, `InvalidEntryValueError` for `checkEntryValue`,
the distinct `InvalidEntryValueError` thrown on a bad CLEAR_ALL_ENTRIES magic,
`InvalidEntryTypeError`, the plain `Error`s of the RPC decoders, the
`Truncated` failures of the primitive codecs, Node range errors of
`Buffer.readUIntXX/writeUIntXX`, JS `TypeError`s from touching `undefined`,
and the fuel sentinel of the embedding, which never fires on runs the
theorems speak about). -/
inductive Err where
  | truncated
  | invalidMessageType
  | invalidEntryValue
  | invalidMagic
  | invalidEntryType
  | unknownRpcDefinition
  | rpcParamCountMismatch
  | rpcResultCountMismatch
  | unsupportedRpcVersion
  | undefinedAccess
  | outOfRange
  | outOfFuel
deriving DecidableEq

/-- Modelled from the spec: `checkBufferLength` of `protocol-utils` fails with
`Truncated` when fewer than `size` bytes remain at `offset`. -/
def checkBufferLength (buf : List Nat) (offset size : Nat) : Except Err Unit :=
  if offset + size ≤ buf.length then .ok () else .error .truncated

/-- Node `Buffer.readUInt8`: range-checked single byte read. -/
def readUInt8 (buf : List Nat) (offset : Nat) : Except Err Nat :=
  if offset + 1 ≤ buf.length then .ok (buf.getD offset 0) else .error .outOfRange

/-- Node `Buffer.readUInt16BE`: range-checked big-endian 16-bit read. -/
def readUInt16BE (buf : List Nat) (offset : Nat) : Except Err Nat :=
  if offset + 2 ≤ buf.length then
    .ok (buf.getD offset 0 * 256 + buf.getD (offset + 1) 0)
  else .error .outOfRange

/-- Node `Buffer.readUInt32BE`: range-checked big-endian 32-bit read. -/
def readUInt32BE (buf : List Nat) (offset : Nat) : Except Err Nat :=
  if offset + 4 ≤ buf.length then
    .ok (((buf.getD offset 0 * 256 + buf.getD (offset + 1) 0) * 256 +
      buf.getD (offset + 2) 0) * 256 + buf.getD (offset + 3) 0)
  else .error .outOfRange

/-- Node `Buffer.writeUInt16BE`: throws a range error unless the value is a
16-bit unsigned integer, else produces the two big-endian bytes. -/
def writeUInt16BE (v : Nat) : Except Err (List Nat) :=
  if v < 65536 then .ok [v / 256, v % 256] else .error .outOfRange

/-- Big-endian byte decomposition (most significant first), `w` bytes. -/
def toBytesBE : Nat → Nat → List Nat
  | 0, _ => []
  | w + 1, n => toBytesBE w (n / 256) ++ [n % 256]

/-- Big-endian byte recomposition. -/
def fromBytesBE (l : List Nat) : Nat :=
  l.foldl (fun a b => a * 256 + b) 0

/-- Modelled from the spec: `ieee754.write(buf, v, 0, false, 52, 8)` emits the
8 big-endian bytes of the IEEE-754 binary64 datum; doubles are represented
throughout by their 64-bit pattern. -/
def ieee754write (v : Nat) : List Nat := toBytesBE 8 v

/-- Modelled from the spec: `ieee754.read(buf, offset, false, 52, 8)` reads 8
big-endian bytes as an IEEE-754 binary64 datum (as a 64-bit pattern). -/
def ieee754read (buf : List Nat) (offset : Nat) : Nat :=
  fromBytesBE ((buf.drop offset).take 8)

/-- Fuelled worker for the LEB128 encoder (`fuel ≥ n` never exhausts, since
the encoded argument shrinks by a factor 128 every step). -/
def lebCoreEnc : Nat → Nat → List Nat
  | 0, n => [n % 128]
  | fuel + 1, n => if n < 128 then [n] else (n % 128 + 128) :: lebCoreEnc fuel (n / 128)

/-- Modelled from the spec: unsigned LEB128 encode — 7-bit groups least
significant first, high bit set on every non-terminal byte, `0` encodes as
`0x00`. -/
def toUnsignedLEB128 (n : Nat) : List Nat := lebCoreEnc n n

/-- Worker for the LEB128 decoder: value and number of bytes consumed. -/
def lebDecodeCore : List Nat → Except Err (Nat × Nat)
  | [] => .error .truncated
  | b :: rest =>
    if b < 128 then .ok (b, 1)
    else
      match lebDecodeCore rest with
      | .ok (v, k) => .ok (b % 128 + v * 128, k + 1)
      | .error e => .error e

/-- Modelled from the spec: unsigned LEB128 decode — consume bytes until one
with the high bit clear, fail with `Truncated` if the buffer ends first.
Returns the value and the new offset. -/
def fromUnsignedLEB128 (buf : List Nat) (offset : Nat) : Except Err (Nat × Nat) :=
  match lebDecodeCore (buf.drop offset) with
  | .ok (v, k) => .ok (v, offset + k)
  | .error e => .error e

/-- Modelled from the spec: length-prefixed string encode,
`LEB128(byteLength(s)) || bytes(s)`.  Strings are represented by their UTF-8
byte sequences. -/
def encodeLEB128String (s : List Nat) : List Nat :=
  toUnsignedLEB128 s.length ++ s

/-- Modelled from the spec: length-prefixed string decode — read the LEB128
length, check the string fits in the buffer (`Truncated` otherwise), return
the bytes and the new offset. -/
def decodeLEB128String (buf : List Nat) (offset : Nat) : Except Err (List Nat × Nat) :=
  match fromUnsignedLEB128 buf offset with
  | .error e => .error e
  | .ok (len, o) =>
    if o + len ≤ buf.length then .ok (((buf.drop o).take len), o + len)
    else .error .truncated

namespace V3MessageType

/-- Modelled from the spec: the thirteen v3 message type bytes (fixed by wire
compatibility; the handshake bytes appear literally in spec scenario S1 and
the ENTRY_ASSIGNMENT byte in S2). -/
abbrev KEEP_ALIVE : Nat := 0x00

abbrev CLIENT_HELLO : Nat := 0x01

abbrev PROTO_VERSION_UNSUPPORTED : Nat := 0x02

abbrev SERVER_HELLO_COMPLETE : Nat := 0x03

abbrev SERVER_HELLO : Nat := 0x04

abbrev CLIENT_HELLO_COMPLETE : Nat := 0x05

abbrev ENTRY_ASSIGNMENT : Nat := 0x10

abbrev ENTRY_UPDATE : Nat := 0x11

abbrev ENTRY_FLAGS_UPDATE : Nat := 0x12

abbrev ENTRY_DELETE : Nat := 0x13

abbrev CLEAR_ALL_ENTRIES : Nat := 0x14

abbrev RPC_EXECUTE : Nat := 0x20

abbrev RPC_RESPONSE : Nat := 0x21

end V3MessageType

/-- `b in ByteToV3MessageType` of `v3-types` (modelled from the spec's table of
message types). -/
def isV3MessageType (b : Nat) : Bool :=
  [V3MessageType.KEEP_ALIVE, V3MessageType.CLIENT_HELLO,
   V3MessageType.PROTO_VERSION_UNSUPPORTED, V3MessageType.SERVER_HELLO_COMPLETE,
   V3MessageType.SERVER_HELLO, V3MessageType.CLIENT_HELLO_COMPLETE,
   V3MessageType.ENTRY_ASSIGNMENT, V3MessageType.ENTRY_UPDATE,
   V3MessageType.ENTRY_FLAGS_UPDATE, V3MessageType.ENTRY_DELETE,
   V3MessageType.CLEAR_ALL_ENTRIES, V3MessageType.RPC_EXECUTE,
   V3MessageType.RPC_RESPONSE].contains b

namespace V3EntryType

/-- Modelled from the spec: the eight v3 entry type bytes (BOOLEAN appears
literally in spec scenario S2; the rest are fixed by wire compatibility with
the reference implementation). -/
abbrev BOOLEAN : Nat := 0x00

abbrev DOUBLE : Nat := 0x01

abbrev STRING : Nat := 0x02

abbrev RAW : Nat := 0x03

abbrev BOOLEAN_ARRAY : Nat := 0x10

abbrev DOUBLE_ARRAY : Nat := 0x11

abbrev STRING_ARRAY : Nat := 0x12

abbrev RPC : Nat := 0x20

end V3EntryType

/-- `b in ByteToV3EntryType` of `v3-types` (modelled from the spec's table of
entry types). -/
def isV3EntryType (b : Nat) : Bool :=
  [V3EntryType.BOOLEAN, V3EntryType.DOUBLE, V3EntryType.STRING, V3EntryType.RAW,
   V3EntryType.BOOLEAN_ARRAY, V3EntryType.DOUBLE_ARRAY, V3EntryType.STRING_ARRAY,
   V3EntryType.RPC].contains b

/-- Modelled from the spec: `CLEAR_ALL_ENTRIES_MAGIC_VALUE = 0xD06CB27A`. -/
abbrev CLEAR_ALL_ENTRIES_MAGIC_VALUE : Nat := 0xD06CB27A

/-- `V3EntryFlags` / `NTEntryFlags`: a single `persistent` bit. -/
structure V3EntryFlags where
  persistent : Bool
deriving DecidableEq

/-- `entryFlagsToUInt8` (v3-messages.ts:123): the `typeof`-object guard of the
source is always satisfied by a structure value. -/
def entryFlagsToUInt8 (flags : V3EntryFlags) : Nat :=
  if flags.persistent then 1 else 0

/-- `UInt8ToEntryFlags` (v3-messages.ts:127). -/
def UInt8ToEntryFlags (flagByte : Nat) : V3EntryFlags :=
  { persistent := (flagByte &&& 0x1) == 1 }

mutual
/-- `NTEntryValue` (nt-entry.ts): a record of optional payload fields, one per
entry type; the RPC field holds a full RPC definition, whose parameters carry
default values that are themselves entry values. -/
inductive NTEntryValue where
  | mk (bool : Option Bool) (double : Option Nat) (str : Option (List Nat))
      (raw : Option (List Nat)) (bool_array : Option (List Bool))
      (double_array : Option (List Nat)) (str_array : Option (List (List Nat)))
      (rpc : Option V3RPCDefinition)

inductive V3RPCDefinition where
  | mk (name : List Nat) (parameters : List V3RPCParameter) (results : List V3RPCResult)

inductive V3RPCParameter where
  | mk (type : Nat) (name : List Nat) (value : NTEntryValue)

inductive V3RPCResult where
  | mk (type : Nat) (name : List Nat) (value : NTEntryValue)
end

def NTEntryValue.bool : NTEntryValue → Option Bool
  | .mk b _ _ _ _ _ _ _ => b

def NTEntryValue.double : NTEntryValue → Option Nat
  | .mk _ d _ _ _ _ _ _ => d

def NTEntryValue.str : NTEntryValue → Option (List Nat)
  | .mk _ _ s _ _ _ _ _ => s

def NTEntryValue.raw : NTEntryValue → Option (List Nat)
  | .mk _ _ _ r _ _ _ _ => r

def NTEntryValue.bool_array : NTEntryValue → Option (List Bool)
  | .mk _ _ _ _ ba _ _ _ => ba

def NTEntryValue.double_array : NTEntryValue → Option (List Nat)
  | .mk _ _ _ _ _ da _ _ => da

def NTEntryValue.str_array : NTEntryValue → Option (List (List Nat))
  | .mk _ _ _ _ _ _ sa _ => sa

def NTEntryValue.rpc : NTEntryValue → Option V3RPCDefinition
  | .mk _ _ _ _ _ _ _ r => r

def V3RPCDefinition.name : V3RPCDefinition → List Nat
  | .mk n _ _ => n

def V3RPCDefinition.parameters : V3RPCDefinition → List V3RPCParameter
  | .mk _ ps _ => ps

def V3RPCDefinition.results : V3RPCDefinition → List V3RPCResult
  | .mk _ _ rs => rs

def V3RPCParameter.type : V3RPCParameter → Nat
  | .mk t _ _ => t

def V3RPCParameter.name : V3RPCParameter → List Nat
  | .mk _ n _ => n

def V3RPCParameter.value : V3RPCParameter → NTEntryValue
  | .mk _ _ v => v

def V3RPCResult.type : V3RPCResult → Nat
  | .mk t _ _ => t

def V3RPCResult.name : V3RPCResult → List Nat
  | .mk _ n _ => n

def V3RPCResult.value : V3RPCResult → NTEntryValue
  | .mk _ _ v => v

/-- The empty JS object `{}`: every payload field undefined. -/
def emptyValue : NTEntryValue := ⟨none, none, none, none, none, none, none, none⟩

def mkBool (b : Bool) : NTEntryValue := ⟨some b, none, none, none, none, none, none, none⟩

def mkDouble (d : Nat) : NTEntryValue := ⟨none, some d, none, none, none, none, none, none⟩

def mkStr (s : List Nat) : NTEntryValue := ⟨none, none, some s, none, none, none, none, none⟩

def mkRaw (r : List Nat) : NTEntryValue := ⟨none, none, none, some r, none, none, none, none⟩

def mkBoolArray (a : List Bool) : NTEntryValue := ⟨none, none, none, none, some a, none, none, none⟩

def mkDoubleArray (a : List Nat) : NTEntryValue := ⟨none, none, none, none, none, some a, none, none⟩

def mkStrArray (a : List (List Nat)) : NTEntryValue := ⟨none, none, none, none, none, none, some a, none⟩

def mkRpc (d : V3RPCDefinition) : NTEntryValue := ⟨none, none, none, none, none, none, none, some d⟩

/-- `checkEntryValue` (v3-messages.ts:96): throws `InvalidEntryValueError` when
the payload field selected by the declared type is undefined; an unrecognized
type byte passes through without a check. -/
def checkEntryValue (type : Nat) (valueObj : NTEntryValue) : Except Err Unit :=
  if type = V3EntryType.BOOLEAN && valueObj.bool.isNone then .error .invalidEntryValue
  else if type = V3EntryType.DOUBLE && valueObj.double.isNone then .error .invalidEntryValue
  else if type = V3EntryType.STRING && valueObj.str.isNone then .error .invalidEntryValue
  else if type = V3EntryType.RAW && valueObj.raw.isNone then .error .invalidEntryValue
  else if type = V3EntryType.BOOLEAN_ARRAY && valueObj.bool_array.isNone then .error .invalidEntryValue
  else if type = V3EntryType.DOUBLE_ARRAY && valueObj.double_array.isNone then .error .invalidEntryValue
  else if type = V3EntryType.STRING_ARRAY && valueObj.str_array.isNone then .error .invalidEntryValue
  else if type = V3EntryType.RPC && valueObj.rpc.isNone then .error .invalidEntryValue
  else .ok ()

/-- `encodeRPCResultSpec` (v3-messages.ts:1100): one type byte (`Buffer.from`
stores mod 256) followed by the length-prefixed result name; no default
value. -/
def encodeRPCResultSpec (result : V3RPCResult) : List Nat :=
  result.type % 256 :: encodeLEB128String result.name

mutual
/-- `entryValueToBuffer` (v3-messages.ts:302) and `encodeRPCDefinition`
(v3-messages.ts:1025) with its parameter-spec worker; `Buffer.from([n])`
truncates the stored byte mod 256 (in particular the array counts and the RPC
definition length prefix), and a fall-through of the `switch` (unrecognized
type) leaves the caller dereferencing `undefined`. -/
def entryValueToBuffer (type : Nat) (valueObj : NTEntryValue) : Except Err (List Nat) :=
  match checkEntryValue type valueObj with
  | .error e => .error e
  | .ok _ =>
    if type = V3EntryType.BOOLEAN then
      .ok [if valueObj.bool.getD false then 1 else 0]
    else if type = V3EntryType.DOUBLE then
      .ok (ieee754write (valueObj.double.getD 0))
    else if type = V3EntryType.STRING then
      .ok (encodeLEB128String (valueObj.str.getD []))
    else if type = V3EntryType.RAW then
      .ok (toUnsignedLEB128 (valueObj.raw.getD []).length ++ valueObj.raw.getD [])
    else if type = V3EntryType.BOOLEAN_ARRAY then
      .ok ((valueObj.bool_array.getD []).length % 256 ::
        (valueObj.bool_array.getD []).map (fun val => if val then 1 else 0))
    else if type = V3EntryType.DOUBLE_ARRAY then
      .ok ((valueObj.double_array.getD []).length % 256 ::
        ((valueObj.double_array.getD []).map ieee754write).flatten)
    else if type = V3EntryType.STRING_ARRAY then
      .ok ((valueObj.str_array.getD []).length % 256 ::
        ((valueObj.str_array.getD []).map encodeLEB128String).flatten)
    else if type = V3EntryType.RPC then
      match valueObj with
      | .mk _ _ _ _ _ _ _ (some d) =>
        match encodeRPCDefinition d with
        | .ok encodedRpcBuf => .ok (encodedRpcBuf.length % 256 :: encodedRpcBuf)
        | .error e => .error e
      | .mk _ _ _ _ _ _ _ none => .error .undefinedAccess
    else .error .undefinedAccess

def encodeRPCDefinition : V3RPCDefinition → Except Err (List Nat)
  | .mk defName defParameters defResults =>
    match encodeRPCParameterList defParameters with
    | .error e => .error e
    | .ok paramBuffers =>
      .ok (1 :: encodeLEB128String defName ++
        (paramBuffers.length % 256 :: paramBuffers.flatten) ++
        ((defResults.map encodeRPCResultSpec).length % 256 ::
          (defResults.map encodeRPCResultSpec).flatten))

def encodeRPCParameterList : List V3RPCParameter → Except Err (List (List Nat))
  | [] => .ok []
  | p :: ps =>
    match encodeRPCParameterSpec p with
    | .error e => .error e
    | .ok b =>
      match encodeRPCParameterList ps with
      | .error e => .error e
      | .ok bs => .ok (b :: bs)

def encodeRPCParameterSpec : V3RPCParameter → Except Err (List Nat)
  | .mk paramType paramName paramValue =>
    match entryValueToBuffer paramType paramValue with
    | .error e => .error e
    | .ok vb => .ok (paramType % 256 :: encodeLEB128String paramName ++ vb)
end

/-- `decodeRPCResultSpec` (v3-messages.ts:1083): a raw type byte, the
length-prefixed result name, an empty value payload, and no value bytes.  The
out-of-range case of the raw type read (`buf[offset]` undefined in JS) always
makes the name decode fail, so `getD` is only sampled in bounds. -/
def decodeRPCResultSpec (buf : List Nat) (offset : Nat) : Except Err (V3RPCResult × Nat) :=
  match decodeLEB128String buf (offset + 1) with
  | .error e => .error e
  | .ok (resultName, o) => .ok (⟨buf.getD offset 0, resultName, emptyValue⟩, o)

def decodeRPCResultLoop (buf : List Nat) : Nat → Nat → Except Err (List V3RPCResult × Nat)
  | 0, o => .ok ([], o)
  | n + 1, o =>
    match decodeRPCResultSpec buf o with
    | .error e => .error e
    | .ok (r, o') =>
      match decodeRPCResultLoop buf n o' with
      | .error e => .error e
      | .ok (rs, e') => .ok (r :: rs, e')

/-- The BOOLEAN_ARRAY element loop of `entryValueFromBuffer`: the element
count was bounds-checked beforehand, each byte decodes to `true` iff it is
exactly `1`. -/
def decodeBoolArrayLoop (buf : List Nat) : Nat → Nat → List Bool × Nat
  | 0, o => ([], o)
  | n + 1, o =>
    let res := decodeBoolArrayLoop buf n (o + 1)
    ((buf.getD o 0 == 1) :: res.1, res.2)

def decodeDoubleArrayLoop (buf : List Nat) : Nat → Nat → List Nat × Nat
  | 0, o => ([], o)
  | n + 1, o =>
    let res := decodeDoubleArrayLoop buf n (o + 8)
    (ieee754read buf o :: res.1, res.2)

def decodeStrArrayLoop (buf : List Nat) : Nat → Nat → Except Err (List (List Nat) × Nat)
  | 0, o => .ok ([], o)
  | n + 1, o =>
    match decodeLEB128String buf o with
    | .error e => .error e
    | .ok (s, o') =>
      match decodeStrArrayLoop buf n o' with
      | .error e => .error e
      | .ok (l, e') => .ok (s :: l, e')

mutual
/-- `entryValueFromBuffer` (v3-messages.ts:364), `decodeRPCDefinition`
(v3-messages.ts:976) and `decodeRPCParameterSpec` (v3-messages.ts:1049).
The `fuel` argument is a termination artifact of the embedding: every level
of the RPC-definition recursion consumes at least one byte of the buffer, so
the instantiation `buf.length + 1` used at the message layer never exhausts.
JS reads of possibly out-of-range bytes keep their source semantics: the RPC
version check compares `undefined` unequal to 1, the param/result counts read
as `undefined` drive their loops zero times, and the raw type-byte reads of
the spec decoders are only sampled in bounds (out of range, the following
name decode fails first).  An unrecognized type byte falls through the
`switch`, the caller dereferences `undefined` and throws. -/
def entryValueFromBuffer : Nat → Nat → List Nat → Nat → Except Err (NTEntryValue × Nat)
  | 0, _, _, _ => .error .outOfFuel
  | fuel + 1, type, buf, offset =>
    if type = V3EntryType.BOOLEAN then
      match checkBufferLength buf offset 1 with
      | .error e => .error e
      | .ok _ => .ok (mkBool (buf.getD offset 0 == 1), offset + 1)
    else if type = V3EntryType.DOUBLE then
      match checkBufferLength buf offset 8 with
      | .error e => .error e
      | .ok _ => .ok (mkDouble (ieee754read buf offset), offset + 8)
    else if type = V3EntryType.STRING then
      match decodeLEB128String buf offset with
      | .error e => .error e
      | .ok (s, o) => .ok (mkStr s, o)
    else if type = V3EntryType.RAW then
      match fromUnsignedLEB128 buf offset with
      | .error e => .error e
      | .ok (dataLen, o) =>
        match checkBufferLength buf o dataLen with
        | .error e => .error e
        | .ok _ => .ok (mkRaw ((buf.drop o).take dataLen), o + dataLen)
    else if type = V3EntryType.BOOLEAN_ARRAY then
      match readUInt8 buf offset with
      | .error e => .error e
      | .ok numElems =>
        match checkBufferLength buf (offset + 1) numElems with
        | .error e => .error e
        | .ok _ =>
          let res := decodeBoolArrayLoop buf numElems (offset + 1)
          .ok (mkBoolArray res.1, res.2)
    else if type = V3EntryType.DOUBLE_ARRAY then
      match readUInt8 buf offset with
      | .error e => .error e
      | .ok numElems =>
        match checkBufferLength buf (offset + 1) (numElems * 8) with
        | .error e => .error e
        | .ok _ =>
          let res := decodeDoubleArrayLoop buf numElems (offset + 1)
          .ok (mkDoubleArray res.1, res.2)
    else if type = V3EntryType.STRING_ARRAY then
      match readUInt8 buf offset with
      | .error e => .error e
      | .ok numElems =>
        match checkBufferLength buf (offset + 1) numElems with
        | .error e => .error e
        | .ok _ =>
          match decodeStrArrayLoop buf numElems (offset + 1) with
          | .error e => .error e
          | .ok (arr, o) => .ok (mkStrArray arr, o)
    else if type = V3EntryType.RPC then
      match fromUnsignedLEB128 buf offset with
      | .error e => .error e
      | .ok (bufLen, o) =>
        match checkBufferLength buf o bufLen with
        | .error e => .error e
        | .ok _ =>
          match decodeRPCDefinition fuel buf o with
          | .error e => .error e
          | .ok (d, newOffset) => .ok (mkRpc d, newOffset)
    else .error .undefinedAccess
  termination_by structural fuel => fuel

def decodeRPCDefinition : Nat → List Nat → Nat → Except Err (V3RPCDefinition × Nat)
  | 0, _, _ => .error .outOfFuel
  | fuel + 1, buf, offset =>
    if buf.get? offset = some 1 then
      match decodeLEB128String buf (offset + 1) with
      | .error e => .error e
      | .ok (procedureName, o1) =>
        match decodeRPCParamLoop fuel ((buf.get? o1).getD 0) buf (o1 + 1) with
        | .error e => .error e
        | .ok (params, o2) =>
          match decodeRPCResultLoop buf ((buf.get? o2).getD 0) (o2 + 1) with
          | .error e => .error e
          | .ok (results, o3) => .ok (⟨procedureName, params, results⟩, o3)
    else .error .unsupportedRpcVersion
  termination_by structural fuel => fuel

def decodeRPCParamLoop : Nat → Nat → List Nat → Nat → Except Err (List V3RPCParameter × Nat)
  | 0, _, _, _ => .error .outOfFuel
  | _ + 1, 0, _, o => .ok ([], o)
  | fuel + 1, n + 1, buf, o =>
    match decodeRPCParameterSpec fuel buf o with
    | .error e => .error e
    | .ok (p, o') =>
      match decodeRPCParamLoop fuel n buf o' with
      | .error e => .error e
      | .ok (ps, e') => .ok (p :: ps, e')
  termination_by structural fuel => fuel

def decodeRPCParameterSpec : Nat → List Nat → Nat → Except Err (V3RPCParameter × Nat)
  | 0, _, _ => .error .outOfFuel
  | fuel + 1, buf, offset =>
    match decodeLEB128String buf (offset + 1) with
    | .error e => .error e
    | .ok (paramName, o1) =>
      match entryValueFromBuffer fuel (buf.getD offset 0) buf o1 with
      | .error e => .error e
      | .ok (v, o2) => .ok (⟨buf.getD offset 0, paramName, v⟩, o2)
  termination_by structural fuel => fuel
end

/-- `checkMessageType` (v3-messages.ts:90): compares the byte at `offset`
against the expected type (out of range, JS compares `undefined`, which is
unequal to every type byte). -/
def checkMessageType (buf : List Nat) (offset expectedType : Nat) : Except Err Unit :=
  if buf.get? offset = some expectedType then .ok () else .error .invalidMessageType

/-- The thirteen v3 message variants (v3-messages.ts:7-87). -/
inductive V3Message where
  | keepAlive
  | clientHello (protocolMajor protocolMinor : Nat) (clientIdent : List Nat)
  | protoVersionUnsupported (serverSupportedProtocolMajor serverSupportedProtocolMinor : Nat)
  | serverHelloComplete
  | serverHello (clientPreviouslySeen : Bool) (serverIdentity : List Nat)
  | clientHelloComplete
  | entryAssignment (entryName : List Nat) (entryType entryId entrySeq : Nat)
      (entryFlags : V3EntryFlags) (entryValue : NTEntryValue)
  | entryUpdate (entryId entrySeq entryType : Nat) (entryValue : NTEntryValue)
  | entryFlagsUpdate (entryId : Nat) (entryFlags : V3EntryFlags)
  | entryDelete (entryId : Nat)
  | clearAllEntries
  | rpcExecute (rpcDefinitionId uniqueId : Nat) (parameters : List V3RPCParameter)
  | rpcResponse (rpcDefinitionId uniqueId : Nat) (results : List V3RPCResult)

/-- `keepAliveMessageToBuffer` (v3-messages.ts:139). -/
def keepAliveMessageToBuffer : List Nat := [V3MessageType.KEEP_ALIVE]

/-- `keepAliveMessageFromBuffer` (v3-messages.ts:143). -/
def keepAliveMessageFromBuffer (buf : List Nat) (offset : Nat) : Except Err (V3Message × Nat) :=
  match checkBufferLength buf offset 1 with
  | .error e => .error e
  | .ok _ =>
    match checkMessageType buf offset V3MessageType.KEEP_ALIVE with
    | .error e => .error e
    | .ok _ => .ok (.keepAlive, offset + 1)

/-- `clientHelloMessageToBuffer` (v3-messages.ts:161): the protocol bytes are
hardcoded to `3, 0`; the message's own version fields are not consulted. -/
def clientHelloMessageToBuffer (_protocolMajor _protocolMinor : Nat) (clientIdent : List Nat) : List Nat :=
  V3MessageType.CLIENT_HELLO :: 3 :: 0 :: encodeLEB128String clientIdent

/-- `clientHelloMessageFromBuffer` (v3-messages.ts:168). -/
def clientHelloMessageFromBuffer (buf : List Nat) (offset : Nat) : Except Err (V3Message × Nat) :=
  match checkBufferLength buf offset 4 with
  | .error e => .error e
  | .ok _ =>
    match checkMessageType buf offset V3MessageType.CLIENT_HELLO with
    | .error e => .error e
    | .ok _ =>
      match readUInt8 buf (offset + 1) with
      | .error e => .error e
      | .ok protocolMajor =>
        match readUInt8 buf (offset + 2) with
        | .error e => .error e
        | .ok protocolMinor =>
          match decodeLEB128String buf (offset + 3) with
          | .error e => .error e
          | .ok (clientIdent, o) =>
            .ok (.clientHello protocolMajor protocolMinor clientIdent, o)

/-- `protoVersionUnsupportedMessageToBuffer` (v3-messages.ts:193)
(`Buffer.from` stores the version bytes mod 256). -/
def protoVersionUnsupportedMessageToBuffer (serverSupportedProtocolMajor serverSupportedProtocolMinor : Nat) : List Nat :=
  [V3MessageType.PROTO_VERSION_UNSUPPORTED,
   serverSupportedProtocolMajor % 256, serverSupportedProtocolMinor % 256]

/-- `protoVersionUnsupportedMessageFromBuffer` (v3-messages.ts:205). -/
def protoVersionUnsupportedMessageFromBuffer (buf : List Nat) (offset : Nat) : Except Err (V3Message × Nat) :=
  match checkBufferLength buf offset 3 with
  | .error e => .error e
  | .ok _ =>
    match checkMessageType buf offset V3MessageType.PROTO_VERSION_UNSUPPORTED with
    | .error e => .error e
    | .ok _ =>
      match readUInt8 buf (offset + 1) with
      | .error e => .error e
      | .ok maj =>
        match readUInt8 buf (offset + 2) with
        | .error e => .error e
        | .ok min => .ok (.protoVersionUnsupported maj min, offset + 3)

/-- `serverHelloCompleteMessageToBuffer` (v3-messages.ts:228). -/
def serverHelloCompleteMessageToBuffer : List Nat := [V3MessageType.SERVER_HELLO_COMPLETE]

/-- `serverHelloCompleteMessageFromBuffer` (v3-messages.ts:232). -/
def serverHelloCompleteMessageFromBuffer (buf : List Nat) (offset : Nat) : Except Err (V3Message × Nat) :=
  match checkBufferLength buf offset 1 with
  | .error e => .error e
  | .ok _ =>
    match checkMessageType buf offset V3MessageType.SERVER_HELLO_COMPLETE with
    | .error e => .error e
    | .ok _ => .ok (.serverHelloComplete, offset + 1)

/-- `serverHelloMessageToBuffer` (v3-messages.ts:250). -/
def serverHelloMessageToBuffer (clientPreviouslySeen : Bool) (serverIdentity : List Nat) : List Nat :=
  V3MessageType.SERVER_HELLO :: (if clientPreviouslySeen then 1 else 0) ::
    encodeLEB128String serverIdentity

/-- `serverHelloMessageFromBuffer` (v3-messages.ts:257): the flag byte is a
raw index, in bounds thanks to the preceding length check. -/
def serverHelloMessageFromBuffer (buf : List Nat) (offset : Nat) : Except Err (V3Message × Nat) :=
  match checkBufferLength buf offset 3 with
  | .error e => .error e
  | .ok _ =>
    match checkMessageType buf offset V3MessageType.SERVER_HELLO with
    | .error e => .error e
    | .ok _ =>
      match decodeLEB128String buf (offset + 2) with
      | .error e => .error e
      | .ok (serverIdentity, o) =>
        .ok (.serverHello ((buf.getD (offset + 1) 0 &&& 0x1) == 1) serverIdentity, o)

/-- `clientHelloCompleteMessageToBuffer` (v3-messages.ts:280). -/
def clientHelloCompleteMessageToBuffer : List Nat := [V3MessageType.CLIENT_HELLO_COMPLETE]

/-- `clientHelloCompleteMessageFromBuffer` (v3-messages.ts:284). -/
def clientHelloCompleteMessageFromBuffer (buf : List Nat) (offset : Nat) : Except Err (V3Message × Nat) :=
  match checkBufferLength buf offset 1 with
  | .error e => .error e
  | .ok _ =>
    match checkMessageType buf offset V3MessageType.CLIENT_HELLO_COMPLETE with
    | .error e => .error e
    | .ok _ => .ok (.clientHelloComplete, offset + 1)

/-- `entryAssignmentMessageToBuffer` (v3-messages.ts:487). -/
def entryAssignmentMessageToBuffer (entryName : List Nat) (entryType entryId entrySeq : Nat)
    (entryFlags : V3EntryFlags) (entryValue : NTEntryValue) : Except Err (List Nat) :=
  match checkEntryValue entryType entryValue with
  | .error e => .error e
  | .ok _ =>
    match writeUInt16BE entryId with
    | .error e => .error e
    | .ok idBuf =>
      match writeUInt16BE entrySeq with
      | .error e => .error e
      | .ok seqBuf =>
        match entryValueToBuffer entryType entryValue with
        | .error e => .error e
        | .ok vb =>
          .ok (V3MessageType.ENTRY_ASSIGNMENT :: encodeLEB128String entryName ++
            (entryType % 256 :: idBuf) ++ seqBuf ++ (entryFlagsToUInt8 entryFlags :: vb))

/-- `entryAssignmentMessageFromBuffer` (v3-messages.ts:509): the flags byte is
a raw JS index (`undefined & 1` evaluates to 0 out of range, hence the
`getD 0`). -/
def entryAssignmentMessageFromBuffer (buf : List Nat) (offset : Nat) : Except Err (V3Message × Nat) :=
  match checkBufferLength buf offset 9 with
  | .error e => .error e
  | .ok _ =>
    match checkMessageType buf offset V3MessageType.ENTRY_ASSIGNMENT with
    | .error e => .error e
    | .ok _ =>
      match decodeLEB128String buf (offset + 1) with
      | .error e => .error e
      | .ok (entryName, o1) =>
        match buf.get? o1 with
        | none => .error .invalidEntryType
        | some tb =>
          if isV3EntryType tb then
            match readUInt16BE buf (o1 + 1) with
            | .error e => .error e
            | .ok entryId =>
              match readUInt16BE buf (o1 + 3) with
              | .error e => .error e
              | .ok entrySeq =>
                match entryValueFromBuffer (buf.length + 1) tb buf (o1 + 6) with
                | .error e => .error e
                | .ok (v, o2) =>
                  .ok (.entryAssignment entryName tb entryId entrySeq
                    (UInt8ToEntryFlags (buf.getD (o1 + 5) 0)) v, o2)
          else .error .invalidEntryType

/-- `entryUpdateMessageToBuffer` (v3-messages.ts:560). -/
def entryUpdateMessageToBuffer (entryId entrySeq entryType : Nat)
    (entryValue : NTEntryValue) : Except Err (List Nat) :=
  match checkEntryValue entryType entryValue with
  | .error e => .error e
  | .ok _ =>
    match writeUInt16BE entryId with
    | .error e => .error e
    | .ok idBuf =>
      match writeUInt16BE entrySeq with
      | .error e => .error e
      | .ok seqBuf =>
        match entryValueToBuffer entryType entryValue with
        | .error e => .error e
        | .ok vb =>
          .ok (V3MessageType.ENTRY_UPDATE :: idBuf ++ seqBuf ++ (entryType % 256 :: vb))

/-- `entryUpdateMessageFromBuffer` (v3-messages.ts:578). -/
def entryUpdateMessageFromBuffer (buf : List Nat) (offset : Nat) : Except Err (V3Message × Nat) :=
  match checkBufferLength buf offset 7 with
  | .error e => .error e
  | .ok _ =>
    match checkMessageType buf offset V3MessageType.ENTRY_UPDATE with
    | .error e => .error e
    | .ok _ =>
      match readUInt16BE buf (offset + 1) with
      | .error e => .error e
      | .ok entryId =>
        match readUInt16BE buf (offset + 3) with
        | .error e => .error e
        | .ok entrySeq =>
          match buf.get? (offset + 5) with
          | none => .error .invalidEntryType
          | some tb =>
            if isV3EntryType tb then
              match entryValueFromBuffer (buf.length + 1) tb buf (offset + 6) with
              | .error e => .error e
              | .ok (v, o2) => .ok (.entryUpdate entryId entrySeq tb v, o2)
            else .error .invalidEntryType

/-- `entryFlagsUpdateMessageToBuffer` (v3-messages.ts:615). -/
def entryFlagsUpdateMessageToBuffer (entryId : Nat) (entryFlags : V3EntryFlags) : Except Err (List Nat) :=
  match writeUInt16BE entryId with
  | .error e => .error e
  | .ok idBuf =>
    .ok (V3MessageType.ENTRY_FLAGS_UPDATE :: idBuf ++ [entryFlagsToUInt8 entryFlags])

/-- `entryFlagsUpdateMessageFromBuffer` (v3-messages.ts:626). -/
def entryFlagsUpdateMessageFromBuffer (buf : List Nat) (offset : Nat) : Except Err (V3Message × Nat) :=
  match checkBufferLength buf offset 4 with
  | .error e => .error e
  | .ok _ =>
    match checkMessageType buf offset V3MessageType.ENTRY_FLAGS_UPDATE with
    | .error e => .error e
    | .ok _ =>
      match readUInt16BE buf (offset + 1) with
      | .error e => .error e
      | .ok entryId =>
        .ok (.entryFlagsUpdate entryId (UInt8ToEntryFlags (buf.getD (offset + 3) 0)), offset + 4)

/-- `entryDeleteMessageToBuffer` (v3-messages.ts:648). -/
def entryDeleteMessageToBuffer (entryId : Nat) : Except Err (List Nat) :=
  match writeUInt16BE entryId with
  | .error e => .error e
  | .ok idBuf => .ok (V3MessageType.ENTRY_DELETE :: idBuf)

/-- `entryDeleteMessageFromBuffer` (v3-messages.ts:656): the entry id is read
with `buf.readUInt16BE(1)` — at absolute position 1 of the buffer, not at
`offset + 1` — while the returned offset is still `offset + 3`. -/
def entryDeleteMessageFromBuffer (buf : List Nat) (offset : Nat) : Except Err (V3Message × Nat) :=
  match checkBufferLength buf offset 3 with
  | .error e => .error e
  | .ok _ =>
    match checkMessageType buf offset V3MessageType.ENTRY_DELETE with
    | .error e => .error e
    | .ok _ =>
      match readUInt16BE buf 1 with
      | .error e => .error e
      | .ok entryId => .ok (.entryDelete entryId, offset + 3)

/-- `clearAllEntriesMessageToBuffer` (v3-messages.ts:675). -/
def clearAllEntriesMessageToBuffer : List Nat :=
  V3MessageType.CLEAR_ALL_ENTRIES :: toBytesBE 4 CLEAR_ALL_ENTRIES_MAGIC_VALUE

/-- `clearAllEntriesMessageFromBuffer` (v3-messages.ts:682): the magic is read
with `buf.readUInt32BE(1)` — at absolute positions 1..4 of the buffer, not at
`offset + 1` — and a mismatch throws (`InvalidEntryValueError` with the
invalid-magic text, the spec's `InvalidMagic`). -/
def clearAllEntriesMessageFromBuffer (buf : List Nat) (offset : Nat) : Except Err (V3Message × Nat) :=
  match checkBufferLength buf offset 5 with
  | .error e => .error e
  | .ok _ =>
    match checkMessageType buf offset V3MessageType.CLEAR_ALL_ENTRIES with
    | .error e => .error e
    | .ok _ =>
      match readUInt32BE buf 1 with
      | .error e => .error e
      | .ok magic =>
        if magic = CLEAR_ALL_ENTRIES_MAGIC_VALUE then .ok (.clearAllEntries, offset + 5)
        else .error .invalidMagic

/-- The parameter-value serialization loop of `rpcExecuteMessageToBuffer`
(v3-messages.ts:714, `Buffer.concat` of the per-parameter encodings). -/
def rpcParamValuesToBuffer : List V3RPCParameter → Except Err (List Nat)
  | [] => .ok []
  | p :: ps =>
    match entryValueToBuffer p.type p.value with
    | .error e => .error e
    | .ok b =>
      match rpcParamValuesToBuffer ps with
      | .error e => .error e
      | .ok bs => .ok (b ++ bs)

/-- The result-value serialization loop of `rpcResponseMessageToBuffer`
(v3-messages.ts:791). -/
def rpcResultValuesToBuffer : List V3RPCResult → Except Err (List Nat)
  | [] => .ok []
  | r :: rs =>
    match entryValueToBuffer r.type r.value with
    | .error e => .error e
    | .ok b =>
      match rpcResultValuesToBuffer rs with
      | .error e => .error e
      | .ok bs => .ok (b ++ bs)

/-- `rpcExecuteMessageToBuffer` (v3-messages.ts:704). -/
def rpcExecuteMessageToBuffer (rpcDefinitionId uniqueId : Nat)
    (parameters : List V3RPCParameter) : Except Err (List Nat) :=
  match writeUInt16BE rpcDefinitionId with
  | .error e => .error e
  | .ok defIdBuf =>
    match writeUInt16BE uniqueId with
    | .error e => .error e
    | .ok idBuf =>
      match rpcParamValuesToBuffer parameters with
      | .error e => .error e
      | .ok paramBufs =>
        .ok (V3MessageType.RPC_EXECUTE :: defIdBuf ++ idBuf ++
          toUnsignedLEB128 parameters.length ++ paramBufs)

/-- The parameter-decoding loop of `rpcExecuteMessageFromBuffer`
(v3-messages.ts:753): each value is typed by the definition's parameter spec
and the decoded parameter takes the spec's name (`paramDef.name.slice()`). -/
def rpcExecuteParamsLoop (buf : List Nat) : List V3RPCParameter → Nat → Except Err (List V3RPCParameter × Nat)
  | [], o => .ok ([], o)
  | pd :: pds, o =>
    match entryValueFromBuffer (buf.length + 1) pd.type buf o with
    | .error e => .error e
    | .ok (v, o') =>
      match rpcExecuteParamsLoop buf pds o' with
      | .error e => .error e
      | .ok (ps, e') => .ok (⟨pd.type, pd.name, v⟩ :: ps, e')

/-- `rpcExecuteMessageFromBuffer` (v3-messages.ts:726): fails when the
definitions map lacks the decoded id (`Error("No RPC definition found")`) or
when the LEB128 parameter count differs from the definition's arity
(`Error("Mismatch in RPC parameter counts")`). -/
def rpcExecuteMessageFromBuffer (rpcDefinitions : Nat → Option V3RPCDefinition)
    (buf : List Nat) (offset : Nat) : Except Err (V3Message × Nat) :=
  match checkBufferLength buf offset 6 with
  | .error e => .error e
  | .ok _ =>
    match checkMessageType buf offset V3MessageType.RPC_EXECUTE with
    | .error e => .error e
    | .ok _ =>
      match readUInt16BE buf (offset + 1) with
      | .error e => .error e
      | .ok rpcDefinitionId =>
        match rpcDefinitions rpcDefinitionId with
        | none => .error .unknownRpcDefinition
        | some rpcDefinition =>
          match readUInt16BE buf (offset + 3) with
          | .error e => .error e
          | .ok uniqueId =>
            match fromUnsignedLEB128 buf (offset + 5) with
            | .error e => .error e
            | .ok (numParams, o1) =>
              if numParams = rpcDefinition.parameters.length then
                match rpcExecuteParamsLoop buf rpcDefinition.parameters o1 with
                | .error e => .error e
                | .ok (parameters, o2) =>
                  .ok (.rpcExecute rpcDefinitionId uniqueId parameters, o2)
              else .error .rpcParamCountMismatch

/-- `rpcResponseMessageToBuffer` (v3-messages.ts:781). -/
def rpcResponseMessageToBuffer (rpcDefinitionId uniqueId : Nat)
    (results : List V3RPCResult) : Except Err (List Nat) :=
  match writeUInt16BE rpcDefinitionId with
  | .error e => .error e
  | .ok defIdBuf =>
    match writeUInt16BE uniqueId with
    | .error e => .error e
    | .ok idBuf =>
      match rpcResultValuesToBuffer results with
      | .error e => .error e
      | .ok resultBufs =>
        .ok (V3MessageType.RPC_RESPONSE :: defIdBuf ++ idBuf ++
          toUnsignedLEB128 results.length ++ resultBufs)

/-- The result-decoding loop of `rpcResponseMessageFromBuffer`
(v3-messages.ts:830): each value is typed by the definition's result spec and
takes the spec's name. -/
def rpcResponseResultsLoop (buf : List Nat) : List V3RPCResult → Nat → Except Err (List V3RPCResult × Nat)
  | [], o => .ok ([], o)
  | rd :: rds, o =>
    match entryValueFromBuffer (buf.length + 1) rd.type buf o with
    | .error e => .error e
    | .ok (v, o') =>
      match rpcResponseResultsLoop buf rds o' with
      | .error e => .error e
      | .ok (rs, e') => .ok (⟨rd.type, rd.name, v⟩ :: rs, e')

/-- `rpcResponseMessageFromBuffer` (v3-messages.ts:803): fails when the
definitions map lacks the decoded id or when the LEB128 result count differs
from the definition's result arity. -/
def rpcResponseMessageFromBuffer (rpcDefinitions : Nat → Option V3RPCDefinition)
    (buf : List Nat) (offset : Nat) : Except Err (V3Message × Nat) :=
  match checkBufferLength buf offset 6 with
  | .error e => .error e
  | .ok _ =>
    match checkMessageType buf offset V3MessageType.RPC_RESPONSE with
    | .error e => .error e
    | .ok _ =>
      match readUInt16BE buf (offset + 1) with
      | .error e => .error e
      | .ok rpcDefinitionId =>
        match rpcDefinitions rpcDefinitionId with
        | none => .error .unknownRpcDefinition
        | some rpcDef =>
          match readUInt16BE buf (offset + 3) with
          | .error e => .error e
          | .ok uniqueId =>
            match fromUnsignedLEB128 buf (offset + 5) with
            | .error e => .error e
            | .ok (numResults, o1) =>
              if numResults = rpcDef.results.length then
                match rpcResponseResultsLoop buf rpcDef.results o1 with
                | .error e => .error e
                | .ok (results, o2) =>
                  .ok (.rpcResponse rpcDefinitionId uniqueId results, o2)
              else .error .rpcResultCountMismatch

/-- `getMessageType` (v3-messages.ts:853): the byte at `offset` when it is a
recognized message type (out of range, JS finds `undefined`, which is not a
key of `ByteToV3MessageType`). -/
def getMessageType (buf : List Nat) (offset : Nat) : Except Err Nat :=
  match buf.get? offset with
  | some b => if isV3MessageType b then .ok b else .error .invalidMessageType
  | none => .error .invalidMessageType

/-- `getNextAvailableMessage` (v3-messages.ts:866): dispatch on the type byte;
any thrown error of the per-type decoders is swallowed by the surrounding
`try`/`catch` and surfaces as `undefined` (`none`), indistinguishably for
truncated and malformed input. -/
def getNextAvailableMessage (rpcDefinitions : Nat → Option V3RPCDefinition)
    (buf : List Nat) (offset : Nat) : Option (V3Message × Nat) :=
  match getMessageType buf offset with
  | .error _ => none
  | .ok msgType =>
    if msgType = V3MessageType.KEEP_ALIVE then some (.keepAlive, offset + 1)
    else if msgType = V3MessageType.CLIENT_HELLO then
      (clientHelloMessageFromBuffer buf offset).toOption
    else if msgType = V3MessageType.PROTO_VERSION_UNSUPPORTED then
      (protoVersionUnsupportedMessageFromBuffer buf offset).toOption
    else if msgType = V3MessageType.SERVER_HELLO_COMPLETE then
      some (.serverHelloComplete, offset + 1)
    else if msgType = V3MessageType.SERVER_HELLO then
      (serverHelloMessageFromBuffer buf offset).toOption
    else if msgType = V3MessageType.CLIENT_HELLO_COMPLETE then
      (clientHelloCompleteMessageFromBuffer buf offset).toOption
    else if msgType = V3MessageType.ENTRY_UPDATE then
      (entryUpdateMessageFromBuffer buf offset).toOption
    else if msgType = V3MessageType.ENTRY_ASSIGNMENT then
      (entryAssignmentMessageFromBuffer buf offset).toOption
    else if msgType = V3MessageType.ENTRY_FLAGS_UPDATE then
      (entryFlagsUpdateMessageFromBuffer buf offset).toOption
    else if msgType = V3MessageType.ENTRY_DELETE then
      (entryDeleteMessageFromBuffer buf offset).toOption
    else if msgType = V3MessageType.CLEAR_ALL_ENTRIES then
      (clearAllEntriesMessageFromBuffer buf offset).toOption
    else if msgType = V3MessageType.RPC_EXECUTE then
      (rpcExecuteMessageFromBuffer rpcDefinitions buf offset).toOption
    else if msgType = V3MessageType.RPC_RESPONSE then
      (rpcResponseMessageFromBuffer rpcDefinitions buf offset).toOption
    else none

/-- Dispatcher assembling the per-type `...ToBuffer` encoders of the source,
for quantifying over all message variants at once. -/
def messageToBuffer : V3Message → Except Err (List Nat)
  | .keepAlive => .ok keepAliveMessageToBuffer
  | .clientHello a b i => .ok (clientHelloMessageToBuffer a b i)
  | .protoVersionUnsupported a b => .ok (protoVersionUnsupportedMessageToBuffer a b)
  | .serverHelloComplete => .ok serverHelloCompleteMessageToBuffer
  | .serverHello s i => .ok (serverHelloMessageToBuffer s i)
  | .clientHelloComplete => .ok clientHelloCompleteMessageToBuffer
  | .entryAssignment n t id sq fl v => entryAssignmentMessageToBuffer n t id sq fl v
  | .entryUpdate id sq t v => entryUpdateMessageToBuffer id sq t v
  | .entryFlagsUpdate id fl => entryFlagsUpdateMessageToBuffer id fl
  | .entryDelete id => entryDeleteMessageToBuffer id
  | .clearAllEntries => .ok clearAllEntriesMessageToBuffer
  | .rpcExecute d u ps => rpcExecuteMessageToBuffer d u ps
  | .rpcResponse d u rs => rpcResponseMessageToBuffer d u rs

/-- The seven non-RPC entry type bytes (spec §9: RPC parameter defaults are
never themselves RPC — the value grammar is single-level-recursive). -/
def isScalarV3EntryType (b : Nat) : Bool :=
  [V3EntryType.BOOLEAN, V3EntryType.DOUBLE, V3EntryType.STRING, V3EntryType.RAW,
   V3EntryType.BOOLEAN_ARRAY, V3EntryType.DOUBLE_ARRAY, V3EntryType.STRING_ARRAY].contains b

/-- Well-typedness of a non-RPC value payload per the spec's data model (§3):
exactly the field of the declared type is present, doubles are 64-bit
patterns, arrays carry at most 255 elements (the count is an unsigned 8-bit
byte). -/
def wfScalarValue (t : Nat) (v : NTEntryValue) : Bool :=
  if t = V3EntryType.BOOLEAN then
    match v with
    | .mk (some _) none none none none none none none => true
    | _ => false
  else if t = V3EntryType.DOUBLE then
    match v with
    | .mk none (some d) none none none none none none => decide (d < 2 ^ 64)
    | _ => false
  else if t = V3EntryType.STRING then
    match v with
    | .mk none none (some _) none none none none none => true
    | _ => false
  else if t = V3EntryType.RAW then
    match v with
    | .mk none none none (some _) none none none none => true
    | _ => false
  else if t = V3EntryType.BOOLEAN_ARRAY then
    match v with
    | .mk none none none none (some a) none none none => decide (a.length ≤ 255)
    | _ => false
  else if t = V3EntryType.DOUBLE_ARRAY then
    match v with
    | .mk none none none none none (some a) none none =>
      decide (a.length ≤ 255) && a.all (fun d => decide (d < 2 ^ 64))
    | _ => false
  else if t = V3EntryType.STRING_ARRAY then
    match v with
    | .mk none none none none none none (some a) none => decide (a.length ≤ 255)
    | _ => false
  else false

/-- Well-formedness of an RPC parameter spec: a scalar declared type (spec §9)
with a well-typed default value. -/
def wfRPCParameter (p : V3RPCParameter) : Bool :=
  isScalarV3EntryType p.type && wfScalarValue p.type p.value

/-- Well-formedness of an RPC result spec: a byte-sized type and the empty
value payload that the codec maintains for results (spec §4.3). -/
def wfRPCResult (r : V3RPCResult) : Bool :=
  decide (r.type < 256) &&
    (match r.value with
     | .mk none none none none none none none none => true
     | _ => false)

/-- Well-formedness of an RPC definition: well-formed specs, byte-sized spec
counts, and a serialized form shorter than 128 bytes — the last bound is
forced by the source's RPC length prefix, which is a single truncated byte
read back as LEB128 (see the C2/C3 theorems). -/
def wfRPCDefinition (d : V3RPCDefinition) : Bool :=
  d.parameters.all wfRPCParameter && decide (d.parameters.length ≤ 255) &&
  d.results.all wfRPCResult && decide (d.results.length ≤ 255) &&
  (match encodeRPCDefinition d with
   | .ok b => decide (b.length < 128)
   | .error _ => false)

/-- Well-typedness of an entry value against its declared type byte. -/
def wfEntryValue (t : Nat) (v : NTEntryValue) : Bool :=
  if t = V3EntryType.RPC then
    match v with
    | .mk none none none none none none none (some d) => wfRPCDefinition d
    | _ => false
  else wfScalarValue t v

/-- An RPC_EXECUTE parameter list matching the referenced definition's
parameter specs in arity, type and name, with well-typed values. -/
def specsMatchParams : List V3RPCParameter → List V3RPCParameter → Bool
  | [], [] => true
  | pd :: pds, p :: ps =>
    (p.type == pd.type) && (p.name == pd.name) && isScalarV3EntryType pd.type &&
      wfScalarValue p.type p.value && specsMatchParams pds ps
  | _, _ => false

/-- An RPC_RESPONSE result list matching the referenced definition's result
specs in arity, type and name, with well-typed values. -/
def specsMatchResults : List V3RPCResult → List V3RPCResult → Bool
  | [], [] => true
  | rd :: rds, r :: rs =>
    (r.type == rd.type) && (r.name == rd.name) && isScalarV3EntryType rd.type &&
      wfScalarValue r.type r.value && specsMatchResults rds rs
  | _, _ => false

/-- Well-formedness of a message per the spec's data model: 16-bit entry ids
and sequence numbers, byte-sized version fields, recognized type bytes,
well-typed value payloads, the hardcoded `3, 0` protocol version of
CLIENT_HELLO, and RPC messages agreeing with the definition registered in the
map under their definition id. -/
def wfMessage (defs : Nat → Option V3RPCDefinition) : V3Message → Bool
  | .keepAlive => true
  | .clientHello a b _ => a == 3 && b == 0
  | .protoVersionUnsupported a b => decide (a < 256) && decide (b < 256)
  | .serverHelloComplete => true
  | .serverHello _ _ => true
  | .clientHelloComplete => true
  | .entryAssignment _ t id sq _ v =>
    isV3EntryType t && decide (id < 65536) && decide (sq < 65536) && wfEntryValue t v
  | .entryUpdate id sq t v =>
    isV3EntryType t && decide (id < 65536) && decide (sq < 65536) && wfEntryValue t v
  | .entryFlagsUpdate id _ => decide (id < 65536)
  | .entryDelete id => decide (id < 65536)
  | .clearAllEntries => true
  | .rpcExecute d u ps =>
    decide (d < 65536) && decide (u < 65536) &&
      (match defs d with
       | some rd => specsMatchParams rd.parameters ps
       | none => false)
  | .rpcResponse d u rs =>
    decide (d < 65536) && decide (u < 65536) &&
      (match defs d with
       | some rd => specsMatchResults rd.results rs
       | none => false)

theorem getD_append_at (pre l : List Nat) (i : Nat) :
    (pre ++ l).getD (pre.length + i) 0 = l.getD i 0 := by
  rw [List.getD_append_right pre l 0 (pre.length + i) (by omega)]
  congr 1
  omega

theorem getD_append_zero (pre l : List Nat) :
    (pre ++ l).getD pre.length 0 = l.getD 0 0 := by
  have h := getD_append_at pre l 0
  simpa using h

theorem get?_append_at (pre l : List Nat) (i : Nat) :
    (pre ++ l).get? (pre.length + i) = l.get? i := by
  rw [List.get?_append_right (by omega)]
  congr 1
  omega

theorem get?_append_zero (pre l : List Nat) :
    (pre ++ l).get? pre.length = l.get? 0 := by
  have h := get?_append_at pre l 0
  simpa using h

theorem drop_append_at (pre l : List Nat) (i : Nat) :
    (pre ++ l).drop (pre.length + i) = l.drop i := by
  rw [← List.drop_drop, List.drop_left]

theorem toBytesBE_length (w : Nat) : ∀ n, (toBytesBE w n).length = w := by
  induction w with
  | zero => intro n; rfl
  | succ w ih => intro n; simp [toBytesBE, ih]

theorem fromBytesBE_append_singleton (l : List Nat) (b : Nat) :
    fromBytesBE (l ++ [b]) = fromBytesBE l * 256 + b := by
  unfold fromBytesBE
  rw [List.foldl_append]
  rfl

theorem fromBytesBE_toBytesBE (w : Nat) : ∀ n, fromBytesBE (toBytesBE w n) = n % 256 ^ w := by
  induction w with
  | zero => intro n; simp [toBytesBE, fromBytesBE, Nat.mod_one]
  | succ w ih =>
    intro n
    rw [toBytesBE, fromBytesBE_append_singleton, ih]
    have hp : (256 : Nat) ^ (w + 1) = 256 * 256 ^ w := by ring
    rw [hp, Nat.mod_mul]
    ring

theorem readUInt16BE_at (pre l : List Nat) (a b : Nat) (h : l.getD 0 0 = a) (h1 : l.getD 1 0 = b)
    (hl : 2 ≤ l.length) : readUInt16BE (pre ++ l) pre.length = .ok (a * 256 + b) := by
  have e0 : (pre ++ l).getD pre.length 0 = a := by rw [getD_append_zero, h]
  have e1 : (pre ++ l).getD (pre.length + 1) 0 = b := by rw [getD_append_at, h1]
  have hlen : pre.length + 2 ≤ (pre ++ l).length := by
    simp only [List.length_append]
    omega
  rw [List.getD_eq_getElem?_getD] at e0 e1
  simp [readUInt16BE, hlen, hl, e0, e1]

theorem readUInt16BE_short (buf : List Nat) (o : Nat) (h : buf.length < o + 2) :
    readUInt16BE buf o = .error .outOfRange := by
  simp [readUInt16BE]
  omega

theorem lebCoreEnc_stable : ∀ fuel n fuel', n ≤ fuel → n ≤ fuel' →
    lebCoreEnc fuel n = lebCoreEnc fuel' n := by
  intro fuel
  induction fuel with
  | zero =>
    intro n fuel' h h'
    have hn : n = 0 := by omega
    subst hn
    cases fuel' with
    | zero => rfl
    | succ f' => simp [lebCoreEnc]
  | succ f ih =>
    intro n fuel' h h'
    cases fuel' with
    | zero =>
      have hn : n = 0 := by omega
      subst hn
      simp [lebCoreEnc]
    | succ f' =>
      by_cases hn : n < 128
      · simp [lebCoreEnc, hn]
      · have hd : n / 128 < n := Nat.div_lt_self (by omega) (by omega)
        simp only [lebCoreEnc, hn, if_false]
        rw [ih (n / 128) f' (by omega) (by omega)]

theorem leb_small (n : Nat) (h : n < 128) : toUnsignedLEB128 n = [n] := by
  unfold toUnsignedLEB128
  cases n with
  | zero => rfl
  | succ m => simp [lebCoreEnc, h]

theorem leb_big (n : Nat) (h : 128 ≤ n) :
    toUnsignedLEB128 n = (n % 128 + 128) :: toUnsignedLEB128 (n / 128) := by
  unfold toUnsignedLEB128
  cases n with
  | zero => omega
  | succ m =>
    simp only [lebCoreEnc, show ¬ (m + 1 < 128) from by omega, if_false]
    rw [lebCoreEnc_stable m (Nat.succ m / 128) (Nat.succ m / 128)
      (by have := Nat.div_lt_self (show 0 < Nat.succ m from by omega) (show 1 < 128 from by omega); omega)
      (le_refl _)]

theorem leb_len_pos (n : Nat) : 1 ≤ (toUnsignedLEB128 n).length := by
  by_cases h : n < 128
  · rw [leb_small n h]; simp
  · rw [leb_big n (by omega)]; simp

theorem leb_rt (n : Nat) : ∀ rest, lebDecodeCore (toUnsignedLEB128 n ++ rest) =
    .ok (n, (toUnsignedLEB128 n).length) := by
  induction n using Nat.strong_induction_on with
  | _ n ih =>
    intro rest
    by_cases h : n < 128
    · rw [leb_small n h]
      simp [lebDecodeCore, h]
    · rw [leb_big n (by omega), List.cons_append]
      have step : lebDecodeCore ((n % 128 + 128) :: (toUnsignedLEB128 (n / 128) ++ rest)) =
          match lebDecodeCore (toUnsignedLEB128 (n / 128) ++ rest) with
          | .ok (v, k) => .ok ((n % 128 + 128) % 128 + v * 128, k + 1)
          | .error e => .error e := by
        simp [lebDecodeCore, show ¬ (n % 128 + 128 < 128) from by omega]
      have hd : n / 128 < n := Nat.div_lt_self (by omega) (by omega)
      rw [step, ih (n / 128) hd rest]
      simp only [List.length_cons, Except.ok.injEq, Prod.mk.injEq]
      constructor
      · omega
      · trivial

theorem leb_cut (n : Nat) : ∀ k, k < (toUnsignedLEB128 n).length →
    lebDecodeCore ((toUnsignedLEB128 n).take k) = .error .truncated := by
  induction n using Nat.strong_induction_on with
  | _ n ih =>
    intro k hk
    by_cases h : n < 128
    · rw [leb_small n h] at hk ⊢
      have : k = 0 := by simpa using hk
      subst this
      rfl
    · rw [leb_big n (by omega)] at hk ⊢
      cases k with
      | zero => rfl
      | succ j =>
        have hd : n / 128 < n := Nat.div_lt_self (by omega) (by omega)
        simp only [List.take_succ_cons, lebDecodeCore,
          show ¬ (n % 128 + 128 < 128) from by omega, if_false]
        rw [ih (n / 128) hd j (by simpa using hk)]

theorem fromLEB_rt (pre rest : List Nat) (n : Nat) :
    fromUnsignedLEB128 (pre ++ (toUnsignedLEB128 n ++ rest)) pre.length =
      .ok (n, pre.length + (toUnsignedLEB128 n).length) := by
  unfold fromUnsignedLEB128
  rw [List.drop_left, leb_rt]

theorem str_rt (pre rest s : List Nat) :
    decodeLEB128String (pre ++ (encodeLEB128String s ++ rest)) pre.length =
      .ok (s, pre.length + (encodeLEB128String s).length) := by
  unfold decodeLEB128String encodeLEB128String
  rw [List.append_assoc (toUnsignedLEB128 s.length) s rest, fromLEB_rt]
  dsimp only
  have hfit : pre.length + (toUnsignedLEB128 s.length).length + s.length ≤
      (pre ++ (toUnsignedLEB128 s.length ++ (s ++ rest))).length := by
    simp only [List.length_append]
    omega
  rw [if_pos hfit]
  have hsl : ((pre ++ (toUnsignedLEB128 s.length ++ (s ++ rest))).drop
      (pre.length + (toUnsignedLEB128 s.length).length)).take s.length = s := by
    rw [show pre ++ (toUnsignedLEB128 s.length ++ (s ++ rest)) =
        (pre ++ toUnsignedLEB128 s.length) ++ (s ++ rest) from by simp,
      show pre.length + (toUnsignedLEB128 s.length).length =
        (pre ++ toUnsignedLEB128 s.length).length from by simp,
      List.drop_left, List.take_left]
  rw [hsl]
  simp only [List.length_append, Except.ok.injEq, Prod.mk.injEq]
  constructor
  · trivial
  · omega

theorem str_cut (pre s : List Nat) (k : Nat) (h : k < (encodeLEB128String s).length) :
    decodeLEB128String (pre ++ (encodeLEB128String s).take k) pre.length = .error .truncated := by
  by_cases hk : k < (toUnsignedLEB128 s.length).length
  · have htake : (encodeLEB128String s).take k = (toUnsignedLEB128 s.length).take k := by
      unfold encodeLEB128String
      rw [List.take_append_eq_append_take, show k - (toUnsignedLEB128 s.length).length = 0 from by omega]
      simp
    rw [htake]
    unfold decodeLEB128String fromUnsignedLEB128
    rw [List.drop_left, leb_cut s.length k hk]
  · have hks : k - (toUnsignedLEB128 s.length).length < s.length := by
      have := List.length_append (toUnsignedLEB128 s.length) s
      unfold encodeLEB128String at h
      rw [List.length_append] at h
      omega
    have htake : (encodeLEB128String s).take k =
        toUnsignedLEB128 s.length ++ s.take (k - (toUnsignedLEB128 s.length).length) := by
      unfold encodeLEB128String
      rw [List.take_append_eq_append_take, List.take_of_length_le (by omega)]
    rw [htake]
    unfold decodeLEB128String
    rw [fromLEB_rt pre (s.take (k - (toUnsignedLEB128 s.length).length)) s.length]
    dsimp only
    rw [if_neg]
    simp only [List.length_append, List.length_take]
    omega

/-- C7: `entryFlagsToUInt8` sets exactly bit 0, and sets it iff `persistent`;
`UInt8ToEntryFlags` reads `persistent` from bit 0 and ignores all higher
bits; composing the two maps a byte `b` to `b &&& 1`. -/
theorem claim_C7_entry_flags_bits (f : V3EntryFlags) (b : Nat) :
    entryFlagsToUInt8 f &&& 1 = (if f.persistent then 1 else 0) ∧
    entryFlagsToUInt8 f / 2 = 0 ∧
    ((UInt8ToEntryFlags b).persistent = true ↔ b &&& 1 = 1) ∧
    entryFlagsToUInt8 (UInt8ToEntryFlags b) = b &&& 1 := by
  have hb : b &&& 1 = b % 2 := Nat.and_one_is_mod b
  refine ⟨?_, ?_, ?_, ?_⟩
  · cases hf : f.persistent <;> simp [entryFlagsToUInt8, hf]
  · cases hf : f.persistent <;> simp [entryFlagsToUInt8, hf]
  · simp only [UInt8ToEntryFlags, beq_iff_eq]
  · simp only [entryFlagsToUInt8, UInt8ToEntryFlags, hb]
    rcases Nat.mod_two_eq_zero_or_one b with h2 | h2 <;> simp [h2]

theorem decodeBoolArrayLoop_spec (buf : List Nat) :
    ∀ n o, o + n ≤ buf.length →
      decodeBoolArrayLoop buf n o =
        (((buf.drop o).take n).map (fun b => b == 1), o + n) := by
  intro n
  induction n with
  | zero => intro o h; simp [decodeBoolArrayLoop]
  | succ n ih =>
    intro o h
    have ho : o < buf.length := by omega
    rw [decodeBoolArrayLoop, ih (o + 1) (by omega), List.drop_eq_getElem_cons ho]
    simp only [List.take_succ_cons, List.map_cons, Prod.mk.injEq, List.cons.injEq]
    refine ⟨⟨?_, trivial⟩, by omega⟩
    rw [List.getD_eq_getElem buf 0 ho]

/-- C9: decoding a BOOLEAN value maps the value byte to `true` iff it is
exactly `1`; every other byte (including bytes ≥ 2) yields `false` without
an error; the elements of a BOOLEAN_ARRAY are decoded the same way. -/
theorem claim_C9_boolean_byte_decode (buf : List Nat) (offset fuel : Nat) :
    (offset + 1 ≤ buf.length →
      entryValueFromBuffer (fuel + 1) V3EntryType.BOOLEAN buf offset =
        .ok (mkBool (buf.getD offset 0 == 1), offset + 1)) ∧
    (∀ n, buf.getD offset 0 = n → offset + 1 ≤ buf.length → offset + 1 + n ≤ buf.length →
      entryValueFromBuffer (fuel + 1) V3EntryType.BOOLEAN_ARRAY buf offset =
        .ok (mkBoolArray (((buf.drop (offset + 1)).take n).map (fun b => b == 1)),
          offset + 1 + n)) := by
  constructor
  · intro h
    simp [entryValueFromBuffer, checkBufferLength, h]
  · intro n hn h1 hn2
    have hread : readUInt8 buf offset = .ok n := by
      simp only [readUInt8, if_pos h1, Except.ok.injEq]
      exact hn
    simp [entryValueFromBuffer, V3EntryType.BOOLEAN_ARRAY, V3EntryType.BOOLEAN,
      V3EntryType.DOUBLE, V3EntryType.STRING, V3EntryType.RAW, hread,
      checkBufferLength, hn2, decodeBoolArrayLoop_spec buf n (offset + 1) (by omega)]

/-- C9 witness: byte 2 decodes to `false` without error; array bytes
`1, 2, 0` decode to `true, false, false`. -/
theorem claim_C9_boolean_byte_decode_witness :
    entryValueFromBuffer 2 V3EntryType.BOOLEAN [2] 0 = .ok (mkBool false, 1) ∧
    entryValueFromBuffer 5 V3EntryType.BOOLEAN_ARRAY [3, 1, 2, 0] 0 =
      .ok (mkBoolArray [true, false, false], 4) :=
  ⟨(claim_C9_boolean_byte_decode [2] 0 1).1 (by decide),
   (claim_C9_boolean_byte_decode [3, 1, 2, 0] 0 4).2 3 rfl (by decide) (by decide)⟩

/-- C10: encoding an array value never fails on long arrays: the single count
byte stores the length mod 256 while every element is still serialized, so
the encoded count disagrees with the element count whenever the array has 256
elements or more. -/
theorem claim_C10_array_count_truncation (a : List Bool) (d : List Nat) (s : List (List Nat)) :
    entryValueToBuffer V3EntryType.BOOLEAN_ARRAY (mkBoolArray a) =
      .ok (a.length % 256 :: a.map (fun v => if v then 1 else 0)) ∧
    entryValueToBuffer V3EntryType.DOUBLE_ARRAY (mkDoubleArray d) =
      .ok (d.length % 256 :: (d.map ieee754write).flatten) ∧
    entryValueToBuffer V3EntryType.STRING_ARRAY (mkStrArray s) =
      .ok (s.length % 256 :: (s.map encodeLEB128String).flatten) ∧
    (256 ≤ a.length → a.length % 256 ≠ a.length) := by
  refine ⟨rfl, rfl, rfl, ?_⟩
  intro h
  omega

set_option maxRecDepth 10000 in
/-- C10 witness: a 256-element boolean array encodes with count byte 0 and
256 serialized elements. -/
theorem claim_C10_array_count_truncation_witness :
    entryValueToBuffer V3EntryType.BOOLEAN_ARRAY (mkBoolArray (List.replicate 256 true)) =
      .ok ((List.replicate 256 true).length % 256 ::
        (List.replicate 256 true).map (fun v => if v then 1 else 0)) ∧
    (List.replicate 256 true).length % 256 ≠ (List.replicate 256 true).length :=
  ⟨(claim_C10_array_count_truncation (List.replicate 256 true) [] []).1,
   (claim_C10_array_count_truncation (List.replicate 256 true) [] []).2.2.2 (by decide)⟩

/-- C6: an RPC result spec serializes as exactly one type byte followed by the
length-prefixed result name (no default value), and decoding a result spec
yields an empty value payload and stops right after the name, consuming no
value bytes, whatever follows. -/
theorem claim_C6_rpc_result_specs (r : V3RPCResult) (pre suf name : List Nat) (tb : Nat) :
    encodeRPCResultSpec r = [r.type % 256] ++ encodeLEB128String r.name ∧
    decodeRPCResultSpec (pre ++ ([tb] ++ (encodeLEB128String name ++ suf))) pre.length =
      .ok (⟨tb, name, emptyValue⟩, pre.length + 1 + (encodeLEB128String name).length) := by
  constructor
  · rfl
  · unfold decodeRPCResultSpec
    have hassoc : pre ++ ([tb] ++ (encodeLEB128String name ++ suf)) =
        (pre ++ [tb]) ++ (encodeLEB128String name ++ suf) := by simp
    have hlen : pre.length + 1 = (pre ++ [tb]).length := by simp
    rw [hassoc, hlen, str_rt (pre ++ [tb]) suf name]
    dsimp only
    have htb : ((pre ++ [tb]) ++ (encodeLEB128String name ++ suf)).getD pre.length 0 = tb := by
      rw [show (pre ++ [tb]) ++ (encodeLEB128String name ++ suf) =
          pre ++ ([tb] ++ (encodeLEB128String name ++ suf)) from by simp, getD_append_zero]
      rfl
    rw [htb]

/-- C5 counterexample: at nonzero offset 5 the CLEAR_ALL_ENTRIES message in
the buffer carries the correct magic in its own field (bytes 6..9), yet the
decoder rejects it with `InvalidMagic`, because it validates the magic at
absolute bytes 1..4. -/
theorem claim_C5_counterexample :
    clearAllEntriesMessageFromBuffer
      [0x14, 0, 0, 0, 0, 0x14, 0xD0, 0x6C, 0xB2, 0x7A] 5 = .error .invalidMagic ∧
    fromBytesBE (([0x14, 0, 0, 0, 0, 0x14, 0xD0, 0x6C, 0xB2, 0x7A].drop 6).take 4) =
      CLEAR_ALL_ENTRIES_MAGIC_VALUE := by
  constructor <;> rfl

/-- C5 (amended to offset 0, where the absolute magic read coincides with the
message's magic field): a CLEAR_ALL_ENTRIES message whose 32-bit big-endian
magic differs from 0xD06CB27A is rejected with `InvalidMagic`; the correct
magic decodes with `newOffset = offset + 5 = 5`. -/
theorem claim_C5_clear_all_magic (buf : List Nat) (h5 : 5 ≤ buf.length)
    (ht : buf.get? 0 = some V3MessageType.CLEAR_ALL_ENTRIES) :
    (((buf.getD 1 0 * 256 + buf.getD 2 0) * 256 + buf.getD 3 0) * 256 + buf.getD 4 0 ≠
        CLEAR_ALL_ENTRIES_MAGIC_VALUE →
      clearAllEntriesMessageFromBuffer buf 0 = .error .invalidMagic) ∧
    (((buf.getD 1 0 * 256 + buf.getD 2 0) * 256 + buf.getD 3 0) * 256 + buf.getD 4 0 =
        CLEAR_ALL_ENTRIES_MAGIC_VALUE →
      clearAllEntriesMessageFromBuffer buf 0 = .ok (.clearAllEntries, 5)) := by
  have hchk : checkBufferLength buf 0 5 = .ok () := by
    simp [checkBufferLength, h5]
  have hmt : checkMessageType buf 0 V3MessageType.CLEAR_ALL_ENTRIES = .ok () := by
    rw [List.get?_eq_getElem?] at ht
    simp [checkMessageType, ht]
  have hread : readUInt32BE buf 1 =
      .ok (((buf.getD 1 0 * 256 + buf.getD 2 0) * 256 + buf.getD 3 0) * 256 + buf.getD 4 0) := by
    simp only [readUInt32BE, if_pos (show 1 + 4 ≤ buf.length from by omega)]
  constructor
  · intro hm
    simp only [List.getD_eq_getElem?_getD] at hm
    simp [clearAllEntriesMessageFromBuffer, hchk, hmt, hread, List.getD_eq_getElem?_getD, hm]
  · intro hm
    simp only [List.getD_eq_getElem?_getD] at hm
    simp [clearAllEntriesMessageFromBuffer, hchk, hmt, hread, List.getD_eq_getElem?_getD, hm]

/-- C5 witness: the encoder's own output decodes at offset 0 with newOffset 5,
and a zero magic is rejected with `InvalidMagic`. -/
theorem claim_C5_clear_all_magic_witness :
    clearAllEntriesMessageFromBuffer [0x14, 0xD0, 0x6C, 0xB2, 0x7A] 0 =
      .ok (.clearAllEntries, 5) ∧
    clearAllEntriesMessageFromBuffer [0x14, 0, 0, 0, 0] 0 = .error .invalidMagic :=
  ⟨(claim_C5_clear_all_magic [0x14, 0xD0, 0x6C, 0xB2, 0x7A] (by decide) (by decide)).2 (by decide),
   (claim_C5_clear_all_magic [0x14, 0, 0, 0, 0] (by decide) (by decide)).1 (by decide)⟩

/-- C8: at any offset, `entryDeleteMessageFromBuffer` reads the entry id from
absolute bytes 1..2 (returning `newOffset = offset + 3`), and
`clearAllEntriesMessageFromBuffer` validates the magic read from absolute
bytes 1..4 — neither consults the body bytes at `offset + 1`. -/
theorem claim_C8_absolute_body_reads (buf : List Nat) (offset : Nat) :
    (buf.get? offset = some V3MessageType.ENTRY_DELETE → offset + 3 ≤ buf.length →
      entryDeleteMessageFromBuffer buf offset =
        .ok (.entryDelete (buf.getD 1 0 * 256 + buf.getD 2 0), offset + 3)) ∧
    (buf.get? offset = some V3MessageType.CLEAR_ALL_ENTRIES → offset + 5 ≤ buf.length →
      clearAllEntriesMessageFromBuffer buf offset =
        (if ((buf.getD 1 0 * 256 + buf.getD 2 0) * 256 + buf.getD 3 0) * 256 + buf.getD 4 0 =
            CLEAR_ALL_ENTRIES_MAGIC_VALUE
         then .ok (.clearAllEntries, offset + 5) else .error .invalidMagic)) := by
  constructor
  · intro ht h3
    have hread : readUInt16BE buf 1 = .ok (buf.getD 1 0 * 256 + buf.getD 2 0) := by
      simp only [readUInt16BE, if_pos (show 1 + 2 ≤ buf.length from by omega)]
    have hmt : checkMessageType buf offset V3MessageType.ENTRY_DELETE = .ok () := by
      rw [List.get?_eq_getElem?] at ht
      simp [checkMessageType, ht]
    simp [entryDeleteMessageFromBuffer, checkBufferLength, h3, hmt, hread]
  · intro ht h5
    have hread : readUInt32BE buf 1 =
        .ok (((buf.getD 1 0 * 256 + buf.getD 2 0) * 256 + buf.getD 3 0) * 256 + buf.getD 4 0) := by
      simp only [readUInt32BE, if_pos (show 1 + 4 ≤ buf.length from by omega)]
    have hmt : checkMessageType buf offset V3MessageType.CLEAR_ALL_ENTRIES = .ok () := by
      rw [List.get?_eq_getElem?] at ht
      simp [checkMessageType, ht]
    simp [clearAllEntriesMessageFromBuffer, checkBufferLength, h5, hmt, hread]

/-- C8 witness: decoding ENTRY_DELETE at offset 3 of a buffer whose absolute
bytes 1..2 are `0, 7` yields entry id 7, ignoring the body bytes `9, 9` that
follow the type byte at the offset. -/
theorem claim_C8_absolute_body_reads_witness :
    entryDeleteMessageFromBuffer [5, 0, 7, 0x13, 9, 9] 3 = .ok (.entryDelete 7, 6) :=
  (claim_C8_absolute_body_reads [5, 0, 7, 0x13, 9, 9] 3).1 (by decide) (by decide)

theorem rpcExecuteParamsLoop_shape (buf : List Nat) :
    ∀ (pds : List V3RPCParameter) (o : Nat) (ps : List V3RPCParameter) (e : Nat),
      rpcExecuteParamsLoop buf pds o = .ok (ps, e) →
      ps.length = pds.length ∧
      ps.map V3RPCParameter.type = pds.map V3RPCParameter.type ∧
      ps.map V3RPCParameter.name = pds.map V3RPCParameter.name := by
  intro pds
  induction pds with
  | nil =>
    intro o ps e h
    simp only [rpcExecuteParamsLoop, Except.ok.injEq, Prod.mk.injEq] at h
    simp [← h.1]
  | cons pd pds ih =>
    intro o ps e h
    rw [rpcExecuteParamsLoop] at h
    rcases hv : entryValueFromBuffer (buf.length + 1) pd.type buf o with e' | vo
    · rw [hv] at h; cases h
    · rw [hv] at h
      rcases vo with ⟨v, o'⟩
      dsimp only at h
      rcases hlp : rpcExecuteParamsLoop buf pds o' with e'' | pse
      · rw [hlp] at h; cases h
      · rw [hlp] at h
        rcases pse with ⟨ps', e2⟩
        dsimp only at h
        injection h with h'
        injection h' with h1 h2
        subst h1
        subst h2
        have := ih o' ps' e2 hlp
        simp only [List.length_cons, List.map_cons, List.cons.injEq]
        exact ⟨by omega, ⟨rfl, this.2.1⟩, ⟨rfl, this.2.2⟩⟩

theorem rpcResponseResultsLoop_shape (buf : List Nat) :
    ∀ (rds : List V3RPCResult) (o : Nat) (rs : List V3RPCResult) (e : Nat),
      rpcResponseResultsLoop buf rds o = .ok (rs, e) →
      rs.length = rds.length ∧
      rs.map V3RPCResult.type = rds.map V3RPCResult.type ∧
      rs.map V3RPCResult.name = rds.map V3RPCResult.name := by
  intro rds
  induction rds with
  | nil =>
    intro o rs e h
    simp only [rpcResponseResultsLoop, Except.ok.injEq, Prod.mk.injEq] at h
    simp [← h.1]
  | cons rd rds ih =>
    intro o rs e h
    rw [rpcResponseResultsLoop] at h
    rcases hv : entryValueFromBuffer (buf.length + 1) rd.type buf o with e' | vo
    · rw [hv] at h; cases h
    · rw [hv] at h
      rcases vo with ⟨v, o'⟩
      dsimp only at h
      rcases hlp : rpcResponseResultsLoop buf rds o' with e'' | rse
      · rw [hlp] at h; cases h
      · rw [hlp] at h
        rcases rse with ⟨rs', e2⟩
        dsimp only at h
        injection h with h'
        injection h' with h1 h2
        subst h1
        subst h2
        have := ih o' rs' e2 hlp
        simp only [List.length_cons, List.map_cons, List.cons.injEq]
        exact ⟨by omega, ⟨rfl, this.2.1⟩, ⟨rfl, this.2.2⟩⟩

/-- C4: decoding RPC_EXECUTE and RPC_RESPONSE fails with the
unknown-definition error when the definitions map has no entry under the
decoded definition id, fails with the arity-mismatch error when the decoded
LEB128 count differs from the definition's parameter (result) arity, and on
success returns exactly as many decoded values as the definition's specs,
each typed and named per the corresponding spec. -/
theorem claim_C4_rpc_decode_guards :
    (∀ (defs : Nat → Option V3RPCDefinition) (buf : List Nat) (offset : Nat),
      offset + 6 ≤ buf.length →
      buf.get? offset = some V3MessageType.RPC_EXECUTE →
      (defs (buf.getD (offset + 1) 0 * 256 + buf.getD (offset + 2) 0) = none →
        rpcExecuteMessageFromBuffer defs buf offset = .error .unknownRpcDefinition) ∧
      (∀ d n o1,
        defs (buf.getD (offset + 1) 0 * 256 + buf.getD (offset + 2) 0) = some d →
        fromUnsignedLEB128 buf (offset + 5) = .ok (n, o1) →
        n ≠ d.parameters.length →
        rpcExecuteMessageFromBuffer defs buf offset = .error .rpcParamCountMismatch) ∧
      (∀ d m o2,
        defs (buf.getD (offset + 1) 0 * 256 + buf.getD (offset + 2) 0) = some d →
        rpcExecuteMessageFromBuffer defs buf offset = .ok (m, o2) →
        ∃ ps, m = .rpcExecute (buf.getD (offset + 1) 0 * 256 + buf.getD (offset + 2) 0)
            (buf.getD (offset + 3) 0 * 256 + buf.getD (offset + 4) 0) ps ∧
          ps.length = d.parameters.length ∧
          ps.map V3RPCParameter.type = d.parameters.map V3RPCParameter.type ∧
          ps.map V3RPCParameter.name = d.parameters.map V3RPCParameter.name)) ∧
    (∀ (defs : Nat → Option V3RPCDefinition) (buf : List Nat) (offset : Nat),
      offset + 6 ≤ buf.length →
      buf.get? offset = some V3MessageType.RPC_RESPONSE →
      (defs (buf.getD (offset + 1) 0 * 256 + buf.getD (offset + 2) 0) = none →
        rpcResponseMessageFromBuffer defs buf offset = .error .unknownRpcDefinition) ∧
      (∀ d n o1,
        defs (buf.getD (offset + 1) 0 * 256 + buf.getD (offset + 2) 0) = some d →
        fromUnsignedLEB128 buf (offset + 5) = .ok (n, o1) →
        n ≠ d.results.length →
        rpcResponseMessageFromBuffer defs buf offset = .error .rpcResultCountMismatch) ∧
      (∀ d m o2,
        defs (buf.getD (offset + 1) 0 * 256 + buf.getD (offset + 2) 0) = some d →
        rpcResponseMessageFromBuffer defs buf offset = .ok (m, o2) →
        ∃ rs, m = .rpcResponse (buf.getD (offset + 1) 0 * 256 + buf.getD (offset + 2) 0)
            (buf.getD (offset + 3) 0 * 256 + buf.getD (offset + 4) 0) rs ∧
          rs.length = d.results.length ∧
          rs.map V3RPCResult.type = d.results.map V3RPCResult.type ∧
          rs.map V3RPCResult.name = d.results.map V3RPCResult.name)) := by
  constructor
  · intro defs buf offset h6 ht
    have hchk : checkBufferLength buf offset 6 = .ok () := by
      simp [checkBufferLength, h6]
    have hmt : checkMessageType buf offset V3MessageType.RPC_EXECUTE = .ok () := by
      rw [List.get?_eq_getElem?] at ht
      simp [checkMessageType, ht]
    have hrd1 : readUInt16BE buf (offset + 1) =
        .ok (buf.getD (offset + 1) 0 * 256 + buf.getD (offset + 2) 0) := by
      simp only [readUInt16BE, if_pos (show offset + 1 + 2 ≤ buf.length from by omega)]
    have hrd2 : readUInt16BE buf (offset + 3) =
        .ok (buf.getD (offset + 3) 0 * 256 + buf.getD (offset + 4) 0) := by
      simp only [readUInt16BE, if_pos (show offset + 3 + 2 ≤ buf.length from by omega)]
    refine ⟨?_, ?_, ?_⟩
    · intro hnone
      simp only [rpcExecuteMessageFromBuffer]
      rw [hchk]; dsimp only
      rw [hmt]; dsimp only
      rw [hrd1]; dsimp only
      rw [hnone]
    · intro d n o1 hsome hfl hne
      simp only [rpcExecuteMessageFromBuffer]
      rw [hchk]; dsimp only
      rw [hmt]; dsimp only
      rw [hrd1]; dsimp only
      rw [hsome]; dsimp only
      rw [hrd2]; dsimp only
      rw [hfl]; dsimp only
      rw [if_neg hne]
    · intro d m o2 hsome hok
      simp only [rpcExecuteMessageFromBuffer] at hok
      rw [hchk] at hok; dsimp only at hok
      rw [hmt] at hok; dsimp only at hok
      rw [hrd1] at hok; dsimp only at hok
      rw [hsome] at hok; dsimp only at hok
      rw [hrd2] at hok; dsimp only at hok
      rcases hfl : fromUnsignedLEB128 buf (offset + 5) with e | no1
      · rw [hfl] at hok; cases hok
      · rw [hfl] at hok
        rcases no1 with ⟨n, o1⟩
        dsimp only at hok
        by_cases hn : n = d.parameters.length
        · rw [if_pos hn] at hok
          rcases hlp : rpcExecuteParamsLoop buf d.parameters o1 with e | pse
          · rw [hlp] at hok; cases hok
          · rw [hlp] at hok
            rcases pse with ⟨ps, e2⟩
            dsimp only at hok
            injection hok with hok'
            injection hok' with hm1 hm2
            exact ⟨ps, hm1.symm, rpcExecuteParamsLoop_shape buf d.parameters o1 ps e2 hlp⟩
        · rw [if_neg hn] at hok; cases hok
  · intro defs buf offset h6 ht
    have hchk : checkBufferLength buf offset 6 = .ok () := by
      simp [checkBufferLength, h6]
    have hmt : checkMessageType buf offset V3MessageType.RPC_RESPONSE = .ok () := by
      rw [List.get?_eq_getElem?] at ht
      simp [checkMessageType, ht]
    have hrd1 : readUInt16BE buf (offset + 1) =
        .ok (buf.getD (offset + 1) 0 * 256 + buf.getD (offset + 2) 0) := by
      simp only [readUInt16BE, if_pos (show offset + 1 + 2 ≤ buf.length from by omega)]
    have hrd2 : readUInt16BE buf (offset + 3) =
        .ok (buf.getD (offset + 3) 0 * 256 + buf.getD (offset + 4) 0) := by
      simp only [readUInt16BE, if_pos (show offset + 3 + 2 ≤ buf.length from by omega)]
    refine ⟨?_, ?_, ?_⟩
    · intro hnone
      simp only [rpcResponseMessageFromBuffer]
      rw [hchk]; dsimp only
      rw [hmt]; dsimp only
      rw [hrd1]; dsimp only
      rw [hnone]
    · intro d n o1 hsome hfl hne
      simp only [rpcResponseMessageFromBuffer]
      rw [hchk]; dsimp only
      rw [hmt]; dsimp only
      rw [hrd1]; dsimp only
      rw [hsome]; dsimp only
      rw [hrd2]; dsimp only
      rw [hfl]; dsimp only
      rw [if_neg hne]
    · intro d m o2 hsome hok
      simp only [rpcResponseMessageFromBuffer] at hok
      rw [hchk] at hok; dsimp only at hok
      rw [hmt] at hok; dsimp only at hok
      rw [hrd1] at hok; dsimp only at hok
      rw [hsome] at hok; dsimp only at hok
      rw [hrd2] at hok; dsimp only at hok
      rcases hfl : fromUnsignedLEB128 buf (offset + 5) with e | no1
      · rw [hfl] at hok; cases hok
      · rw [hfl] at hok
        rcases no1 with ⟨n, o1⟩
        dsimp only at hok
        by_cases hn : n = d.results.length
        · rw [if_pos hn] at hok
          rcases hlp : rpcResponseResultsLoop buf d.results o1 with e | rse
          · rw [hlp] at hok; cases hok
          · rw [hlp] at hok
            rcases rse with ⟨rs, e2⟩
            dsimp only at hok
            injection hok with hok'
            injection hok' with hm1 hm2
            exact ⟨rs, hm1.symm, rpcResponseResultsLoop_shape buf d.results o1 rs e2 hlp⟩
        · rw [if_neg hn] at hok; cases hok

/-- C4 witness: with an empty definitions map both RPC decoders report the
unknown-definition error; with a zero-parameter definition under id 5 and an
on-wire count of 3, RPC_EXECUTE reports the parameter-count mismatch. -/
theorem claim_C4_rpc_decode_guards_witness :
    rpcExecuteMessageFromBuffer (fun _ => none) [0x20, 0, 5, 0, 1, 0] 0 =
      .error .unknownRpcDefinition ∧
    rpcResponseMessageFromBuffer (fun _ => none) [0x21, 0, 5, 0, 1, 0] 0 =
      .error .unknownRpcDefinition ∧
    rpcExecuteMessageFromBuffer
      (fun n => if n = 5 then some (.mk [] [] []) else none) [0x20, 0, 5, 0, 1, 3] 0 =
      .error .rpcParamCountMismatch :=
  ⟨(claim_C4_rpc_decode_guards.1 (fun _ => none) [0x20, 0, 5, 0, 1, 0] 0
      (by decide) (by decide)).1 rfl,
   (claim_C4_rpc_decode_guards.2 (fun _ => none) [0x21, 0, 5, 0, 1, 0] 0
      (by decide) (by decide)).1 rfl,
   ((claim_C4_rpc_decode_guards.1
      (fun n => if n = 5 then some (.mk [] [] []) else none) [0x20, 0, 5, 0, 1, 3] 0
      (by decide) (by decide)).2.1 (.mk [] [] []) 3 6 rfl rfl (by decide))⟩

set_option maxRecDepth 100000 in
/-- C3: the claim (and the spec, and the source's own decoder) call for the
RPC entry value to be the serialized definition prefixed by its length as
unsigned LEB128; the encoder instead writes `Buffer.from([len])`, a single
byte truncated mod 256.  Evaluated at a definition whose serialized form is
exactly 128 bytes: the block encodes, the emitted prefix `128` is not the
LEB128 of 128 (which is `[128, 1]`), and the decoder — which does read the
prefix as LEB128, as the claim says — fails on the encoder's own output. -/
theorem claim_C3_rpc_length_prefix_not_leb128 :
    encodeRPCDefinition (.mk (List.replicate 124 65) [] []) =
      .ok ([1, 124] ++ List.replicate 124 65 ++ [0, 0]) ∧
    ([1, 124] ++ List.replicate 124 65 ++ [0, 0]).length = 128 ∧
    entryValueToBuffer V3EntryType.RPC (mkRpc (.mk (List.replicate 124 65) [] [])) =
      .ok (128 :: ([1, 124] ++ List.replicate 124 65 ++ [0, 0])) ∧
    128 :: ([1, 124] ++ List.replicate 124 65 ++ [0, 0]) ≠
      toUnsignedLEB128 ([1, 124] ++ List.replicate 124 65 ++ [0, 0]).length ++
        ([1, 124] ++ List.replicate 124 65 ++ [0, 0]) ∧
    entryValueFromBuffer 130 V3EntryType.RPC
      (128 :: ([1, 124] ++ List.replicate 124 65 ++ [0, 0])) 0 = .error .truncated := by
  refine ⟨rfl, rfl, rfl, ?_, rfl⟩
  intro h
  have hlen := congrArg List.length h
  simp [toUnsignedLEB128, lebCoreEnc] at hlen

theorem value_eta (v : NTEntryValue) :
    v = .mk v.bool v.double v.str v.raw v.bool_array v.double_array v.str_array v.rpc := by
  cases v
  rfl

theorem slice_at (pre mid rest : List Nat) :
    ((pre ++ (mid ++ rest)).drop pre.length).take mid.length = mid := by
  rw [List.drop_left, List.take_left]

theorem take_exact (pre mid rest : List Nat) (n : Nat) (h : mid.length = n) :
    ((pre ++ (mid ++ rest)).drop pre.length).take n = mid := by
  rw [← h, slice_at]

theorem wf_bool_inv {v : NTEntryValue} (hw : wfScalarValue V3EntryType.BOOLEAN v = true) :
    ∃ b, v = mkBool b := by
  obtain ⟨b, d, s, r, ba, da, sa, rp⟩ := v
  cases b with
  | none => simp [wfScalarValue] at hw
  | some bb =>
    cases d <;> cases s <;> cases r <;> cases ba <;> cases da <;> cases sa <;> cases rp <;>
      simp [wfScalarValue, mkBool] at hw ⊢

theorem wf_double_inv {v : NTEntryValue} (hw : wfScalarValue V3EntryType.DOUBLE v = true) :
    ∃ d, v = mkDouble d ∧ d < 2 ^ 64 := by
  obtain ⟨b, d, s, r, ba, da, sa, rp⟩ := v
  cases d with
  | none => cases b <;> simp [wfScalarValue] at hw
  | some dd =>
    cases b <;> cases s <;> cases r <;> cases ba <;> cases da <;> cases sa <;> cases rp <;>
      simp [wfScalarValue, mkDouble] at hw ⊢
    exact hw

theorem wf_str_inv {v : NTEntryValue} (hw : wfScalarValue V3EntryType.STRING v = true) :
    ∃ s, v = mkStr s := by
  obtain ⟨b, d, s, r, ba, da, sa, rp⟩ := v
  cases s with
  | none => cases b <;> cases d <;> simp [wfScalarValue] at hw
  | some ss =>
    cases b <;> cases d <;> cases r <;> cases ba <;> cases da <;> cases sa <;> cases rp <;>
      simp [wfScalarValue, mkStr] at hw ⊢

theorem wf_raw_inv {v : NTEntryValue} (hw : wfScalarValue V3EntryType.RAW v = true) :
    ∃ r, v = mkRaw r := by
  obtain ⟨b, d, s, r, ba, da, sa, rp⟩ := v
  cases r with
  | none => cases b <;> cases d <;> cases s <;> simp [wfScalarValue] at hw
  | some rr =>
    cases b <;> cases d <;> cases s <;> cases ba <;> cases da <;> cases sa <;> cases rp <;>
      simp [wfScalarValue, mkRaw] at hw ⊢

theorem wf_boolarr_inv {v : NTEntryValue}
    (hw : wfScalarValue V3EntryType.BOOLEAN_ARRAY v = true) :
    ∃ a, v = mkBoolArray a ∧ a.length ≤ 255 := by
  obtain ⟨b, d, s, r, ba, da, sa, rp⟩ := v
  cases ba with
  | none => cases b <;> cases d <;> cases s <;> cases r <;> simp [wfScalarValue] at hw
  | some aa =>
    cases b <;> cases d <;> cases s <;> cases r <;> cases da <;> cases sa <;> cases rp <;>
      simp [wfScalarValue, mkBoolArray] at hw ⊢
    exact hw

theorem wf_doublearr_inv {v : NTEntryValue}
    (hw : wfScalarValue V3EntryType.DOUBLE_ARRAY v = true) :
    ∃ a, v = mkDoubleArray a ∧ a.length ≤ 255 ∧ ∀ x ∈ a, x < 2 ^ 64 := by
  obtain ⟨b, d, s, r, ba, da, sa, rp⟩ := v
  cases da with
  | none =>
    cases b <;> cases d <;> cases s <;> cases r <;> cases ba <;> simp [wfScalarValue] at hw
  | some aa =>
    cases b <;> cases d <;> cases s <;> cases r <;> cases ba <;> cases sa <;> cases rp <;>
      simp [wfScalarValue, mkDoubleArray] at hw ⊢
    exact hw

theorem wf_strarr_inv {v : NTEntryValue}
    (hw : wfScalarValue V3EntryType.STRING_ARRAY v = true) :
    ∃ a, v = mkStrArray a ∧ a.length ≤ 255 := by
  obtain ⟨b, d, s, r, ba, da, sa, rp⟩ := v
  cases sa with
  | none =>
    cases b <;> cases d <;> cases s <;> cases r <;> cases ba <;> cases da <;>
      simp [wfScalarValue] at hw
  | some aa =>
    cases b <;> cases d <;> cases s <;> cases r <;> cases ba <;> cases da <;> cases rp <;>
      simp [wfScalarValue, mkStrArray] at hw ⊢
    exact hw

theorem wf_rpc_inv {v : NTEntryValue} (hw : wfEntryValue V3EntryType.RPC v = true) :
    ∃ d, v = mkRpc d ∧ wfRPCDefinition d = true := by
  obtain ⟨b, d, s, r, ba, da, sa, rp⟩ := v
  cases rp with
  | none =>
    cases b <;> cases d <;> cases s <;> cases r <;> cases ba <;> cases da <;> cases sa <;>
      simp [wfEntryValue] at hw
  | some dd =>
    cases b <;> cases d <;> cases s <;> cases r <;> cases ba <;> cases da <;> cases sa <;>
      simp [wfEntryValue, mkRpc] at hw ⊢
    exact hw

theorem scalar_type_lt (t : Nat) (h : isScalarV3EntryType t = true) : t < 256 := by
  simp [isScalarV3EntryType, V3EntryType.BOOLEAN, V3EntryType.DOUBLE, V3EntryType.STRING,
    V3EntryType.RAW, V3EntryType.BOOLEAN_ARRAY, V3EntryType.DOUBLE_ARRAY,
    V3EntryType.STRING_ARRAY] at h
  rcases h with h | h | h | h | h | h | h <;> omega

theorem entry_type_lt (t : Nat) (h : isV3EntryType t = true) : t < 256 := by
  simp [isV3EntryType, V3EntryType.BOOLEAN, V3EntryType.DOUBLE, V3EntryType.STRING,
    V3EntryType.RAW, V3EntryType.BOOLEAN_ARRAY, V3EntryType.DOUBLE_ARRAY,
    V3EntryType.STRING_ARRAY, V3EntryType.RPC] at h
  rcases h with h | h | h | h | h | h | h | h <;> omega

theorem map_ieee754write_flatten_length (a : List Nat) :
    ((a.map ieee754write).flatten).length = 8 * a.length := by
  induction a with
  | nil => rfl
  | cons x a ih =>
    simp only [List.map_cons, List.flatten_cons, List.length_append, ih, ieee754write,
      toBytesBE_length, List.length_cons]
    omega

theorem doubleArrayLoop_rt :
    ∀ (a : List Nat) (pre rest : List Nat), (∀ x ∈ a, x < 2 ^ 64) →
      decodeDoubleArrayLoop (pre ++ ((a.map ieee754write).flatten ++ rest)) a.length pre.length =
        (a, pre.length + 8 * a.length) := by
  intro a
  induction a with
  | nil => intro pre rest _; simp [decodeDoubleArrayLoop]
  | cons x a ih =>
    intro pre rest hb
    simp only [List.map_cons, List.flatten_cons, List.length_cons, List.append_assoc]
    rw [decodeDoubleArrayLoop]
    have hx : ieee754read (pre ++ (ieee754write x ++ ((a.map ieee754write).flatten ++ rest)))
        pre.length = x := by
      unfold ieee754read
      rw [take_exact pre (ieee754write x) ((a.map ieee754write).flatten ++ rest) 8
        (by simp [ieee754write, toBytesBE_length])]
      rw [ieee754write, fromBytesBE_toBytesBE]
      exact Nat.mod_eq_of_lt (hb x (by simp))
    have hre : pre ++ (ieee754write x ++ ((a.map ieee754write).flatten ++ rest)) =
        (pre ++ ieee754write x) ++ ((a.map ieee754write).flatten ++ rest) := by simp
    have hlen : pre.length + 8 = (pre ++ ieee754write x).length := by
      simp [ieee754write, toBytesBE_length]
    rw [hx, hre, hlen, ih (pre ++ ieee754write x) rest (fun y hy => hb y (by simp [hy]))]
    simp only [List.length_append, ieee754write, toBytesBE_length, Prod.mk.injEq,
      List.length_cons]
    constructor
    · trivial
    · omega

theorem strArrayLoop_rt :
    ∀ (ss : List (List Nat)) (pre rest : List Nat),
      decodeStrArrayLoop (pre ++ ((ss.map encodeLEB128String).flatten ++ rest)) ss.length
        pre.length = .ok (ss, pre.length + ((ss.map encodeLEB128String).flatten).length) := by
  intro ss
  induction ss with
  | nil => intro pre rest; simp [decodeStrArrayLoop]
  | cons s ss ih =>
    intro pre rest
    simp only [List.map_cons, List.flatten_cons, List.length_cons, List.append_assoc]
    rw [decodeStrArrayLoop, str_rt pre ((ss.map encodeLEB128String).flatten ++ rest) s]
    dsimp only
    have hre : pre ++ (encodeLEB128String s ++ ((ss.map encodeLEB128String).flatten ++ rest)) =
        (pre ++ encodeLEB128String s) ++ ((ss.map encodeLEB128String).flatten ++ rest) := by
      simp
    have hlen : pre.length + (encodeLEB128String s).length =
        (pre ++ encodeLEB128String s).length := by simp
    rw [hre, hlen, ih (pre ++ encodeLEB128String s) rest]
    simp only [List.length_append, Prod.mk.injEq, Except.ok.injEq]
    refine ⟨trivial, by omega⟩

theorem strArray_flatten_length_ge (ss : List (List Nat)) :
    ss.length ≤ ((ss.map encodeLEB128String).flatten).length := by
  induction ss with
  | nil => simp
  | cons s ss ih =>
    simp only [List.map_cons, List.flatten_cons, List.length_append, List.length_cons]
    have h1 : 1 ≤ (encodeLEB128String s).length := by
      unfold encodeLEB128String
      have := leb_len_pos s.length
      simp only [List.length_append]
      omega
    omega

theorem wf_scalar_types {t : Nat} {v : NTEntryValue} (hw : wfScalarValue t v = true) :
    t = V3EntryType.BOOLEAN ∨ t = V3EntryType.DOUBLE ∨ t = V3EntryType.STRING ∨
    t = V3EntryType.RAW ∨ t = V3EntryType.BOOLEAN_ARRAY ∨ t = V3EntryType.DOUBLE_ARRAY ∨
    t = V3EntryType.STRING_ARRAY := by
  unfold wfScalarValue at hw
  split_ifs at hw with h1 h2 h3 h4 h5 h6 h7
  · exact .inl h1
  · exact .inr (.inl h2)
  · exact .inr (.inr (.inl h3))
  · exact .inr (.inr (.inr (.inl h4)))
  · exact .inr (.inr (.inr (.inr (.inl h5))))
  · exact .inr (.inr (.inr (.inr (.inr (.inl h6)))))
  · exact .inr (.inr (.inr (.inr (.inr (.inr h7)))))

theorem checkBufferLength_ok (buf : List Nat) (o n : Nat) (h : o + n ≤ buf.length) :
    checkBufferLength buf o n = .ok () := by
  unfold checkBufferLength
  rw [if_pos h]

theorem readUInt8_at (pre l : List Nat) (c : Nat) (hc : l.getD 0 0 = c) (hl : 1 ≤ l.length) :
    readUInt8 (pre ++ l) pre.length = .ok c := by
  unfold readUInt8
  rw [if_pos (by simp only [List.length_append]; omega), getD_append_zero, hc]

theorem decode_bool_byte (pre rest : List Nat) (x : Nat) (f : Nat) :
    entryValueFromBuffer (f + 1) V3EntryType.BOOLEAN (pre ++ x :: rest) pre.length =
      .ok (mkBool (x == 1), pre.length + 1) := by
  have hchk : checkBufferLength (pre ++ x :: rest) pre.length 1 = .ok () :=
    checkBufferLength_ok _ _ _ (by simp only [List.length_append, List.length_cons]; omega)
  have hbyte : (pre ++ x :: rest).getD pre.length 0 = x := by
    rw [getD_append_zero]
    rfl
  simp only [entryValueFromBuffer, V3EntryType.BOOLEAN, V3EntryType.DOUBLE,
    V3EntryType.STRING, V3EntryType.RAW, V3EntryType.BOOLEAN_ARRAY, V3EntryType.DOUBLE_ARRAY,
    V3EntryType.STRING_ARRAY, V3EntryType.RPC, Nat.reduceEqDiff, reduceIte]
  rw [hchk]
  dsimp only
  rw [hbyte]

theorem decode_double_bytes (pre rest : List Nat) (d : Nat) (f : Nat) (hd : d < 2 ^ 64) :
    entryValueFromBuffer (f + 1) V3EntryType.DOUBLE (pre ++ (toBytesBE 8 d ++ rest))
      pre.length = .ok (mkDouble d, pre.length + 8) := by
  have hchk : checkBufferLength (pre ++ (toBytesBE 8 d ++ rest)) pre.length 8 = .ok () :=
    checkBufferLength_ok _ _ _
      (by simp only [List.length_append, toBytesBE_length]; omega)
  have hred : ieee754read (pre ++ (toBytesBE 8 d ++ rest)) pre.length = d := by
    unfold ieee754read
    rw [take_exact pre (toBytesBE 8 d) rest 8 (toBytesBE_length 8 d), fromBytesBE_toBytesBE]
    exact Nat.mod_eq_of_lt hd
  simp only [entryValueFromBuffer, V3EntryType.BOOLEAN, V3EntryType.DOUBLE,
    V3EntryType.STRING, V3EntryType.RAW, V3EntryType.BOOLEAN_ARRAY, V3EntryType.DOUBLE_ARRAY,
    V3EntryType.STRING_ARRAY, V3EntryType.RPC, Nat.reduceEqDiff, reduceIte]
  rw [hchk]
  dsimp only
  rw [hred]

theorem decode_string_bytes (pre rest s : List Nat) (f : Nat) :
    entryValueFromBuffer (f + 1) V3EntryType.STRING (pre ++ (encodeLEB128String s ++ rest))
      pre.length = .ok (mkStr s, pre.length + (encodeLEB128String s).length) := by
  simp only [entryValueFromBuffer, V3EntryType.BOOLEAN, V3EntryType.DOUBLE,
    V3EntryType.STRING, V3EntryType.RAW, V3EntryType.BOOLEAN_ARRAY, V3EntryType.DOUBLE_ARRAY,
    V3EntryType.STRING_ARRAY, V3EntryType.RPC, Nat.reduceEqDiff, reduceIte]
  rw [str_rt pre rest s]

theorem decode_raw_bytes (pre rest r : List Nat) (f : Nat) :
    entryValueFromBuffer (f + 1) V3EntryType.RAW
      (pre ++ ((toUnsignedLEB128 r.length ++ r) ++ rest)) pre.length =
      .ok (mkRaw r, pre.length + (toUnsignedLEB128 r.length ++ r).length) := by
  have heq : pre ++ ((toUnsignedLEB128 r.length ++ r) ++ rest) =
      pre ++ (toUnsignedLEB128 r.length ++ (r ++ rest)) := by simp
  simp only [entryValueFromBuffer, V3EntryType.BOOLEAN, V3EntryType.DOUBLE,
    V3EntryType.STRING, V3EntryType.RAW, V3EntryType.BOOLEAN_ARRAY, V3EntryType.DOUBLE_ARRAY,
    V3EntryType.STRING_ARRAY, V3EntryType.RPC, Nat.reduceEqDiff, reduceIte]
  rw [heq, fromLEB_rt pre (r ++ rest) r.length]
  dsimp only
  have hchk : checkBufferLength (pre ++ (toUnsignedLEB128 r.length ++ (r ++ rest)))
      (pre.length + (toUnsignedLEB128 r.length).length) r.length = .ok () :=
    checkBufferLength_ok _ _ _ (by simp only [List.length_append]; omega)
  rw [hchk]
  dsimp only
  have hslice : ((pre ++ (toUnsignedLEB128 r.length ++ (r ++ rest))).drop
      (pre.length + (toUnsignedLEB128 r.length).length)).take r.length = r := by
    rw [show pre ++ (toUnsignedLEB128 r.length ++ (r ++ rest)) =
        (pre ++ toUnsignedLEB128 r.length) ++ (r ++ rest) from by simp,
      show pre.length + (toUnsignedLEB128 r.length).length =
        (pre ++ toUnsignedLEB128 r.length).length from by simp,
      slice_at]
  rw [hslice]
  simp only [List.length_append, Except.ok.injEq, Prod.mk.injEq]
  exact ⟨trivial, by omega⟩

theorem decode_boolarray_bytes (pre rest : List Nat) (a : List Bool) (f : Nat)
    (ha : a.length ≤ 255) :
    entryValueFromBuffer (f + 1) V3EntryType.BOOLEAN_ARRAY
      (pre ++ ((a.length % 256 :: a.map (fun v => if v then 1 else 0)) ++ rest)) pre.length =
      .ok (mkBoolArray a, pre.length + (1 + a.length)) := by
  have hmod : a.length % 256 = a.length := Nat.mod_eq_of_lt (by omega)
  have hread : readUInt8 (pre ++ ((a.length % 256 :: a.map (fun v => if v then 1 else 0)) ++ rest))
      pre.length = .ok a.length := by
    refine readUInt8_at _ _ _ ?_ (by simp)
    simp only [List.cons_append, List.getD]
    simp [hmod]
  have hlenm : (a.map (fun v : Bool => if v then (1 : Nat) else 0)).length = a.length := by simp
  have hchk : checkBufferLength
      (pre ++ ((a.length % 256 :: a.map (fun v => if v then 1 else 0)) ++ rest))
      (pre.length + 1) a.length = .ok () :=
    checkBufferLength_ok _ _ _
      (by simp only [List.length_append, List.length_cons, List.length_map]; omega)
  have hloop := decodeBoolArrayLoop_spec
    (pre ++ ((a.length % 256 :: a.map (fun v => if v then 1 else 0)) ++ rest))
    a.length (pre.length + 1)
    (by simp only [List.length_append, List.length_cons, List.length_map]; omega)
  have hdrop : (pre ++ ((a.length % 256 :: a.map (fun v => if v then 1 else 0)) ++ rest)).drop
      (pre.length + 1) = a.map (fun v => if v then 1 else 0) ++ rest := by
    rw [show pre ++ ((a.length % 256 :: a.map (fun v => if v then 1 else 0)) ++ rest) =
        (pre ++ [a.length % 256]) ++ (a.map (fun v => if v then 1 else 0) ++ rest) from by simp,
      show pre.length + 1 = (pre ++ [a.length % 256]).length from by simp,
      List.drop_left]
  have htake : ((a.map (fun v : Bool => if v then (1 : Nat) else 0)) ++ rest).take a.length =
      a.map (fun v => if v then 1 else 0) := by
    rw [← hlenm, List.take_left]
  have hid : ((a.map (fun v : Bool => if v then (1 : Nat) else 0)).map (fun b => b == 1)) = a := by
    rw [List.map_map]
    have : ((fun b : Nat => b == 1) ∘ fun v : Bool => if v then (1 : Nat) else 0) = id := by
      funext x
      cases x <;> rfl
    rw [this, List.map_id]
  simp only [entryValueFromBuffer, V3EntryType.BOOLEAN, V3EntryType.DOUBLE,
    V3EntryType.STRING, V3EntryType.RAW, V3EntryType.BOOLEAN_ARRAY, V3EntryType.DOUBLE_ARRAY,
    V3EntryType.STRING_ARRAY, V3EntryType.RPC, Nat.reduceEqDiff, reduceIte]
  rw [hread]
  dsimp only
  rw [hchk]
  dsimp only
  rw [hloop, hdrop, htake, hid]
  dsimp only
  simp only [Except.ok.injEq, Prod.mk.injEq]
  exact ⟨trivial, by omega⟩

theorem decode_doublearray_bytes (pre rest : List Nat) (a : List Nat) (f : Nat)
    (ha : a.length ≤ 255) (hb : ∀ x ∈ a, x < 2 ^ 64) :
    entryValueFromBuffer (f + 1) V3EntryType.DOUBLE_ARRAY
      (pre ++ ((a.length % 256 :: (a.map ieee754write).flatten) ++ rest)) pre.length =
      .ok (mkDoubleArray a, pre.length + (1 + 8 * a.length)) := by
  have hmod : a.length % 256 = a.length := Nat.mod_eq_of_lt (by omega)
  have hflat : ((a.map ieee754write).flatten).length = 8 * a.length :=
    map_ieee754write_flatten_length a
  have hread : readUInt8 (pre ++ ((a.length % 256 :: (a.map ieee754write).flatten) ++ rest))
      pre.length = .ok a.length := by
    refine readUInt8_at _ _ _ ?_ (by simp)
    simp only [List.cons_append, List.getD]
    simp [hmod]
  have hchk : checkBufferLength
      (pre ++ ((a.length % 256 :: (a.map ieee754write).flatten) ++ rest))
      (pre.length + 1) (a.length * 8) = .ok () :=
    checkBufferLength_ok _ _ _
      (by simp only [List.length_append, List.length_cons, hflat]; omega)
  have hbufeq : pre ++ ((a.length % 256 :: (a.map ieee754write).flatten) ++ rest) =
      (pre ++ [a.length % 256]) ++ ((a.map ieee754write).flatten ++ rest) := by simp
  have hofs : pre.length + 1 = (pre ++ [a.length % 256]).length := by simp
  have hloop := doubleArrayLoop_rt a (pre ++ [a.length % 256]) rest hb
  simp only [entryValueFromBuffer, V3EntryType.BOOLEAN, V3EntryType.DOUBLE,
    V3EntryType.STRING, V3EntryType.RAW, V3EntryType.BOOLEAN_ARRAY, V3EntryType.DOUBLE_ARRAY,
    V3EntryType.STRING_ARRAY, V3EntryType.RPC, Nat.reduceEqDiff, reduceIte]
  rw [hread]
  dsimp only
  rw [hchk]
  dsimp only
  rw [hbufeq, hofs, hloop]
  dsimp only
  simp only [Except.ok.injEq, Prod.mk.injEq, List.length_append, List.length_cons]
  exact ⟨trivial, by simp; omega⟩

theorem decode_strarray_bytes (pre rest : List Nat) (ss : List (List Nat)) (f : Nat)
    (ha : ss.length ≤ 255) :
    entryValueFromBuffer (f + 1) V3EntryType.STRING_ARRAY
      (pre ++ ((ss.length % 256 :: (ss.map encodeLEB128String).flatten) ++ rest)) pre.length =
      .ok (mkStrArray ss, pre.length + (1 + ((ss.map encodeLEB128String).flatten).length)) := by
  have hmod : ss.length % 256 = ss.length := Nat.mod_eq_of_lt (by omega)
  have hge := strArray_flatten_length_ge ss
  have hread : readUInt8
      (pre ++ ((ss.length % 256 :: (ss.map encodeLEB128String).flatten) ++ rest))
      pre.length = .ok ss.length := by
    refine readUInt8_at _ _ _ ?_ (by simp)
    simp only [List.cons_append, List.getD]
    simp [hmod]
  have hchk : checkBufferLength
      (pre ++ ((ss.length % 256 :: (ss.map encodeLEB128String).flatten) ++ rest))
      (pre.length + 1) ss.length = .ok () :=
    checkBufferLength_ok _ _ _
      (by simp only [List.length_append, List.length_cons]; omega)
  have hbufeq : pre ++ ((ss.length % 256 :: (ss.map encodeLEB128String).flatten) ++ rest) =
      (pre ++ [ss.length % 256]) ++ ((ss.map encodeLEB128String).flatten ++ rest) := by simp
  have hofs : pre.length + 1 = (pre ++ [ss.length % 256]).length := by simp
  have hloop := strArrayLoop_rt ss (pre ++ [ss.length % 256]) rest
  simp only [entryValueFromBuffer, V3EntryType.BOOLEAN, V3EntryType.DOUBLE,
    V3EntryType.STRING, V3EntryType.RAW, V3EntryType.BOOLEAN_ARRAY, V3EntryType.DOUBLE_ARRAY,
    V3EntryType.STRING_ARRAY, V3EntryType.RPC, Nat.reduceEqDiff, reduceIte]
  rw [hread]
  dsimp only
  rw [hchk]
  dsimp only
  rw [hbufeq, hofs, hloop]
  dsimp only
  simp only [Except.ok.injEq, Prod.mk.injEq, List.length_append, List.length_cons]
  exact ⟨trivial, by simp; omega⟩

theorem scalarValue_rt (t : Nat) (v : NTEntryValue) (enc pre rest : List Nat) (f : Nat)
    (hw : wfScalarValue t v = true) (he : entryValueToBuffer t v = .ok enc) :
    entryValueFromBuffer (f + 1) t (pre ++ (enc ++ rest)) pre.length =
      .ok (v, pre.length + enc.length) := by
  rcases wf_scalar_types hw with rfl | rfl | rfl | rfl | rfl | rfl | rfl
  · obtain ⟨b, rfl⟩ := wf_bool_inv hw
    have hrfl : entryValueToBuffer V3EntryType.BOOLEAN (mkBool b) =
        .ok [if b then (1 : Nat) else 0] := rfl
    rw [hrfl] at he
    injection he with h
    subst h
    cases b
    · exact decode_bool_byte pre rest 0 f
    · exact decode_bool_byte pre rest 1 f
  · obtain ⟨d, rfl, hd⟩ := wf_double_inv hw
    have hrfl : entryValueToBuffer V3EntryType.DOUBLE (mkDouble d) = .ok (toBytesBE 8 d) := rfl
    rw [hrfl] at he
    injection he with h
    subst h
    rw [show (toBytesBE 8 d).length = 8 from toBytesBE_length 8 d]
    exact decode_double_bytes pre rest d f hd
  · obtain ⟨s, rfl⟩ := wf_str_inv hw
    have hrfl : entryValueToBuffer V3EntryType.STRING (mkStr s) =
        .ok (encodeLEB128String s) := rfl
    rw [hrfl] at he
    injection he with h
    subst h
    exact decode_string_bytes pre rest s f
  · obtain ⟨r, rfl⟩ := wf_raw_inv hw
    have hrfl : entryValueToBuffer V3EntryType.RAW (mkRaw r) =
        .ok (toUnsignedLEB128 r.length ++ r) := rfl
    rw [hrfl] at he
    injection he with h
    subst h
    exact decode_raw_bytes pre rest r f
  · obtain ⟨a, rfl, ha⟩ := wf_boolarr_inv hw
    have hrfl : entryValueToBuffer V3EntryType.BOOLEAN_ARRAY (mkBoolArray a) =
        .ok (a.length % 256 :: a.map (fun v => if v then 1 else 0)) := rfl
    rw [hrfl] at he
    injection he with h
    subst h
    rw [show (a.length % 256 :: a.map (fun v : Bool => if v then (1 : Nat) else 0)).length =
      1 + a.length from by simp; omega]
    exact decode_boolarray_bytes pre rest a f ha
  · obtain ⟨a, rfl, ha, hb⟩ := wf_doublearr_inv hw
    have hrfl : entryValueToBuffer V3EntryType.DOUBLE_ARRAY (mkDoubleArray a) =
        .ok (a.length % 256 :: (a.map ieee754write).flatten) := rfl
    rw [hrfl] at he
    injection he with h
    subst h
    rw [show (a.length % 256 :: (a.map ieee754write).flatten).length = 1 + 8 * a.length from by
      rw [List.length_cons, map_ieee754write_flatten_length]; omega]
    exact decode_doublearray_bytes pre rest a f ha hb
  · obtain ⟨a, rfl, ha⟩ := wf_strarr_inv hw
    have hrfl : entryValueToBuffer V3EntryType.STRING_ARRAY (mkStrArray a) =
        .ok (a.length % 256 :: (a.map encodeLEB128String).flatten) := rfl
    rw [hrfl] at he
    injection he with h
    subst h
    rw [show (a.length % 256 :: (a.map encodeLEB128String).flatten).length =
      1 + ((a.map encodeLEB128String).flatten).length from by rw [List.length_cons]; omega]
    exact decode_strarray_bytes pre rest a f ha

theorem encodeRPCParameterList_length :
    ∀ (ps : List V3RPCParameter) (bs : List (List Nat)),
      encodeRPCParameterList ps = .ok bs → bs.length = ps.length := by
  intro ps
  induction ps with
  | nil =>
    intro bs h
    simp only [encodeRPCParameterList, Except.ok.injEq] at h
    simp [← h]
  | cons p ps ih =>
    intro bs h
    rw [encodeRPCParameterList] at h
    rcases hsp : encodeRPCParameterSpec p with e | b
    · rw [hsp] at h; cases h
    · rw [hsp] at h
      dsimp only at h
      rcases hls : encodeRPCParameterList ps with e | bs'
      · rw [hls] at h; cases h
      · rw [hls] at h
        dsimp only at h
        injection h with h
        subst h
        simp [ih bs' hls]

theorem encodeRPCParameterSpec_shape (p : V3RPCParameter) (b : List Nat)
    (he : encodeRPCParameterSpec p = .ok b) :
    ∃ vb, entryValueToBuffer p.type p.value = .ok vb ∧
      b = p.type % 256 :: encodeLEB128String p.name ++ vb := by
  obtain ⟨pt, pn, pv⟩ := p
  rw [encodeRPCParameterSpec] at he
  rcases hv : entryValueToBuffer pt pv with e | vb
  · rw [hv] at he; cases he
  · rw [hv] at he
    dsimp only at he
    injection he with he
    exact ⟨vb, hv, he.symm⟩

theorem rpcParamSpec_rt (p : V3RPCParameter) (b pre rest : List Nat) (fuel : Nat)
    (hw : wfRPCParameter p = true) (he : encodeRPCParameterSpec p = .ok b)
    (hfuel : b.length ≤ fuel) :
    decodeRPCParameterSpec fuel (pre ++ (b ++ rest)) pre.length =
      .ok (p, pre.length + b.length) := by
  obtain ⟨vb, hv, hb⟩ := encodeRPCParameterSpec_shape p b he
  obtain ⟨pt, pn, pv⟩ := p
  simp only [V3RPCParameter.type, V3RPCParameter.name, V3RPCParameter.value] at hv hb
  simp only [wfRPCParameter, V3RPCParameter.type, V3RPCParameter.value,
    Bool.and_eq_true] at hw
  have hsc : isScalarV3EntryType pt = true := hw.1
  have hwv : wfScalarValue pt pv = true := hw.2
  have hpt : pt % 256 = pt := Nat.mod_eq_of_lt (scalar_type_lt pt hsc)
  rw [hpt] at hb
  subst hb
  have hlenb : 2 ≤ (pt :: encodeLEB128String pn ++ vb).length := by
    have := leb_len_pos pn.length
    simp only [List.length_cons, List.length_append, encodeLEB128String]
    omega
  obtain ⟨f1, rfl⟩ : ∃ f1, fuel = f1 + 2 := ⟨fuel - 2, by omega⟩
  have hstr := str_rt (pre ++ [pt]) (vb ++ rest) pn
  rw [show (pre ++ [pt]) ++ (encodeLEB128String pn ++ (vb ++ rest)) =
      pre ++ ((pt :: encodeLEB128String pn ++ vb) ++ rest) from by simp,
    show (pre ++ [pt]).length = pre.length + 1 from by simp] at hstr
  have hbyte : (pre ++ ((pt :: encodeLEB128String pn ++ vb) ++ rest)).getD pre.length 0 =
      pt := by
    rw [getD_append_zero]
    rfl
  have hval := scalarValue_rt pt pv vb ((pre ++ [pt]) ++ encodeLEB128String pn) rest f1 hwv hv
  rw [show ((pre ++ [pt]) ++ encodeLEB128String pn) ++ (vb ++ rest) =
      pre ++ ((pt :: encodeLEB128String pn ++ vb) ++ rest) from by simp,
    show ((pre ++ [pt]) ++ encodeLEB128String pn).length =
      pre.length + 1 + (encodeLEB128String pn).length from by simp; omega] at hval
  simp only [decodeRPCParameterSpec]
  rw [hstr]
  dsimp only
  rw [hbyte, hval]
  dsimp only
  simp only [Except.ok.injEq, Prod.mk.injEq, List.length_cons, List.length_append]
  refine ⟨trivial, by omega⟩

theorem rpcParamLoop_rt :
    ∀ (ps : List V3RPCParameter) (bs : List (List Nat)) (pre rest : List Nat) (fuel : Nat),
      ps.all wfRPCParameter = true → encodeRPCParameterList ps = .ok bs →
      bs.flatten.length + 1 ≤ fuel →
      decodeRPCParamLoop fuel ps.length (pre ++ (bs.flatten ++ rest)) pre.length =
        .ok (ps, pre.length + bs.flatten.length) := by
  intro ps
  induction ps with
  | nil =>
    intro bs pre rest fuel hw he hf
    simp only [encodeRPCParameterList, Except.ok.injEq] at he
    subst he
    obtain ⟨f, rfl⟩ : ∃ f, fuel = f + 1 := ⟨fuel - 1, by omega⟩
    simp [decodeRPCParamLoop]
  | cons p ps ih =>
    intro bs pre rest fuel hw he hf
    rw [encodeRPCParameterList] at he
    rcases hsp : encodeRPCParameterSpec p with e | b
    · rw [hsp] at he; cases he
    · rw [hsp] at he
      dsimp only at he
      rcases hls : encodeRPCParameterList ps with e | bs'
      · rw [hls] at he; cases he
      · rw [hls] at he
        dsimp only at he
        injection he with he
        subst he
        simp only [List.all_cons, Bool.and_eq_true] at hw
        have hblen : 1 ≤ b.length := by
          obtain ⟨vb, _, hb⟩ := encodeRPCParameterSpec_shape p b hsp
          subst hb
          simp
        have hflen : (b :: bs').flatten.length = b.length + bs'.flatten.length := by
          simp
        obtain ⟨f, rfl⟩ : ∃ f, fuel = f + 1 := ⟨fuel - 1, by omega⟩
        rw [hflen] at hf
        simp only [List.length_cons, List.flatten_cons]
        rw [decodeRPCParamLoop]
        have hbuf1 : pre ++ ((b ++ bs'.flatten) ++ rest) =
            pre ++ (b ++ (bs'.flatten ++ rest)) := by simp
        rw [hbuf1, rpcParamSpec_rt p b pre (bs'.flatten ++ rest) f hw.1 hsp (by omega)]
        dsimp only
        have hbuf2 : pre ++ (b ++ (bs'.flatten ++ rest)) =
            (pre ++ b) ++ (bs'.flatten ++ rest) := by simp
        have hofs2 : pre.length + b.length = (pre ++ b).length := by simp
        rw [hbuf2, hofs2, ih bs' (pre ++ b) rest f hw.2 hls (by omega)]
        dsimp only
        simp only [Except.ok.injEq, Prod.mk.injEq, List.length_append]
        refine ⟨trivial, by omega⟩

theorem wfRPCResult_inv (r : V3RPCResult) (hw : wfRPCResult r = true) :
    r.type < 256 ∧ r.value = emptyValue := by
  obtain ⟨rt, rn, rv⟩ := r
  obtain ⟨b, d, s, rr, ba, da, sa, rp⟩ := rv
  cases b <;> cases d <;> cases s <;> cases rr <;> cases ba <;> cases da <;> cases sa <;>
    cases rp <;>
    simp [wfRPCResult, V3RPCResult.type, V3RPCResult.value, emptyValue] at hw ⊢
  exact hw

theorem rpcResultSpec_rt (r : V3RPCResult) (pre rest : List Nat) (hw : wfRPCResult r = true) :
    decodeRPCResultSpec (pre ++ (encodeRPCResultSpec r ++ rest)) pre.length =
      .ok (r, pre.length + (encodeRPCResultSpec r).length) := by
  obtain ⟨hlt, hempty⟩ := wfRPCResult_inv r hw
  obtain ⟨rt, rn, rv⟩ := r
  simp only [V3RPCResult.type, V3RPCResult.value] at hlt hempty
  subst hempty
  have hmod : rt % 256 = rt := Nat.mod_eq_of_lt hlt
  have hshape : encodeRPCResultSpec (.mk rt rn emptyValue) = rt :: encodeLEB128String rn := by
    simp only [encodeRPCResultSpec, V3RPCResult.type, V3RPCResult.name, hmod]
  rw [hshape]
  have hstr := str_rt (pre ++ [rt]) rest rn
  rw [show (pre ++ [rt]) ++ (encodeLEB128String rn ++ rest) =
      pre ++ ((rt :: encodeLEB128String rn) ++ rest) from by simp,
    show (pre ++ [rt]).length = pre.length + 1 from by simp] at hstr
  have hbyte : (pre ++ ((rt :: encodeLEB128String rn) ++ rest)).getD pre.length 0 = rt := by
    rw [getD_append_zero]
    rfl
  simp only [decodeRPCResultSpec]
  rw [hstr]
  dsimp only
  rw [hbyte]
  simp only [Except.ok.injEq, Prod.mk.injEq, List.length_cons]
  refine ⟨trivial, by omega⟩

theorem rpcResultLoop_rt :
    ∀ (rs : List V3RPCResult) (pre rest : List Nat), rs.all wfRPCResult = true →
      decodeRPCResultLoop (pre ++ ((rs.map encodeRPCResultSpec).flatten ++ rest)) rs.length
        pre.length = .ok (rs, pre.length + ((rs.map encodeRPCResultSpec).flatten).length) := by
  intro rs
  induction rs with
  | nil => intro pre rest _; simp [decodeRPCResultLoop]
  | cons r rs ih =>
    intro pre rest hw
    simp only [List.all_cons, Bool.and_eq_true] at hw
    simp only [List.map_cons, List.flatten_cons, List.length_cons]
    rw [decodeRPCResultLoop]
    have hspec := rpcResultSpec_rt r pre ((rs.map encodeRPCResultSpec).flatten ++ rest) hw.1
    rw [show pre ++ (encodeRPCResultSpec r ++ ((rs.map encodeRPCResultSpec).flatten ++ rest)) =
      pre ++ ((encodeRPCResultSpec r ++ (rs.map encodeRPCResultSpec).flatten) ++ rest) from by
        simp] at hspec
    rw [hspec]
    dsimp only
    have hrec := ih (pre ++ encodeRPCResultSpec r) rest hw.2
    rw [show (pre ++ encodeRPCResultSpec r) ++ ((rs.map encodeRPCResultSpec).flatten ++ rest) =
      pre ++ ((encodeRPCResultSpec r ++ (rs.map encodeRPCResultSpec).flatten) ++ rest) from by
        simp,
      show (pre ++ encodeRPCResultSpec r).length =
        pre.length + (encodeRPCResultSpec r).length from by simp] at hrec
    rw [hrec]
    dsimp only
    simp only [Except.ok.injEq, Prod.mk.injEq, List.length_append]
    refine ⟨trivial, by omega⟩

theorem rpcDefinition_rt (d : V3RPCDefinition) (block pre rest : List Nat) (f : Nat)
    (hw : wfRPCDefinition d = true) (he : encodeRPCDefinition d = .ok block)
    (hfuel : block.length + 1 ≤ f + 1) :
    decodeRPCDefinition (f + 1) (pre ++ (block ++ rest)) pre.length =
      .ok (d, pre.length + block.length) := by
  obtain ⟨dn, dps, drs⟩ := d
  simp only [wfRPCDefinition, V3RPCDefinition.parameters, V3RPCDefinition.results,
    Bool.and_eq_true, decide_eq_true_eq] at hw
  have hwp := hw.1.1.1.1
  have hple : dps.length ≤ 255 := hw.1.1.1.2
  have hwr := hw.1.1.2
  have hrle : drs.length ≤ 255 := hw.1.2
  rw [encodeRPCDefinition] at he
  rcases hpl : encodeRPCParameterList dps with e | bs
  · rw [hpl] at he; cases he
  · rw [hpl] at he
    dsimp only at he
    injection he with he
    have hbs : bs.length = dps.length := encodeRPCParameterList_length dps bs hpl
    have hmapl : (drs.map encodeRPCResultSpec).length = drs.length := by simp
    rw [hbs, hmapl, Nat.mod_eq_of_lt (show dps.length < 256 by omega),
      Nat.mod_eq_of_lt (show drs.length < 256 by omega)] at he
    subst he
    simp only [decodeRPCDefinition]
    have hv : (pre ++ ((1 :: encodeLEB128String dn ++ (dps.length :: bs.flatten) ++
        (drs.length :: (drs.map encodeRPCResultSpec).flatten)) ++ rest)).get? pre.length =
        some 1 := by
      rw [get?_append_zero]
      rfl
    rw [hv]
    simp only [reduceIte]
    have hstr := str_rt (pre ++ ([1] : List Nat))
      ((dps.length :: bs.flatten) ++
        ((drs.length :: (drs.map encodeRPCResultSpec).flatten) ++ rest)) dn
    rw [show (pre ++ ([1] : List Nat)) ++ (encodeLEB128String dn ++ ((dps.length :: bs.flatten) ++
          ((drs.length :: (drs.map encodeRPCResultSpec).flatten) ++ rest))) =
        pre ++ ((1 :: encodeLEB128String dn ++ (dps.length :: bs.flatten) ++
          (drs.length :: (drs.map encodeRPCResultSpec).flatten)) ++ rest) from by simp,
      show (pre ++ ([1] : List Nat)).length = pre.length + 1 from by simp] at hstr
    rw [hstr]
    dsimp only
    have hc1 : (pre ++ ((1 :: encodeLEB128String dn ++ (dps.length :: bs.flatten) ++
        (drs.length :: (drs.map encodeRPCResultSpec).flatten)) ++ rest)).get?
        (pre.length + 1 + (encodeLEB128String dn).length) = some dps.length := by
      rw [show pre ++ ((1 :: encodeLEB128String dn ++ (dps.length :: bs.flatten) ++
            (drs.length :: (drs.map encodeRPCResultSpec).flatten)) ++ rest) =
          ((pre ++ ([1] : List Nat)) ++ encodeLEB128String dn) ++ ((dps.length :: bs.flatten) ++
            ((drs.length :: (drs.map encodeRPCResultSpec).flatten) ++ rest)) from by simp,
        show pre.length + 1 + (encodeLEB128String dn).length =
          ((pre ++ ([1] : List Nat)) ++ encodeLEB128String dn).length from by simp <;> omega]
      rw [get?_append_zero]
      rfl
    rw [hc1]
    simp only [Option.getD_some]
    have hloopP := rpcParamLoop_rt dps bs
      (((pre ++ ([1] : List Nat)) ++ encodeLEB128String dn) ++ [dps.length])
      ((drs.length :: (drs.map encodeRPCResultSpec).flatten) ++ rest) f hwp hpl
      (by simp only [List.length_cons, List.length_append] at hfuel ⊢; omega)
    rw [show (((pre ++ ([1] : List Nat)) ++ encodeLEB128String dn) ++ [dps.length]) ++
          (bs.flatten ++ ((drs.length :: (drs.map encodeRPCResultSpec).flatten) ++ rest)) =
        pre ++ ((1 :: encodeLEB128String dn ++ (dps.length :: bs.flatten) ++
          (drs.length :: (drs.map encodeRPCResultSpec).flatten)) ++ rest) from by simp,
      show (((pre ++ ([1] : List Nat)) ++ encodeLEB128String dn) ++ [dps.length]).length =
        pre.length + 1 + (encodeLEB128String dn).length + 1 from by simp <;> omega] at hloopP
    rw [hloopP]
    dsimp only
    have hc2 : (pre ++ ((1 :: encodeLEB128String dn ++ (dps.length :: bs.flatten) ++
        (drs.length :: (drs.map encodeRPCResultSpec).flatten)) ++ rest)).get?
        (pre.length + 1 + (encodeLEB128String dn).length + 1 + bs.flatten.length) =
        some drs.length := by
      rw [show pre ++ ((1 :: encodeLEB128String dn ++ (dps.length :: bs.flatten) ++
            (drs.length :: (drs.map encodeRPCResultSpec).flatten)) ++ rest) =
          ((((pre ++ ([1] : List Nat)) ++ encodeLEB128String dn) ++ [dps.length]) ++ bs.flatten) ++
            ((drs.length :: (drs.map encodeRPCResultSpec).flatten) ++ rest) from by simp,
        show pre.length + 1 + (encodeLEB128String dn).length + 1 + bs.flatten.length =
          ((((pre ++ ([1] : List Nat)) ++ encodeLEB128String dn) ++ [dps.length]) ++
            bs.flatten).length from by simp <;> omega]
      rw [get?_append_zero]
      rfl
    rw [hc2]
    simp only [Option.getD_some]
    have hloopR := rpcResultLoop_rt drs
      (((((pre ++ ([1] : List Nat)) ++ encodeLEB128String dn) ++ [dps.length]) ++ bs.flatten) ++
        [drs.length]) rest hwr
    rw [show (((((pre ++ ([1] : List Nat)) ++ encodeLEB128String dn) ++ [dps.length]) ++ bs.flatten) ++
          [drs.length]) ++ ((drs.map encodeRPCResultSpec).flatten ++ rest) =
        pre ++ ((1 :: encodeLEB128String dn ++ (dps.length :: bs.flatten) ++
          (drs.length :: (drs.map encodeRPCResultSpec).flatten)) ++ rest) from by simp,
      show (((((pre ++ ([1] : List Nat)) ++ encodeLEB128String dn) ++ [dps.length]) ++ bs.flatten) ++
          [drs.length]).length =
        pre.length + 1 + (encodeLEB128String dn).length + 1 + bs.flatten.length + 1 from by
          simp <;> omega] at hloopR
    rw [hloopR]
    dsimp only
    simp only [Except.ok.injEq, Prod.mk.injEq, List.length_cons, List.length_append]
    refine ⟨trivial, by omega⟩

theorem entryValue_rt (t : Nat) (v : NTEntryValue) (enc pre rest : List Nat) (fuel : Nat)
    (hw : wfEntryValue t v = true) (he : entryValueToBuffer t v = .ok enc)
    (hfuel : enc.length + 1 ≤ fuel) :
    entryValueFromBuffer fuel t (pre ++ (enc ++ rest)) pre.length =
      .ok (v, pre.length + enc.length) := by
  obtain ⟨f, rfl⟩ : ∃ f, fuel = f + 1 := ⟨fuel - 1, by omega⟩
  by_cases ht : t = V3EntryType.RPC
  · subst ht
    obtain ⟨d, rfl, hwd⟩ := wf_rpc_inv hw
    have hrfl : entryValueToBuffer V3EntryType.RPC (mkRpc d) =
        (match encodeRPCDefinition d with
         | .ok b => .ok (b.length % 256 :: b)
         | .error e => .error e) := rfl
    rw [hrfl] at he
    rcases hed : encodeRPCDefinition d with e | block
    · rw [hed] at he; cases he
    · rw [hed] at he
      dsimp only at he
      injection he with he
      have hlt : block.length < 128 := by
        simp only [wfRPCDefinition, Bool.and_eq_true] at hwd
        have h2 := hwd.2
        rw [hed] at h2
        dsimp only at h2
        exact of_decide_eq_true h2
      rw [Nat.mod_eq_of_lt (show block.length < 256 by omega)] at he
      subst he
      simp only [List.length_cons] at hfuel
      obtain ⟨f1, rfl⟩ : ∃ f1, f = f1 + 1 := ⟨f - 1, by omega⟩
      simp only [entryValueFromBuffer, V3EntryType.BOOLEAN, V3EntryType.DOUBLE,
        V3EntryType.STRING, V3EntryType.RAW, V3EntryType.BOOLEAN_ARRAY,
        V3EntryType.DOUBLE_ARRAY, V3EntryType.STRING_ARRAY, V3EntryType.RPC,
        Nat.reduceEqDiff, reduceIte]
      have hleb := fromLEB_rt pre (block ++ rest) block.length
      rw [leb_small block.length hlt] at hleb
      rw [show pre ++ (([block.length] : List Nat) ++ (block ++ rest)) =
          pre ++ ((block.length :: block) ++ rest) from by simp,
        show ([block.length] : List Nat).length = 1 from rfl] at hleb
      rw [hleb]
      dsimp only
      have hck : checkBufferLength (pre ++ ((block.length :: block) ++ rest))
          (pre.length + 1) block.length = .ok () :=
        checkBufferLength_ok _ _ _ (by simp; omega)
      rw [hck]
      dsimp only
      have hdef := rpcDefinition_rt d block (pre ++ [block.length]) rest f1 hwd hed (by omega)
      rw [show (pre ++ ([block.length] : List Nat)) ++ (block ++ rest) =
          pre ++ ((block.length :: block) ++ rest) from by simp,
        show (pre ++ ([block.length] : List Nat)).length = pre.length + 1 from by simp]
        at hdef
      rw [hdef]
      dsimp only
      simp only [Except.ok.injEq, Prod.mk.injEq, List.length_cons]
      exact ⟨trivial, by omega⟩
  · have hws : wfScalarValue t v = true := by
      unfold wfEntryValue at hw
      rw [if_neg ht] at hw
      exact hw
    exact scalarValue_rt t v enc pre rest f hws he

theorem flags_rt (fl : V3EntryFlags) : UInt8ToEntryFlags (entryFlagsToUInt8 fl) = fl := by
  obtain ⟨p⟩ := fl
  cases p <;> rfl

theorem venc_len_pos (t : Nat) (v : NTEntryValue) (b : List Nat)
    (hw : wfEntryValue t v = true) (he : entryValueToBuffer t v = .ok b) : 1 ≤ b.length := by
  by_cases ht : t = V3EntryType.RPC
  · subst ht
    obtain ⟨d, rfl, _⟩ := wf_rpc_inv hw
    have hshape : entryValueToBuffer V3EntryType.RPC (mkRpc d) =
        (match encodeRPCDefinition d with
         | .ok bb => .ok (bb.length % 256 :: bb)
         | .error e => .error e) := rfl
    rw [hshape] at he
    rcases hed : encodeRPCDefinition d with e | blk
    · rw [hed] at he; cases he
    · rw [hed] at he
      dsimp only at he
      injection he with h
      subst h
      simp
  · have hws : wfScalarValue t v = true := by
      unfold wfEntryValue at hw
      rw [if_neg ht] at hw
      exact hw
    rcases wf_scalar_types hws with rfl | rfl | rfl | rfl | rfl | rfl | rfl
    · obtain ⟨bb, rfl⟩ := wf_bool_inv hws
      have hshape : entryValueToBuffer V3EntryType.BOOLEAN (mkBool bb) =
          .ok [if bb then (1 : Nat) else 0] := rfl
      rw [hshape] at he
      injection he with h
      subst h
      simp
    · obtain ⟨d, rfl, _⟩ := wf_double_inv hws
      have hshape : entryValueToBuffer V3EntryType.DOUBLE (mkDouble d) =
          .ok (toBytesBE 8 d) := rfl
      rw [hshape] at he
      injection he with h
      subst h
      rw [toBytesBE_length]
      omega
    · obtain ⟨s, rfl⟩ := wf_str_inv hws
      have hshape : entryValueToBuffer V3EntryType.STRING (mkStr s) =
          .ok (encodeLEB128String s) := rfl
      rw [hshape] at he
      injection he with h
      subst h
      unfold encodeLEB128String
      have := leb_len_pos s.length
      simp
      omega
    · obtain ⟨r, rfl⟩ := wf_raw_inv hws
      have hshape : entryValueToBuffer V3EntryType.RAW (mkRaw r) =
          .ok (toUnsignedLEB128 r.length ++ r) := rfl
      rw [hshape] at he
      injection he with h
      subst h
      have := leb_len_pos r.length
      simp
      omega
    · obtain ⟨a, rfl, _⟩ := wf_boolarr_inv hws
      have hshape : entryValueToBuffer V3EntryType.BOOLEAN_ARRAY (mkBoolArray a) =
          .ok (a.length % 256 :: a.map (fun val => if val then 1 else 0)) := rfl
      rw [hshape] at he
      injection he with h
      subst h
      simp
    · obtain ⟨a, rfl, _, _⟩ := wf_doublearr_inv hws
      have hshape : entryValueToBuffer V3EntryType.DOUBLE_ARRAY (mkDoubleArray a) =
          .ok (a.length % 256 :: (a.map ieee754write).flatten) := rfl
      rw [hshape] at he
      injection he with h
      subst h
      simp
    · obtain ⟨a, rfl, _⟩ := wf_strarr_inv hws
      have hshape : entryValueToBuffer V3EntryType.STRING_ARRAY (mkStrArray a) =
          .ok (a.length % 256 :: (a.map encodeLEB128String).flatten) := rfl
      rw [hshape] at he
      injection he with h
      subst h
      simp

theorem specsMatchParams_length :
    ∀ (pds ps : List V3RPCParameter), specsMatchParams pds ps = true →
      pds.length = ps.length := by
  intro pds
  induction pds with
  | nil =>
    intro ps h
    cases ps with
    | nil => rfl
    | cons p ps => simp [specsMatchParams] at h
  | cons pd pds ih =>
    intro ps h
    cases ps with
    | nil => simp [specsMatchParams] at h
    | cons p ps =>
      simp only [specsMatchParams, Bool.and_eq_true] at h
      simp [ih ps h.2]

theorem specsMatchResults_length :
    ∀ (rds rs : List V3RPCResult), specsMatchResults rds rs = true →
      rds.length = rs.length := by
  intro rds
  induction rds with
  | nil =>
    intro rs h
    cases rs with
    | nil => rfl
    | cons r rs => simp [specsMatchResults] at h
  | cons rd rds ih =>
    intro rs h
    cases rs with
    | nil => simp [specsMatchResults] at h
    | cons r rs =>
      simp only [specsMatchResults, Bool.and_eq_true] at h
      simp [ih rs h.2]

theorem rt_protoVersionUnsupported (defs : Nat → Option V3RPCDefinition) (a b : Nat)
    (ha : a < 256) (hb : b < 256) :
    getNextAvailableMessage defs (protoVersionUnsupportedMessageToBuffer a b) 0 =
      some (.protoVersionUnsupported a b, (protoVersionUnsupportedMessageToBuffer a b).length) := by
  unfold protoVersionUnsupportedMessageToBuffer
  rw [Nat.mod_eq_of_lt ha, Nat.mod_eq_of_lt hb]
  exact rfl

theorem rt_entryFlagsUpdate (defs : Nat → Option V3RPCDefinition) (id : Nat)
    (fl : V3EntryFlags) (buf : List Nat) (hid : id < 65536)
    (he : entryFlagsUpdateMessageToBuffer id fl = .ok buf) :
    getNextAvailableMessage defs buf 0 = some (.entryFlagsUpdate id fl, buf.length) := by
  unfold entryFlagsUpdateMessageToBuffer at he
  rw [show writeUInt16BE id = .ok [id / 256, id % 256] from by
    unfold writeUInt16BE; rw [if_pos hid]] at he
  dsimp only at he
  injection he with h
  subst h
  have hdec : getNextAvailableMessage defs
      (V3MessageType.ENTRY_FLAGS_UPDATE :: [id / 256, id % 256] ++ [entryFlagsToUInt8 fl]) 0 =
      some (.entryFlagsUpdate (id / 256 * 256 + id % 256)
        (UInt8ToEntryFlags (entryFlagsToUInt8 fl)), 0 + 4) := rfl
  rw [hdec, flags_rt, show id / 256 * 256 + id % 256 = id from by omega]
  simp

theorem rt_entryDelete (defs : Nat → Option V3RPCDefinition) (id : Nat) (buf : List Nat)
    (hid : id < 65536) (he : entryDeleteMessageToBuffer id = .ok buf) :
    getNextAvailableMessage defs buf 0 = some (.entryDelete id, buf.length) := by
  unfold entryDeleteMessageToBuffer at he
  rw [show writeUInt16BE id = .ok [id / 256, id % 256] from by
    unfold writeUInt16BE; rw [if_pos hid]] at he
  dsimp only at he
  injection he with h
  subst h
  have hdec : getNextAvailableMessage defs
      (V3MessageType.ENTRY_DELETE :: [id / 256, id % 256]) 0 =
      some (.entryDelete (id / 256 * 256 + id % 256), 0 + 3) := rfl
  rw [hdec, show id / 256 * 256 + id % 256 = id from by omega]
  simp

theorem rt_clearAllEntries (defs : Nat → Option V3RPCDefinition) :
    getNextAvailableMessage defs clearAllEntriesMessageToBuffer 0 =
      some (.clearAllEntries, clearAllEntriesMessageToBuffer.length) := rfl

theorem encStr_len_pos (s : List Nat) : 1 ≤ (encodeLEB128String s).length := by
  unfold encodeLEB128String
  have := leb_len_pos s.length
  simp
  omega

theorem rt_clientHello (defs : Nat → Option V3RPCDefinition) (a b : Nat) (ident : List Nat)
    (ha : a = 3) (hb : b = 0) :
    getNextAvailableMessage defs (clientHelloMessageToBuffer a b ident) 0 =
      some (.clientHello a b ident, (clientHelloMessageToBuffer a b ident).length) := by
  subst ha
  subst hb
  unfold clientHelloMessageToBuffer
  have hfb : clientHelloMessageFromBuffer
      (V3MessageType.CLIENT_HELLO :: 3 :: 0 :: encodeLEB128String ident) 0 =
      .ok (.clientHello 3 0 ident, 3 + (encodeLEB128String ident).length) := by
    unfold clientHelloMessageFromBuffer
    have hlen := encStr_len_pos ident
    rw [checkBufferLength_ok _ _ _ (by simp; omega)]
    dsimp only
    rw [show checkMessageType (V3MessageType.CLIENT_HELLO :: 3 :: 0 :: encodeLEB128String ident)
        0 V3MessageType.CLIENT_HELLO = .ok () from rfl]
    dsimp only
    have h2 := readUInt8_at [V3MessageType.CLIENT_HELLO] (3 :: 0 :: encodeLEB128String ident)
      3 rfl (by simp)
    rw [show ([V3MessageType.CLIENT_HELLO] : List Nat) ++ (3 :: 0 :: encodeLEB128String ident) =
        V3MessageType.CLIENT_HELLO :: 3 :: 0 :: encodeLEB128String ident from rfl,
      show ([V3MessageType.CLIENT_HELLO] : List Nat).length = 1 from rfl] at h2
    rw [h2]
    dsimp only
    have h3 := readUInt8_at [V3MessageType.CLIENT_HELLO, 3] (0 :: encodeLEB128String ident)
      0 rfl (by simp)
    rw [show ([V3MessageType.CLIENT_HELLO, 3] : List Nat) ++ (0 :: encodeLEB128String ident) =
        V3MessageType.CLIENT_HELLO :: 3 :: 0 :: encodeLEB128String ident from rfl,
      show ([V3MessageType.CLIENT_HELLO, 3] : List Nat).length = 2 from rfl] at h3
    rw [h3]
    dsimp only
    have h4 := str_rt [V3MessageType.CLIENT_HELLO, 3, 0] [] ident
    rw [show ([V3MessageType.CLIENT_HELLO, 3, 0] : List Nat) ++
          (encodeLEB128String ident ++ []) =
        V3MessageType.CLIENT_HELLO :: 3 :: 0 :: encodeLEB128String ident from by simp,
      show ([V3MessageType.CLIENT_HELLO, 3, 0] : List Nat).length = 3 from rfl] at h4
    rw [h4]
  unfold getNextAvailableMessage
  rw [show getMessageType (V3MessageType.CLIENT_HELLO :: 3 :: 0 :: encodeLEB128String ident) 0 =
      .ok V3MessageType.CLIENT_HELLO from rfl]
  dsimp only
  simp only [V3MessageType.KEEP_ALIVE, V3MessageType.CLIENT_HELLO,
    V3MessageType.PROTO_VERSION_UNSUPPORTED, V3MessageType.SERVER_HELLO_COMPLETE,
    V3MessageType.SERVER_HELLO, V3MessageType.CLIENT_HELLO_COMPLETE,
    V3MessageType.ENTRY_UPDATE, V3MessageType.ENTRY_ASSIGNMENT,
    V3MessageType.ENTRY_FLAGS_UPDATE, V3MessageType.ENTRY_DELETE,
    V3MessageType.CLEAR_ALL_ENTRIES, V3MessageType.RPC_EXECUTE, V3MessageType.RPC_RESPONSE,
    Nat.reduceEqDiff, reduceIte]
  rw [hfb]
  dsimp only [Except.toOption]
  simp only [Option.some.injEq, Prod.mk.injEq, List.length_cons]
  exact ⟨trivial, by omega⟩

theorem serverHello_decode (fb : Nat) (ident : List Nat) :
    serverHelloMessageFromBuffer (V3MessageType.SERVER_HELLO :: fb :: encodeLEB128String ident)
      0 = .ok (.serverHello ((fb &&& 1) == 1) ident,
        2 + (encodeLEB128String ident).length) := by
  unfold serverHelloMessageFromBuffer
  have hlen := encStr_len_pos ident
  rw [checkBufferLength_ok _ _ _ (by simp; omega)]
  dsimp only
  rw [show checkMessageType (V3MessageType.SERVER_HELLO :: fb :: encodeLEB128String ident)
      0 V3MessageType.SERVER_HELLO = .ok () from rfl]
  dsimp only
  have h4 := str_rt [V3MessageType.SERVER_HELLO, fb] [] ident
  rw [show ([V3MessageType.SERVER_HELLO, fb] : List Nat) ++ (encodeLEB128String ident ++ []) =
      V3MessageType.SERVER_HELLO :: fb :: encodeLEB128String ident from by simp,
    show ([V3MessageType.SERVER_HELLO, fb] : List Nat).length = 2 from rfl] at h4
  rw [h4]
  dsimp only
  rw [show (V3MessageType.SERVER_HELLO :: fb :: encodeLEB128String ident).getD (0 + 1) 0 = fb
    from rfl]

theorem rt_serverHello (defs : Nat → Option V3RPCDefinition) (seen : Bool) (ident : List Nat) :
    getNextAvailableMessage defs (serverHelloMessageToBuffer seen ident) 0 =
      some (.serverHello seen ident, (serverHelloMessageToBuffer seen ident).length) := by
  unfold serverHelloMessageToBuffer
  have hstep : ∀ fb : Nat, ((fb &&& 1) == 1) = seen →
      getNextAvailableMessage defs
        (V3MessageType.SERVER_HELLO :: fb :: encodeLEB128String ident) 0 =
      some (.serverHello seen ident,
        (V3MessageType.SERVER_HELLO :: fb :: encodeLEB128String ident).length) := by
    intro fb hflag
    unfold getNextAvailableMessage
    rw [show getMessageType (V3MessageType.SERVER_HELLO :: fb :: encodeLEB128String ident) 0 =
        .ok V3MessageType.SERVER_HELLO from rfl]
    dsimp only
    simp only [V3MessageType.KEEP_ALIVE, V3MessageType.CLIENT_HELLO,
      V3MessageType.PROTO_VERSION_UNSUPPORTED, V3MessageType.SERVER_HELLO_COMPLETE,
      V3MessageType.SERVER_HELLO, V3MessageType.CLIENT_HELLO_COMPLETE,
      V3MessageType.ENTRY_UPDATE, V3MessageType.ENTRY_ASSIGNMENT,
      V3MessageType.ENTRY_FLAGS_UPDATE, V3MessageType.ENTRY_DELETE,
      V3MessageType.CLEAR_ALL_ENTRIES, V3MessageType.RPC_EXECUTE, V3MessageType.RPC_RESPONSE,
      Nat.reduceEqDiff, reduceIte]
    rw [serverHello_decode fb ident, hflag]
    dsimp only [Except.toOption]
    simp only [Option.some.injEq, Prod.mk.injEq, List.length_cons]
    exact ⟨trivial, by omega⟩
  cases seen
  · simp only [Bool.false_eq_true, reduceIte]
    exact hstep 0 (by decide)
  · simp only [reduceIte]
    exact hstep 1 (by decide)

theorem entryUpdate_decode (id sq t : Nat) (vb : List Nat) (v : NTEntryValue)
    (hts : isV3EntryType t = true) (hwv : wfEntryValue t v = true)
    (hv : entryValueToBuffer t v = .ok vb) :
    entryUpdateMessageFromBuffer
      (V3MessageType.ENTRY_UPDATE :: [id / 256, id % 256] ++ [sq / 256, sq % 256] ++ (t :: vb))
      0 = .ok (.entryUpdate id sq t v, 6 + vb.length) := by
  have hvlen := venc_len_pos t v vb hwv hv
  unfold entryUpdateMessageFromBuffer
  simp only [Nat.reduceAdd, Nat.zero_add]
  rw [checkBufferLength_ok _ _ _ (by simp; omega)]
  dsimp only
  rw [show checkMessageType
      (V3MessageType.ENTRY_UPDATE :: [id / 256, id % 256] ++ [sq / 256, sq % 256] ++ (t :: vb))
      0 V3MessageType.ENTRY_UPDATE = .ok () from rfl]
  dsimp only
  have hr1 := readUInt16BE_at [V3MessageType.ENTRY_UPDATE]
    ([id / 256, id % 256] ++ ([sq / 256, sq % 256] ++ (t :: vb))) (id / 256) (id % 256)
    rfl rfl (by simp)
  rw [show ([V3MessageType.ENTRY_UPDATE] : List Nat) ++
        ([id / 256, id % 256] ++ ([sq / 256, sq % 256] ++ (t :: vb))) =
      V3MessageType.ENTRY_UPDATE :: [id / 256, id % 256] ++ [sq / 256, sq % 256] ++ (t :: vb)
      from by simp,
    show ([V3MessageType.ENTRY_UPDATE] : List Nat).length = 1 from rfl,
    show id / 256 * 256 + id % 256 = id from by omega] at hr1
  rw [hr1]
  dsimp only
  have hr2 := readUInt16BE_at [V3MessageType.ENTRY_UPDATE, id / 256, id % 256]
    ([sq / 256, sq % 256] ++ (t :: vb)) (sq / 256) (sq % 256) rfl rfl (by simp)
  rw [show ([V3MessageType.ENTRY_UPDATE, id / 256, id % 256] : List Nat) ++
        ([sq / 256, sq % 256] ++ (t :: vb)) =
      V3MessageType.ENTRY_UPDATE :: [id / 256, id % 256] ++ [sq / 256, sq % 256] ++ (t :: vb)
      from by simp,
    show ([V3MessageType.ENTRY_UPDATE, id / 256, id % 256] : List Nat).length = 3 from rfl,
    show sq / 256 * 256 + sq % 256 = sq from by omega] at hr2
  rw [hr2]
  dsimp only
  rw [show (V3MessageType.ENTRY_UPDATE :: [id / 256, id % 256] ++ [sq / 256, sq % 256] ++
      (t :: vb)).get? 5 = some t from rfl]
  dsimp only
  rw [if_pos hts]
  have hval := entryValue_rt t v vb
    [V3MessageType.ENTRY_UPDATE, id / 256, id % 256, sq / 256, sq % 256, t] []
    ((V3MessageType.ENTRY_UPDATE :: [id / 256, id % 256] ++ [sq / 256, sq % 256] ++
      (t :: vb)).length + 1) hwv hv (by simp <;> omega)
  rw [show ([V3MessageType.ENTRY_UPDATE, id / 256, id % 256, sq / 256, sq % 256, t] :
        List Nat) ++ (vb ++ []) =
      V3MessageType.ENTRY_UPDATE :: [id / 256, id % 256] ++ [sq / 256, sq % 256] ++ (t :: vb)
      from by simp,
    show ([V3MessageType.ENTRY_UPDATE, id / 256, id % 256, sq / 256, sq % 256, t] :
      List Nat).length = 6 from rfl] at hval
  rw [hval]

theorem rt_entryUpdate (defs : Nat → Option V3RPCDefinition) (id sq t : Nat)
    (v : NTEntryValue) (b : List Nat) (hts : isV3EntryType t = true)
    (hid : id < 65536) (hsq : sq < 65536) (hwv : wfEntryValue t v = true)
    (he : entryUpdateMessageToBuffer id sq t v = .ok b) :
    getNextAvailableMessage defs b 0 = some (.entryUpdate id sq t v, b.length) := by
  unfold entryUpdateMessageToBuffer at he
  rcases hc : checkEntryValue t v with e | u
  · rw [hc] at he; cases he
  · rw [hc] at he
    dsimp only at he
    rw [show writeUInt16BE id = .ok [id / 256, id % 256] from by
        unfold writeUInt16BE; rw [if_pos hid],
      show writeUInt16BE sq = .ok [sq / 256, sq % 256] from by
        unfold writeUInt16BE; rw [if_pos hsq]] at he
    dsimp only at he
    rcases hv : entryValueToBuffer t v with e | vb
    · rw [hv] at he; cases he
    · rw [hv] at he
      dsimp only at he
      injection he with h
      rw [Nat.mod_eq_of_lt (entry_type_lt t hts)] at h
      subst h
      unfold getNextAvailableMessage
      rw [show getMessageType (V3MessageType.ENTRY_UPDATE :: [id / 256, id % 256] ++
          [sq / 256, sq % 256] ++ (t :: vb)) 0 = .ok V3MessageType.ENTRY_UPDATE from rfl]
      dsimp only
      simp only [V3MessageType.KEEP_ALIVE, V3MessageType.CLIENT_HELLO,
        V3MessageType.PROTO_VERSION_UNSUPPORTED, V3MessageType.SERVER_HELLO_COMPLETE,
        V3MessageType.SERVER_HELLO, V3MessageType.CLIENT_HELLO_COMPLETE,
        V3MessageType.ENTRY_UPDATE, V3MessageType.ENTRY_ASSIGNMENT,
        V3MessageType.ENTRY_FLAGS_UPDATE, V3MessageType.ENTRY_DELETE,
        V3MessageType.CLEAR_ALL_ENTRIES, V3MessageType.RPC_EXECUTE,
        V3MessageType.RPC_RESPONSE, Nat.reduceEqDiff, reduceIte]
      rw [entryUpdate_decode id sq t vb v hts hwv hv]
      dsimp only [Except.toOption]
      simp only [Option.some.injEq, Prod.mk.injEq, List.length_cons, List.length_append,
        List.length_nil]
      exact ⟨trivial, by omega⟩

theorem entryAssignment_decode (n : List Nat) (t id sq : Nat) (fl : V3EntryFlags)
    (vb : List Nat) (v : NTEntryValue) (hts : isV3EntryType t = true)
    (hwv : wfEntryValue t v = true) (hv : entryValueToBuffer t v = .ok vb) :
    entryAssignmentMessageFromBuffer
      (V3MessageType.ENTRY_ASSIGNMENT :: encodeLEB128String n ++
        (t :: [id / 256, id % 256]) ++ [sq / 256, sq % 256] ++ (entryFlagsToUInt8 fl :: vb))
      0 =
      .ok (.entryAssignment n t id sq fl v,
        1 + (encodeLEB128String n).length + 6 + vb.length) := by
  have hnlen := encStr_len_pos n
  have hvlen := venc_len_pos t v vb hwv hv
  unfold entryAssignmentMessageFromBuffer
  simp only [Nat.reduceAdd, Nat.zero_add]
  rw [checkBufferLength_ok _ _ _ (by simp; omega)]
  dsimp only
  rw [show checkMessageType (V3MessageType.ENTRY_ASSIGNMENT :: encodeLEB128String n ++
      (t :: [id / 256, id % 256]) ++ [sq / 256, sq % 256] ++ (entryFlagsToUInt8 fl :: vb))
      0 V3MessageType.ENTRY_ASSIGNMENT = .ok () from rfl]
  dsimp only
  have hstr := str_rt [V3MessageType.ENTRY_ASSIGNMENT]
    ((t :: [id / 256, id % 256]) ++ ([sq / 256, sq % 256] ++ (entryFlagsToUInt8 fl :: vb))) n
  rw [show ([V3MessageType.ENTRY_ASSIGNMENT] : List Nat) ++ (encodeLEB128String n ++
        ((t :: [id / 256, id % 256]) ++ ([sq / 256, sq % 256] ++
          (entryFlagsToUInt8 fl :: vb)))) =
      V3MessageType.ENTRY_ASSIGNMENT :: encodeLEB128String n ++
        (t :: [id / 256, id % 256]) ++ [sq / 256, sq % 256] ++ (entryFlagsToUInt8 fl :: vb)
      from by simp,
    show ([V3MessageType.ENTRY_ASSIGNMENT] : List Nat).length = 1 from rfl] at hstr
  rw [hstr]
  dsimp only
  have hty := get?_append_zero ([V3MessageType.ENTRY_ASSIGNMENT] ++ encodeLEB128String n)
    ((t :: [id / 256, id % 256]) ++ ([sq / 256, sq % 256] ++ (entryFlagsToUInt8 fl :: vb)))
  rw [show (([V3MessageType.ENTRY_ASSIGNMENT] ++ encodeLEB128String n) : List Nat) ++
        ((t :: [id / 256, id % 256]) ++ ([sq / 256, sq % 256] ++
          (entryFlagsToUInt8 fl :: vb))) =
      V3MessageType.ENTRY_ASSIGNMENT :: encodeLEB128String n ++
        (t :: [id / 256, id % 256]) ++ [sq / 256, sq % 256] ++ (entryFlagsToUInt8 fl :: vb)
      from by simp,
    show (([V3MessageType.ENTRY_ASSIGNMENT] ++ encodeLEB128String n) : List Nat).length =
      1 + (encodeLEB128String n).length from by simp <;> omega,
    show (([t, id / 256, id % 256] ++ ([sq / 256, sq % 256] ++
      (entryFlagsToUInt8 fl :: vb))) : List Nat).get? 0 = some t from rfl] at hty
  rw [hty]
  dsimp only
  rw [if_pos hts]
  have hr1 := readUInt16BE_at
    ([V3MessageType.ENTRY_ASSIGNMENT] ++ encodeLEB128String n ++ [t])
    ([id / 256, id % 256] ++ ([sq / 256, sq % 256] ++ (entryFlagsToUInt8 fl :: vb)))
    (id / 256) (id % 256) rfl rfl (by simp)
  rw [show (([V3MessageType.ENTRY_ASSIGNMENT] ++ encodeLEB128String n ++ [t]) : List Nat) ++
        ([id / 256, id % 256] ++ ([sq / 256, sq % 256] ++ (entryFlagsToUInt8 fl :: vb))) =
      V3MessageType.ENTRY_ASSIGNMENT :: encodeLEB128String n ++
        (t :: [id / 256, id % 256]) ++ [sq / 256, sq % 256] ++ (entryFlagsToUInt8 fl :: vb)
      from by simp,
    show (([V3MessageType.ENTRY_ASSIGNMENT] ++ encodeLEB128String n ++ [t]) :
        List Nat).length = 1 + (encodeLEB128String n).length + 1 from by simp <;> omega,
    show id / 256 * 256 + id % 256 = id from by omega] at hr1
  rw [hr1]
  dsimp only
  have hr2 := readUInt16BE_at
    ([V3MessageType.ENTRY_ASSIGNMENT] ++ encodeLEB128String n ++ [t, id / 256, id % 256])
    ([sq / 256, sq % 256] ++ (entryFlagsToUInt8 fl :: vb))
    (sq / 256) (sq % 256) rfl rfl (by simp)
  rw [show (([V3MessageType.ENTRY_ASSIGNMENT] ++ encodeLEB128String n ++
        [t, id / 256, id % 256]) : List Nat) ++
        ([sq / 256, sq % 256] ++ (entryFlagsToUInt8 fl :: vb)) =
      V3MessageType.ENTRY_ASSIGNMENT :: encodeLEB128String n ++
        (t :: [id / 256, id % 256]) ++ [sq / 256, sq % 256] ++ (entryFlagsToUInt8 fl :: vb)
      from by simp,
    show (([V3MessageType.ENTRY_ASSIGNMENT] ++ encodeLEB128String n ++
        [t, id / 256, id % 256]) : List Nat).length =
      1 + (encodeLEB128String n).length + 3 from by simp <;> omega,
    show sq / 256 * 256 + sq % 256 = sq from by omega] at hr2
  rw [hr2]
  dsimp only
  have hval := entryValue_rt t v vb
    ([V3MessageType.ENTRY_ASSIGNMENT] ++ encodeLEB128String n ++
      [t, id / 256, id % 256, sq / 256, sq % 256, entryFlagsToUInt8 fl]) []
    ((V3MessageType.ENTRY_ASSIGNMENT :: encodeLEB128String n ++
      (t :: [id / 256, id % 256]) ++ [sq / 256, sq % 256] ++
      (entryFlagsToUInt8 fl :: vb)).length + 1) hwv hv (by simp <;> omega)
  rw [show (([V3MessageType.ENTRY_ASSIGNMENT] ++ encodeLEB128String n ++
        [t, id / 256, id % 256, sq / 256, sq % 256, entryFlagsToUInt8 fl]) : List Nat) ++
        (vb ++ []) =
      V3MessageType.ENTRY_ASSIGNMENT :: encodeLEB128String n ++
        (t :: [id / 256, id % 256]) ++ [sq / 256, sq % 256] ++ (entryFlagsToUInt8 fl :: vb)
      from by simp,
    show (([V3MessageType.ENTRY_ASSIGNMENT] ++ encodeLEB128String n ++
        [t, id / 256, id % 256, sq / 256, sq % 256, entryFlagsToUInt8 fl]) :
        List Nat).length = 1 + (encodeLEB128String n).length + 6 from by simp <;> omega]
    at hval
  rw [hval]
  dsimp only
  have hfl := getD_append_zero
    ([V3MessageType.ENTRY_ASSIGNMENT] ++ encodeLEB128String n ++
      [t, id / 256, id % 256, sq / 256, sq % 256])
    (entryFlagsToUInt8 fl :: vb)
  rw [show (([V3MessageType.ENTRY_ASSIGNMENT] ++ encodeLEB128String n ++
        [t, id / 256, id % 256, sq / 256, sq % 256]) : List Nat) ++
        (entryFlagsToUInt8 fl :: vb) =
      V3MessageType.ENTRY_ASSIGNMENT :: encodeLEB128String n ++
        (t :: [id / 256, id % 256]) ++ [sq / 256, sq % 256] ++ (entryFlagsToUInt8 fl :: vb)
      from by simp,
    show (([V3MessageType.ENTRY_ASSIGNMENT] ++ encodeLEB128String n ++
        [t, id / 256, id % 256, sq / 256, sq % 256]) : List Nat).length =
      1 + (encodeLEB128String n).length + 5 from by simp <;> omega,
    show ((entryFlagsToUInt8 fl :: vb) : List Nat).getD 0 0 = entryFlagsToUInt8 fl from rfl]
    at hfl
  rw [hfl, flags_rt]

theorem rt_entryAssignment (defs : Nat → Option V3RPCDefinition) (n : List Nat)
    (t id sq : Nat) (fl : V3EntryFlags) (v : NTEntryValue) (b : List Nat)
    (hts : isV3EntryType t = true) (hid : id < 65536) (hsq : sq < 65536)
    (hwv : wfEntryValue t v = true)
    (he : entryAssignmentMessageToBuffer n t id sq fl v = .ok b) :
    getNextAvailableMessage defs b 0 = some (.entryAssignment n t id sq fl v, b.length) := by
  unfold entryAssignmentMessageToBuffer at he
  rcases hc : checkEntryValue t v with e | u
  · rw [hc] at he; cases he
  · rw [hc] at he
    dsimp only at he
    rw [show writeUInt16BE id = .ok [id / 256, id % 256] from by
        unfold writeUInt16BE; rw [if_pos hid],
      show writeUInt16BE sq = .ok [sq / 256, sq % 256] from by
        unfold writeUInt16BE; rw [if_pos hsq]] at he
    dsimp only at he
    rcases hv : entryValueToBuffer t v with e | vb
    · rw [hv] at he; cases he
    · rw [hv] at he
      dsimp only at he
      injection he with h
      rw [Nat.mod_eq_of_lt (entry_type_lt t hts)] at h
      subst h
      unfold getNextAvailableMessage
      rw [show getMessageType (V3MessageType.ENTRY_ASSIGNMENT :: encodeLEB128String n ++
          (t :: [id / 256, id % 256]) ++ [sq / 256, sq % 256] ++
          (entryFlagsToUInt8 fl :: vb)) 0 = .ok V3MessageType.ENTRY_ASSIGNMENT from rfl]
      dsimp only
      simp only [V3MessageType.KEEP_ALIVE, V3MessageType.CLIENT_HELLO,
        V3MessageType.PROTO_VERSION_UNSUPPORTED, V3MessageType.SERVER_HELLO_COMPLETE,
        V3MessageType.SERVER_HELLO, V3MessageType.CLIENT_HELLO_COMPLETE,
        V3MessageType.ENTRY_UPDATE, V3MessageType.ENTRY_ASSIGNMENT,
        V3MessageType.ENTRY_FLAGS_UPDATE, V3MessageType.ENTRY_DELETE,
        V3MessageType.CLEAR_ALL_ENTRIES, V3MessageType.RPC_EXECUTE,
        V3MessageType.RPC_RESPONSE, Nat.reduceEqDiff, reduceIte]
      rw [entryAssignment_decode n t id sq fl vb v hts hwv hv]
      dsimp only [Except.toOption]
      simp only [Option.some.injEq, Prod.mk.injEq, List.length_cons, List.length_append,
        List.length_nil]
      exact ⟨trivial, by omega⟩

theorem paramsLoop_rt :
    ∀ (pds ps : List V3RPCParameter) (venc pre rest : List Nat),
      specsMatchParams pds ps = true → rpcParamValuesToBuffer ps = .ok venc →
      rpcExecuteParamsLoop (pre ++ (venc ++ rest)) pds pre.length =
        .ok (ps, pre.length + venc.length) := by
  intro pds
  induction pds with
  | nil =>
    intro ps venc pre rest hm he
    cases ps with
    | cons p ps => simp [specsMatchParams] at hm
    | nil =>
      unfold rpcParamValuesToBuffer at he
      injection he with h
      subst h
      simp [rpcExecuteParamsLoop]
  | cons pd pds ih =>
    intro ps venc pre rest hm he
    cases ps with
    | nil => simp [specsMatchParams] at hm
    | cons p ps =>
      obtain ⟨pt, pn, pv⟩ := p
      obtain ⟨pdt, pdn, pdv⟩ := pd
      simp only [specsMatchParams, Bool.and_eq_true, beq_iff_eq, V3RPCParameter.type,
        V3RPCParameter.name, V3RPCParameter.value] at hm
      obtain ⟨⟨⟨⟨hpt, hpn⟩, hsc⟩, hwv⟩, hrec⟩ := hm
      subst hpt
      subst hpn
      unfold rpcParamValuesToBuffer at he
      dsimp only [V3RPCParameter.type, V3RPCParameter.value] at he
      rcases hvb : entryValueToBuffer pt pv with e | vb
      · rw [hvb] at he; cases he
      · rw [hvb] at he
        dsimp only at he
        rcases hrest : rpcParamValuesToBuffer ps with e | vbs
        · rw [hrest] at he; cases he
        · rw [hrest] at he
          dsimp only at he
          injection he with h
          subst h
          rw [rpcExecuteParamsLoop]
          dsimp only [V3RPCParameter.type, V3RPCParameter.name]
          have hval := scalarValue_rt pt pv vb pre (vbs ++ rest)
            ((pre ++ ((vb ++ vbs) ++ rest)).length) hwv hvb
          rw [show pre ++ (vb ++ (vbs ++ rest)) = pre ++ ((vb ++ vbs) ++ rest) from by simp]
            at hval
          rw [hval]
          dsimp only
          have hrec2 := ih ps vbs (pre ++ vb) rest hrec hrest
          rw [show (pre ++ vb) ++ (vbs ++ rest) = pre ++ ((vb ++ vbs) ++ rest) from by simp,
            show (pre ++ vb).length = pre.length + vb.length from by simp] at hrec2
          rw [hrec2]
          dsimp only
          simp only [Except.ok.injEq, Prod.mk.injEq, List.length_append]
          exact ⟨trivial, by omega⟩

theorem resultsLoop_rt :
    ∀ (rds rs : List V3RPCResult) (venc pre rest : List Nat),
      specsMatchResults rds rs = true → rpcResultValuesToBuffer rs = .ok venc →
      rpcResponseResultsLoop (pre ++ (venc ++ rest)) rds pre.length =
        .ok (rs, pre.length + venc.length) := by
  intro rds
  induction rds with
  | nil =>
    intro rs venc pre rest hm he
    cases rs with
    | cons r rs => simp [specsMatchResults] at hm
    | nil =>
      unfold rpcResultValuesToBuffer at he
      injection he with h
      subst h
      simp [rpcResponseResultsLoop]
  | cons rd rds ih =>
    intro rs venc pre rest hm he
    cases rs with
    | nil => simp [specsMatchResults] at hm
    | cons r rs =>
      obtain ⟨rt, rn, rv⟩ := r
      obtain ⟨rdt, rdn, rdv⟩ := rd
      simp only [specsMatchResults, Bool.and_eq_true, beq_iff_eq, V3RPCResult.type,
        V3RPCResult.name, V3RPCResult.value] at hm
      obtain ⟨⟨⟨⟨hrt, hrn⟩, hsc⟩, hwv⟩, hrec⟩ := hm
      subst hrt
      subst hrn
      unfold rpcResultValuesToBuffer at he
      dsimp only [V3RPCResult.type, V3RPCResult.value] at he
      rcases hvb : entryValueToBuffer rt rv with e | vb
      · rw [hvb] at he; cases he
      · rw [hvb] at he
        dsimp only at he
        rcases hrest : rpcResultValuesToBuffer rs with e | vbs
        · rw [hrest] at he; cases he
        · rw [hrest] at he
          dsimp only at he
          injection he with h
          subst h
          rw [rpcResponseResultsLoop]
          dsimp only [V3RPCResult.type, V3RPCResult.name]
          have hval := scalarValue_rt rt rv vb pre (vbs ++ rest)
            ((pre ++ ((vb ++ vbs) ++ rest)).length) hwv hvb
          rw [show pre ++ (vb ++ (vbs ++ rest)) = pre ++ ((vb ++ vbs) ++ rest) from by simp]
            at hval
          rw [hval]
          dsimp only
          have hrec2 := ih rs vbs (pre ++ vb) rest hrec hrest
          rw [show (pre ++ vb) ++ (vbs ++ rest) = pre ++ ((vb ++ vbs) ++ rest) from by simp,
            show (pre ++ vb).length = pre.length + vb.length from by simp] at hrec2
          rw [hrec2]
          dsimp only
          simp only [Except.ok.injEq, Prod.mk.injEq, List.length_append]
          exact ⟨trivial, by omega⟩

theorem rpcExecute_decode (defs : Nat → Option V3RPCDefinition) (d u : Nat)
    (ps : List V3RPCParameter) (pvs : List Nat) (rd : V3RPCDefinition)
    (hdefs : defs d = some rd) (hm : specsMatchParams rd.parameters ps = true)
    (hpv : rpcParamValuesToBuffer ps = .ok pvs) :
    rpcExecuteMessageFromBuffer defs
      (V3MessageType.RPC_EXECUTE :: [d / 256, d % 256] ++ [u / 256, u % 256] ++
        toUnsignedLEB128 ps.length ++ pvs) 0 =
      .ok (.rpcExecute d u ps,
        5 + (toUnsignedLEB128 ps.length).length + pvs.length) := by
  have hleb := leb_len_pos ps.length
  unfold rpcExecuteMessageFromBuffer
  simp only [Nat.reduceAdd, Nat.zero_add]
  rw [checkBufferLength_ok _ _ _ (by simp; omega)]
  dsimp only
  rw [show checkMessageType (V3MessageType.RPC_EXECUTE :: [d / 256, d % 256] ++
      [u / 256, u % 256] ++ toUnsignedLEB128 ps.length ++ pvs) 0
      V3MessageType.RPC_EXECUTE = .ok () from rfl]
  dsimp only
  have hr1 := readUInt16BE_at [V3MessageType.RPC_EXECUTE]
    ([d / 256, d % 256] ++ ([u / 256, u % 256] ++ (toUnsignedLEB128 ps.length ++ pvs)))
    (d / 256) (d % 256) rfl rfl (by simp)
  rw [show ([V3MessageType.RPC_EXECUTE] : List Nat) ++
        ([d / 256, d % 256] ++ ([u / 256, u % 256] ++ (toUnsignedLEB128 ps.length ++ pvs))) =
      V3MessageType.RPC_EXECUTE :: [d / 256, d % 256] ++ [u / 256, u % 256] ++
        toUnsignedLEB128 ps.length ++ pvs from by simp,
    show ([V3MessageType.RPC_EXECUTE] : List Nat).length = 1 from rfl,
    show d / 256 * 256 + d % 256 = d from by omega] at hr1
  rw [hr1]
  dsimp only
  rw [hdefs]
  dsimp only
  have hr2 := readUInt16BE_at [V3MessageType.RPC_EXECUTE, d / 256, d % 256]
    ([u / 256, u % 256] ++ (toUnsignedLEB128 ps.length ++ pvs))
    (u / 256) (u % 256) rfl rfl (by simp)
  rw [show ([V3MessageType.RPC_EXECUTE, d / 256, d % 256] : List Nat) ++
        ([u / 256, u % 256] ++ (toUnsignedLEB128 ps.length ++ pvs)) =
      V3MessageType.RPC_EXECUTE :: [d / 256, d % 256] ++ [u / 256, u % 256] ++
        toUnsignedLEB128 ps.length ++ pvs from by simp,
    show ([V3MessageType.RPC_EXECUTE, d / 256, d % 256] : List Nat).length = 3 from rfl,
    show u / 256 * 256 + u % 256 = u from by omega] at hr2
  rw [hr2]
  dsimp only
  have hlb := fromLEB_rt [V3MessageType.RPC_EXECUTE, d / 256, d % 256, u / 256, u % 256]
    (pvs ++ []) ps.length
  rw [show ([V3MessageType.RPC_EXECUTE, d / 256, d % 256, u / 256, u % 256] : List Nat) ++
        (toUnsignedLEB128 ps.length ++ (pvs ++ [])) =
      V3MessageType.RPC_EXECUTE :: [d / 256, d % 256] ++ [u / 256, u % 256] ++
        toUnsignedLEB128 ps.length ++ pvs from by simp,
    show ([V3MessageType.RPC_EXECUTE, d / 256, d % 256, u / 256, u % 256] :
      List Nat).length = 5 from rfl] at hlb
  rw [hlb]
  dsimp only
  rw [if_pos (specsMatchParams_length rd.parameters ps hm).symm]
  have hloop := paramsLoop_rt rd.parameters ps pvs
    ([V3MessageType.RPC_EXECUTE, d / 256, d % 256, u / 256, u % 256] ++
      toUnsignedLEB128 ps.length) [] hm hpv
  rw [show (([V3MessageType.RPC_EXECUTE, d / 256, d % 256, u / 256, u % 256] ++
        toUnsignedLEB128 ps.length) : List Nat) ++ (pvs ++ []) =
      V3MessageType.RPC_EXECUTE :: [d / 256, d % 256] ++ [u / 256, u % 256] ++
        toUnsignedLEB128 ps.length ++ pvs from by simp,
    show (([V3MessageType.RPC_EXECUTE, d / 256, d % 256, u / 256, u % 256] ++
        toUnsignedLEB128 ps.length) : List Nat).length =
      5 + (toUnsignedLEB128 ps.length).length from by simp <;> omega] at hloop
  rw [hloop]

theorem rpcResponse_decode (defs : Nat → Option V3RPCDefinition) (d u : Nat)
    (rs : List V3RPCResult) (rvs : List Nat) (rd : V3RPCDefinition)
    (hdefs : defs d = some rd) (hm : specsMatchResults rd.results rs = true)
    (hrv : rpcResultValuesToBuffer rs = .ok rvs) :
    rpcResponseMessageFromBuffer defs
      (V3MessageType.RPC_RESPONSE :: [d / 256, d % 256] ++ [u / 256, u % 256] ++
        toUnsignedLEB128 rs.length ++ rvs) 0 =
      .ok (.rpcResponse d u rs,
        5 + (toUnsignedLEB128 rs.length).length + rvs.length) := by
  have hleb := leb_len_pos rs.length
  unfold rpcResponseMessageFromBuffer
  simp only [Nat.reduceAdd, Nat.zero_add]
  rw [checkBufferLength_ok _ _ _ (by simp; omega)]
  dsimp only
  rw [show checkMessageType (V3MessageType.RPC_RESPONSE :: [d / 256, d % 256] ++
      [u / 256, u % 256] ++ toUnsignedLEB128 rs.length ++ rvs) 0
      V3MessageType.RPC_RESPONSE = .ok () from rfl]
  dsimp only
  have hr1 := readUInt16BE_at [V3MessageType.RPC_RESPONSE]
    ([d / 256, d % 256] ++ ([u / 256, u % 256] ++ (toUnsignedLEB128 rs.length ++ rvs)))
    (d / 256) (d % 256) rfl rfl (by simp)
  rw [show ([V3MessageType.RPC_RESPONSE] : List Nat) ++
        ([d / 256, d % 256] ++ ([u / 256, u % 256] ++ (toUnsignedLEB128 rs.length ++ rvs))) =
      V3MessageType.RPC_RESPONSE :: [d / 256, d % 256] ++ [u / 256, u % 256] ++
        toUnsignedLEB128 rs.length ++ rvs from by simp,
    show ([V3MessageType.RPC_RESPONSE] : List Nat).length = 1 from rfl,
    show d / 256 * 256 + d % 256 = d from by omega] at hr1
  rw [hr1]
  dsimp only
  rw [hdefs]
  dsimp only
  have hr2 := readUInt16BE_at [V3MessageType.RPC_RESPONSE, d / 256, d % 256]
    ([u / 256, u % 256] ++ (toUnsignedLEB128 rs.length ++ rvs))
    (u / 256) (u % 256) rfl rfl (by simp)
  rw [show ([V3MessageType.RPC_RESPONSE, d / 256, d % 256] : List Nat) ++
        ([u / 256, u % 256] ++ (toUnsignedLEB128 rs.length ++ rvs)) =
      V3MessageType.RPC_RESPONSE :: [d / 256, d % 256] ++ [u / 256, u % 256] ++
        toUnsignedLEB128 rs.length ++ rvs from by simp,
    show ([V3MessageType.RPC_RESPONSE, d / 256, d % 256] : List Nat).length = 3 from rfl,
    show u / 256 * 256 + u % 256 = u from by omega] at hr2
  rw [hr2]
  dsimp only
  have hlb := fromLEB_rt [V3MessageType.RPC_RESPONSE, d / 256, d % 256, u / 256, u % 256]
    (rvs ++ []) rs.length
  rw [show ([V3MessageType.RPC_RESPONSE, d / 256, d % 256, u / 256, u % 256] : List Nat) ++
        (toUnsignedLEB128 rs.length ++ (rvs ++ [])) =
      V3MessageType.RPC_RESPONSE :: [d / 256, d % 256] ++ [u / 256, u % 256] ++
        toUnsignedLEB128 rs.length ++ rvs from by simp,
    show ([V3MessageType.RPC_RESPONSE, d / 256, d % 256, u / 256, u % 256] :
      List Nat).length = 5 from rfl] at hlb
  rw [hlb]
  dsimp only
  rw [if_pos (specsMatchResults_length rd.results rs hm).symm]
  have hloop := resultsLoop_rt rd.results rs rvs
    ([V3MessageType.RPC_RESPONSE, d / 256, d % 256, u / 256, u % 256] ++
      toUnsignedLEB128 rs.length) [] hm hrv
  rw [show (([V3MessageType.RPC_RESPONSE, d / 256, d % 256, u / 256, u % 256] ++
        toUnsignedLEB128 rs.length) : List Nat) ++ (rvs ++ []) =
      V3MessageType.RPC_RESPONSE :: [d / 256, d % 256] ++ [u / 256, u % 256] ++
        toUnsignedLEB128 rs.length ++ rvs from by simp,
    show (([V3MessageType.RPC_RESPONSE, d / 256, d % 256, u / 256, u % 256] ++
        toUnsignedLEB128 rs.length) : List Nat).length =
      5 + (toUnsignedLEB128 rs.length).length from by simp <;> omega] at hloop
  rw [hloop]

theorem rt_rpcExecute (defs : Nat → Option V3RPCDefinition) (d u : Nat)
    (ps : List V3RPCParameter) (b : List Nat) (rd : V3RPCDefinition)
    (hd : d < 65536) (hu : u < 65536) (hdefs : defs d = some rd)
    (hm : specsMatchParams rd.parameters ps = true)
    (he : rpcExecuteMessageToBuffer d u ps = .ok b) :
    getNextAvailableMessage defs b 0 = some (.rpcExecute d u ps, b.length) := by
  unfold rpcExecuteMessageToBuffer at he
  rw [show writeUInt16BE d = .ok [d / 256, d % 256] from by
      unfold writeUInt16BE; rw [if_pos hd],
    show writeUInt16BE u = .ok [u / 256, u % 256] from by
      unfold writeUInt16BE; rw [if_pos hu]] at he
  dsimp only at he
  rcases hpv : rpcParamValuesToBuffer ps with e | pvs
  · rw [hpv] at he; cases he
  · rw [hpv] at he
    dsimp only at he
    injection he with h
    subst h
    unfold getNextAvailableMessage
    rw [show getMessageType (V3MessageType.RPC_EXECUTE :: [d / 256, d % 256] ++
        [u / 256, u % 256] ++ toUnsignedLEB128 ps.length ++ pvs) 0 =
        .ok V3MessageType.RPC_EXECUTE from rfl]
    dsimp only
    simp only [V3MessageType.KEEP_ALIVE, V3MessageType.CLIENT_HELLO,
      V3MessageType.PROTO_VERSION_UNSUPPORTED, V3MessageType.SERVER_HELLO_COMPLETE,
      V3MessageType.SERVER_HELLO, V3MessageType.CLIENT_HELLO_COMPLETE,
      V3MessageType.ENTRY_UPDATE, V3MessageType.ENTRY_ASSIGNMENT,
      V3MessageType.ENTRY_FLAGS_UPDATE, V3MessageType.ENTRY_DELETE,
      V3MessageType.CLEAR_ALL_ENTRIES, V3MessageType.RPC_EXECUTE,
      V3MessageType.RPC_RESPONSE, Nat.reduceEqDiff, reduceIte]
    rw [rpcExecute_decode defs d u ps pvs rd hdefs hm hpv]
    dsimp only [Except.toOption]
    simp only [Option.some.injEq, Prod.mk.injEq, List.length_cons, List.length_append,
      List.length_nil]

theorem rt_rpcResponse (defs : Nat → Option V3RPCDefinition) (d u : Nat)
    (rs : List V3RPCResult) (b : List Nat) (rd : V3RPCDefinition)
    (hd : d < 65536) (hu : u < 65536) (hdefs : defs d = some rd)
    (hm : specsMatchResults rd.results rs = true)
    (he : rpcResponseMessageToBuffer d u rs = .ok b) :
    getNextAvailableMessage defs b 0 = some (.rpcResponse d u rs, b.length) := by
  unfold rpcResponseMessageToBuffer at he
  rw [show writeUInt16BE d = .ok [d / 256, d % 256] from by
      unfold writeUInt16BE; rw [if_pos hd],
    show writeUInt16BE u = .ok [u / 256, u % 256] from by
      unfold writeUInt16BE; rw [if_pos hu]] at he
  dsimp only at he
  rcases hrv : rpcResultValuesToBuffer rs with e | rvs
  · rw [hrv] at he; cases he
  · rw [hrv] at he
    dsimp only at he
    injection he with h
    subst h
    unfold getNextAvailableMessage
    rw [show getMessageType (V3MessageType.RPC_RESPONSE :: [d / 256, d % 256] ++
        [u / 256, u % 256] ++ toUnsignedLEB128 rs.length ++ rvs) 0 =
        .ok V3MessageType.RPC_RESPONSE from rfl]
    dsimp only
    simp only [V3MessageType.KEEP_ALIVE, V3MessageType.CLIENT_HELLO,
      V3MessageType.PROTO_VERSION_UNSUPPORTED, V3MessageType.SERVER_HELLO_COMPLETE,
      V3MessageType.SERVER_HELLO, V3MessageType.CLIENT_HELLO_COMPLETE,
      V3MessageType.ENTRY_UPDATE, V3MessageType.ENTRY_ASSIGNMENT,
      V3MessageType.ENTRY_FLAGS_UPDATE, V3MessageType.ENTRY_DELETE,
      V3MessageType.CLEAR_ALL_ENTRIES, V3MessageType.RPC_EXECUTE,
      V3MessageType.RPC_RESPONSE, Nat.reduceEqDiff, reduceIte]
    rw [rpcResponse_decode defs d u rs rvs rd hdefs hm hrv]
    dsimp only [Except.toOption]
    simp only [Option.some.injEq, Prod.mk.injEq, List.length_cons, List.length_append,
      List.length_nil]

theorem message_rt (defs : Nat → Option V3RPCDefinition) (m : V3Message) (b : List Nat)
    (hw : wfMessage defs m = true) (he : messageToBuffer m = .ok b) :
    getNextAvailableMessage defs b 0 = some (m, b.length) := by
  cases m with
  | keepAlive =>
    unfold messageToBuffer at he
    injection he with h
    subst h
    exact rfl
  | clientHello a b2 i =>
    simp only [wfMessage, Bool.and_eq_true, beq_iff_eq] at hw
    unfold messageToBuffer at he
    injection he with h
    subst h
    exact rt_clientHello defs a b2 i hw.1 hw.2
  | protoVersionUnsupported a b2 =>
    simp only [wfMessage, Bool.and_eq_true, decide_eq_true_eq] at hw
    unfold messageToBuffer at he
    injection he with h
    subst h
    exact rt_protoVersionUnsupported defs a b2 hw.1 hw.2
  | serverHelloComplete =>
    unfold messageToBuffer at he
    injection he with h
    subst h
    exact rfl
  | serverHello s i =>
    unfold messageToBuffer at he
    injection he with h
    subst h
    exact rt_serverHello defs s i
  | clientHelloComplete =>
    unfold messageToBuffer at he
    injection he with h
    subst h
    exact rfl
  | entryAssignment n t id sq fl v =>
    simp only [wfMessage, Bool.and_eq_true, decide_eq_true_eq] at hw
    unfold messageToBuffer at he
    exact rt_entryAssignment defs n t id sq fl v b hw.1.1.1 hw.1.1.2 hw.1.2 hw.2 he
  | entryUpdate id sq t v =>
    simp only [wfMessage, Bool.and_eq_true, decide_eq_true_eq] at hw
    unfold messageToBuffer at he
    exact rt_entryUpdate defs id sq t v b hw.1.1.1 hw.1.1.2 hw.1.2 hw.2 he
  | entryFlagsUpdate id fl =>
    simp only [wfMessage, decide_eq_true_eq] at hw
    unfold messageToBuffer at he
    exact rt_entryFlagsUpdate defs id fl b hw he
  | entryDelete id =>
    simp only [wfMessage, decide_eq_true_eq] at hw
    unfold messageToBuffer at he
    exact rt_entryDelete defs id b hw he
  | clearAllEntries =>
    unfold messageToBuffer at he
    injection he with h
    subst h
    exact rt_clearAllEntries defs
  | rpcExecute d u ps =>
    simp only [wfMessage, Bool.and_eq_true, decide_eq_true_eq] at hw
    obtain ⟨⟨hd, hu⟩, hmm⟩ := hw
    unfold messageToBuffer at he
    rcases hdf : defs d with _ | rd
    · rw [hdf] at hmm; simp at hmm
    · rw [hdf] at hmm
      dsimp only at hmm
      exact rt_rpcExecute defs d u ps b rd hd hu hdf hmm he
  | rpcResponse d u rs =>
    simp only [wfMessage, Bool.and_eq_true, decide_eq_true_eq] at hw
    obtain ⟨⟨hd, hu⟩, hmm⟩ := hw
    unfold messageToBuffer at he
    rcases hdf : defs d with _ | rd
    · rw [hdf] at hmm; simp at hmm
    · rw [hdf] at hmm
      dsimp only at hmm
      exact rt_rpcResponse defs d u rs b rd hd hu hdf hmm he

theorem strArrayLoop_cut :
    ∀ (ss : List (List Nat)) (pre : List Nat) (k : Nat),
      k < ((ss.map encodeLEB128String).flatten).length →
      ∃ e, decodeStrArrayLoop (pre ++ ((ss.map encodeLEB128String).flatten).take k)
        ss.length pre.length = .error e := by
  intro ss
  induction ss with
  | nil => intro pre k hk; simp at hk
  | cons s ss ih =>
    intro pre k hk
    simp only [List.map_cons, List.flatten_cons, List.length_append] at hk
    simp only [List.map_cons, List.flatten_cons, List.length_cons]
    by_cases hks : k < (encodeLEB128String s).length
    · have htake : ((encodeLEB128String s ++ (ss.map encodeLEB128String).flatten)).take k =
          (encodeLEB128String s).take k := by
        rw [List.take_append_eq_append_take,
          show k - (encodeLEB128String s).length = 0 from by omega]
        simp
      rw [htake]
      refine ⟨.truncated, ?_⟩
      rw [decodeStrArrayLoop, str_cut pre s k hks]
    · push_neg at hks
      have htake : ((encodeLEB128String s ++ (ss.map encodeLEB128String).flatten)).take k =
          encodeLEB128String s ++
            ((ss.map encodeLEB128String).flatten).take (k - (encodeLEB128String s).length) := by
        rw [List.take_append_eq_append_take, List.take_of_length_le hks]
      rw [htake]
      obtain ⟨e, hrec⟩ := ih (pre ++ encodeLEB128String s)
        (k - (encodeLEB128String s).length) (by omega)
      refine ⟨e, ?_⟩
      rw [decodeStrArrayLoop]
      rw [str_rt pre
        (((ss.map encodeLEB128String).flatten).take (k - (encodeLEB128String s).length)) s]
      dsimp only
      rw [show (pre ++ encodeLEB128String s) ++
            ((ss.map encodeLEB128String).flatten).take (k - (encodeLEB128String s).length) =
          pre ++ (encodeLEB128String s ++
            ((ss.map encodeLEB128String).flatten).take (k - (encodeLEB128String s).length))
          from by simp,
        show (pre ++ encodeLEB128String s).length = pre.length + (encodeLEB128String s).length
          from by simp] at hrec
      rw [hrec]

theorem entryValue_oob (t : Nat) (buf : List Nat) (f o : Nat)
    (ht : isV3EntryType t = true) (ho : buf.length ≤ o) :
    ∃ e, entryValueFromBuffer (f + 1) t buf o = .error e := by
  simp [isV3EntryType, V3EntryType.BOOLEAN, V3EntryType.DOUBLE, V3EntryType.STRING,
    V3EntryType.RAW, V3EntryType.BOOLEAN_ARRAY, V3EntryType.DOUBLE_ARRAY,
    V3EntryType.STRING_ARRAY, V3EntryType.RPC] at ht
  rcases ht with rfl | rfl | rfl | rfl | rfl | rfl | rfl | rfl <;>
    simp only [entryValueFromBuffer, V3EntryType.BOOLEAN, V3EntryType.DOUBLE,
      V3EntryType.STRING, V3EntryType.RAW, V3EntryType.BOOLEAN_ARRAY,
      V3EntryType.DOUBLE_ARRAY, V3EntryType.STRING_ARRAY, V3EntryType.RPC,
      Nat.reduceEqDiff, reduceIte]
  · refine ⟨.truncated, ?_⟩
    unfold checkBufferLength
    rw [if_neg (by omega)]
  · refine ⟨.truncated, ?_⟩
    unfold checkBufferLength
    rw [if_neg (by omega)]
  · refine ⟨.truncated, ?_⟩
    unfold decodeLEB128String fromUnsignedLEB128
    rw [List.drop_eq_nil_of_le ho]
    rfl
  · refine ⟨.truncated, ?_⟩
    unfold fromUnsignedLEB128
    rw [List.drop_eq_nil_of_le ho]
    rfl
  · refine ⟨.outOfRange, ?_⟩
    unfold readUInt8
    rw [if_neg (by omega)]
  · refine ⟨.outOfRange, ?_⟩
    unfold readUInt8
    rw [if_neg (by omega)]
  · refine ⟨.outOfRange, ?_⟩
    unfold readUInt8
    rw [if_neg (by omega)]
  · refine ⟨.truncated, ?_⟩
    unfold fromUnsignedLEB128
    rw [List.drop_eq_nil_of_le ho]
    rfl

theorem scalarValue_pf (t : Nat) (v : NTEntryValue) (enc pre : List Nat) (f k : Nat)
    (hw : wfScalarValue t v = true) (he : entryValueToBuffer t v = .ok enc)
    (hk : k < enc.length) :
    ∃ e, entryValueFromBuffer (f + 1) t (pre ++ enc.take k) pre.length = .error e := by
  rcases wf_scalar_types hw with rfl | rfl | rfl | rfl | rfl | rfl | rfl
  · obtain ⟨bb, rfl⟩ := wf_bool_inv hw
    have hrfl : entryValueToBuffer V3EntryType.BOOLEAN (mkBool bb) =
        .ok [if bb then (1 : Nat) else 0] := rfl
    rw [hrfl] at he
    injection he with h
    subst h
    simp only [List.length_cons, List.length_nil] at hk
    obtain rfl : k = 0 := by omega
    simp only [List.take_zero, List.append_nil]
    refine ⟨.truncated, ?_⟩
    simp only [entryValueFromBuffer, V3EntryType.BOOLEAN, V3EntryType.DOUBLE,
      V3EntryType.STRING, V3EntryType.RAW, V3EntryType.BOOLEAN_ARRAY,
      V3EntryType.DOUBLE_ARRAY, V3EntryType.STRING_ARRAY, V3EntryType.RPC,
      Nat.reduceEqDiff, reduceIte]
    unfold checkBufferLength
    rw [if_neg (by omega)]
  · obtain ⟨d, rfl, hd⟩ := wf_double_inv hw
    have hrfl : entryValueToBuffer V3EntryType.DOUBLE (mkDouble d) = .ok (toBytesBE 8 d) := rfl
    rw [hrfl] at he
    injection he with h
    subst h
    have hk8 : k < 8 := by rwa [toBytesBE_length] at hk
    refine ⟨.truncated, ?_⟩
    simp only [entryValueFromBuffer, V3EntryType.BOOLEAN, V3EntryType.DOUBLE,
      V3EntryType.STRING, V3EntryType.RAW, V3EntryType.BOOLEAN_ARRAY,
      V3EntryType.DOUBLE_ARRAY, V3EntryType.STRING_ARRAY, V3EntryType.RPC,
      Nat.reduceEqDiff, reduceIte]
    unfold checkBufferLength
    rw [if_neg (by simp only [List.length_append, List.length_take, toBytesBE_length]; omega)]
  · obtain ⟨s, rfl⟩ := wf_str_inv hw
    have hrfl : entryValueToBuffer V3EntryType.STRING (mkStr s) =
        .ok (encodeLEB128String s) := rfl
    rw [hrfl] at he
    injection he with h
    subst h
    refine ⟨.truncated, ?_⟩
    simp only [entryValueFromBuffer, V3EntryType.BOOLEAN, V3EntryType.DOUBLE,
      V3EntryType.STRING, V3EntryType.RAW, V3EntryType.BOOLEAN_ARRAY,
      V3EntryType.DOUBLE_ARRAY, V3EntryType.STRING_ARRAY, V3EntryType.RPC,
      Nat.reduceEqDiff, reduceIte]
    rw [str_cut pre s k hk]
  · obtain ⟨r, rfl⟩ := wf_raw_inv hw
    have hrfl : entryValueToBuffer V3EntryType.RAW (mkRaw r) =
        .ok (toUnsignedLEB128 r.length ++ r) := rfl
    rw [hrfl] at he
    injection he with h
    subst h
    simp only [List.length_append] at hk
    by_cases hkl : k < (toUnsignedLEB128 r.length).length
    · refine ⟨.truncated, ?_⟩
      simp only [entryValueFromBuffer, V3EntryType.BOOLEAN, V3EntryType.DOUBLE,
        V3EntryType.STRING, V3EntryType.RAW, V3EntryType.BOOLEAN_ARRAY,
        V3EntryType.DOUBLE_ARRAY, V3EntryType.STRING_ARRAY, V3EntryType.RPC,
        Nat.reduceEqDiff, reduceIte]
      have htake : (toUnsignedLEB128 r.length ++ r).take k =
          (toUnsignedLEB128 r.length).take k := by
        rw [List.take_append_eq_append_take,
          show k - (toUnsignedLEB128 r.length).length = 0 from by omega]
        simp
      rw [htake]
      unfold fromUnsignedLEB128
      rw [List.drop_left, leb_cut r.length k hkl]
    · push_neg at hkl
      refine ⟨.truncated, ?_⟩
      simp only [entryValueFromBuffer, V3EntryType.BOOLEAN, V3EntryType.DOUBLE,
        V3EntryType.STRING, V3EntryType.RAW, V3EntryType.BOOLEAN_ARRAY,
        V3EntryType.DOUBLE_ARRAY, V3EntryType.STRING_ARRAY, V3EntryType.RPC,
        Nat.reduceEqDiff, reduceIte]
      have htake : (toUnsignedLEB128 r.length ++ r).take k =
          toUnsignedLEB128 r.length ++ r.take (k - (toUnsignedLEB128 r.length).length) := by
        rw [List.take_append_eq_append_take, List.take_of_length_le hkl]
      rw [htake]
      rw [fromLEB_rt pre (r.take (k - (toUnsignedLEB128 r.length).length)) r.length]
      dsimp only
      unfold checkBufferLength
      rw [if_neg (by simp only [List.length_append, List.length_take]; omega)]
  · obtain ⟨a, rfl, ha⟩ := wf_boolarr_inv hw
    have hrfl : entryValueToBuffer V3EntryType.BOOLEAN_ARRAY (mkBoolArray a) =
        .ok (a.length % 256 :: a.map (fun val => if val then 1 else 0)) := rfl
    rw [hrfl, Nat.mod_eq_of_lt (show a.length < 256 by omega)] at he
    injection he with h
    subst h
    simp only [List.length_cons, List.length_map] at hk
    cases k with
    | zero =>
      simp only [List.take_zero, List.append_nil]
      refine ⟨.outOfRange, ?_⟩
      simp only [entryValueFromBuffer, V3EntryType.BOOLEAN, V3EntryType.DOUBLE,
        V3EntryType.STRING, V3EntryType.RAW, V3EntryType.BOOLEAN_ARRAY,
        V3EntryType.DOUBLE_ARRAY, V3EntryType.STRING_ARRAY, V3EntryType.RPC,
        Nat.reduceEqDiff, reduceIte]
      unfold readUInt8
      rw [if_neg (by omega)]
    | succ k1 =>
      simp only [List.take_succ_cons]
      refine ⟨.truncated, ?_⟩
      simp only [entryValueFromBuffer, V3EntryType.BOOLEAN, V3EntryType.DOUBLE,
        V3EntryType.STRING, V3EntryType.RAW, V3EntryType.BOOLEAN_ARRAY,
        V3EntryType.DOUBLE_ARRAY, V3EntryType.STRING_ARRAY, V3EntryType.RPC,
        Nat.reduceEqDiff, reduceIte]
      rw [readUInt8_at pre
        (a.length :: (a.map (fun val => if val then 1 else 0)).take k1) a.length rfl
        (by simp)]
      dsimp only
      unfold checkBufferLength
      rw [if_neg (by simp only [List.length_append, List.length_cons, List.length_take,
        List.length_map]; omega)]
  · obtain ⟨a, rfl, ha, hall⟩ := wf_doublearr_inv hw
    have hrfl : entryValueToBuffer V3EntryType.DOUBLE_ARRAY (mkDoubleArray a) =
        .ok (a.length % 256 :: (a.map ieee754write).flatten) := rfl
    rw [hrfl, Nat.mod_eq_of_lt (show a.length < 256 by omega)] at he
    injection he with h
    subst h
    have hfl := map_ieee754write_flatten_length a
    simp only [List.length_cons, hfl] at hk
    cases k with
    | zero =>
      simp only [List.take_zero, List.append_nil]
      refine ⟨.outOfRange, ?_⟩
      simp only [entryValueFromBuffer, V3EntryType.BOOLEAN, V3EntryType.DOUBLE,
        V3EntryType.STRING, V3EntryType.RAW, V3EntryType.BOOLEAN_ARRAY,
        V3EntryType.DOUBLE_ARRAY, V3EntryType.STRING_ARRAY, V3EntryType.RPC,
        Nat.reduceEqDiff, reduceIte]
      unfold readUInt8
      rw [if_neg (by omega)]
    | succ k1 =>
      simp only [List.take_succ_cons]
      refine ⟨.truncated, ?_⟩
      simp only [entryValueFromBuffer, V3EntryType.BOOLEAN, V3EntryType.DOUBLE,
        V3EntryType.STRING, V3EntryType.RAW, V3EntryType.BOOLEAN_ARRAY,
        V3EntryType.DOUBLE_ARRAY, V3EntryType.STRING_ARRAY, V3EntryType.RPC,
        Nat.reduceEqDiff, reduceIte]
      rw [readUInt8_at pre
        (a.length :: ((a.map ieee754write).flatten).take k1) a.length rfl (by simp)]
      dsimp only
      unfold checkBufferLength
      have hneg : ¬ (pre.length + 1 + a.length * 8 ≤
          (pre ++ (a.length :: ((a.map ieee754write).flatten).take k1)).length) := by
        simp only [List.length_append, List.length_cons, List.length_take, hfl]
        omega
      rw [if_neg hneg]
  · obtain ⟨a, rfl, ha⟩ := wf_strarr_inv hw
    have hrfl : entryValueToBuffer V3EntryType.STRING_ARRAY (mkStrArray a) =
        .ok (a.length % 256 :: (a.map encodeLEB128String).flatten) := rfl
    rw [hrfl, Nat.mod_eq_of_lt (show a.length < 256 by omega)] at he
    injection he with h
    subst h
    simp only [List.length_cons] at hk
    cases k with
    | zero =>
      simp only [List.take_zero, List.append_nil]
      refine ⟨.outOfRange, ?_⟩
      simp only [entryValueFromBuffer, V3EntryType.BOOLEAN, V3EntryType.DOUBLE,
        V3EntryType.STRING, V3EntryType.RAW, V3EntryType.BOOLEAN_ARRAY,
        V3EntryType.DOUBLE_ARRAY, V3EntryType.STRING_ARRAY, V3EntryType.RPC,
        Nat.reduceEqDiff, reduceIte]
      unfold readUInt8
      rw [if_neg (by omega)]
    | succ k1 =>
      simp only [List.take_succ_cons]
      by_cases hc : pre.length + 1 + a.length ≤
          (pre ++ (a.length :: ((a.map encodeLEB128String).flatten).take k1)).length
      · obtain ⟨e, hloop⟩ := strArrayLoop_cut a (pre ++ [a.length]) k1 (by omega)
        refine ⟨e, ?_⟩
        simp only [entryValueFromBuffer, V3EntryType.BOOLEAN, V3EntryType.DOUBLE,
          V3EntryType.STRING, V3EntryType.RAW, V3EntryType.BOOLEAN_ARRAY,
          V3EntryType.DOUBLE_ARRAY, V3EntryType.STRING_ARRAY, V3EntryType.RPC,
          Nat.reduceEqDiff, reduceIte]
        rw [readUInt8_at pre
          (a.length :: ((a.map encodeLEB128String).flatten).take k1) a.length rfl (by simp)]
        dsimp only
        rw [checkBufferLength_ok _ _ _ hc]
        dsimp only
        rw [show (pre ++ [a.length]) ++ ((a.map encodeLEB128String).flatten).take k1 =
            pre ++ (a.length :: ((a.map encodeLEB128String).flatten).take k1) from by simp,
          show (pre ++ [a.length]).length = pre.length + 1 from by simp] at hloop
        rw [hloop]
      · refine ⟨.truncated, ?_⟩
        simp only [entryValueFromBuffer, V3EntryType.BOOLEAN, V3EntryType.DOUBLE,
          V3EntryType.STRING, V3EntryType.RAW, V3EntryType.BOOLEAN_ARRAY,
          V3EntryType.DOUBLE_ARRAY, V3EntryType.STRING_ARRAY, V3EntryType.RPC,
          Nat.reduceEqDiff, reduceIte]
        rw [readUInt8_at pre
          (a.length :: ((a.map encodeLEB128String).flatten).take k1) a.length rfl (by simp)]
        dsimp only
        unfold checkBufferLength
        rw [if_neg hc]

theorem entryValue_pf (t : Nat) (v : NTEntryValue) (enc pre : List Nat) (f k : Nat)
    (hw : wfEntryValue t v = true) (he : entryValueToBuffer t v = .ok enc)
    (hk : k < enc.length) :
    ∃ e, entryValueFromBuffer (f + 1) t (pre ++ enc.take k) pre.length = .error e := by
  by_cases ht : t = V3EntryType.RPC
  · subst ht
    obtain ⟨d, rfl, hwd⟩ := wf_rpc_inv hw
    have hshape : entryValueToBuffer V3EntryType.RPC (mkRpc d) =
        (match encodeRPCDefinition d with
         | .ok bb => .ok (bb.length % 256 :: bb)
         | .error e => .error e) := rfl
    rw [hshape] at he
    rcases hed : encodeRPCDefinition d with e | blk
    · rw [hed] at he; cases he
    · rw [hed] at he
      dsimp only at he
      injection he with h
      have hlt : blk.length < 128 := by
        simp only [wfRPCDefinition, Bool.and_eq_true] at hwd
        have h2 := hwd.2
        rw [hed] at h2
        dsimp only at h2
        exact of_decide_eq_true h2
      rw [Nat.mod_eq_of_lt (show blk.length < 256 by omega)] at h
      subst h
      simp only [List.length_cons] at hk
      cases k with
      | zero =>
        simp only [List.take_zero, List.append_nil]
        refine ⟨.truncated, ?_⟩
        simp only [entryValueFromBuffer, V3EntryType.BOOLEAN, V3EntryType.DOUBLE,
          V3EntryType.STRING, V3EntryType.RAW, V3EntryType.BOOLEAN_ARRAY,
          V3EntryType.DOUBLE_ARRAY, V3EntryType.STRING_ARRAY, V3EntryType.RPC,
          Nat.reduceEqDiff, reduceIte]
        unfold fromUnsignedLEB128
        rw [List.drop_length]
        rfl
      | succ k1 =>
        simp only [List.take_succ_cons]
        refine ⟨.truncated, ?_⟩
        simp only [entryValueFromBuffer, V3EntryType.BOOLEAN, V3EntryType.DOUBLE,
          V3EntryType.STRING, V3EntryType.RAW, V3EntryType.BOOLEAN_ARRAY,
          V3EntryType.DOUBLE_ARRAY, V3EntryType.STRING_ARRAY, V3EntryType.RPC,
          Nat.reduceEqDiff, reduceIte]
        have hlb := fromLEB_rt pre (blk.take k1) blk.length
        rw [leb_small blk.length hlt] at hlb
        rw [show pre ++ (([blk.length] : List Nat) ++ blk.take k1) =
            pre ++ (blk.length :: blk.take k1) from by simp,
          show ([blk.length] : List Nat).length = 1 from rfl] at hlb
        rw [hlb]
        dsimp only
        unfold checkBufferLength
        have hneg : ¬ (pre.length + 1 + blk.length ≤
            (pre ++ (blk.length :: blk.take k1)).length) := by
          simp only [List.length_append, List.length_cons, List.length_take]
          omega
        rw [if_neg hneg]
  · have hws : wfScalarValue t v = true := by
      unfold wfEntryValue at hw
      rw [if_neg ht] at hw
      exact hw
    exact scalarValue_pf t v enc pre f k hws he hk

theorem paramsLoop_pf :
    ∀ (pds ps : List V3RPCParameter) (venc pre : List Nat) (k : Nat),
      specsMatchParams pds ps = true → rpcParamValuesToBuffer ps = .ok venc →
      k < venc.length →
      ∃ e, rpcExecuteParamsLoop (pre ++ venc.take k) pds pre.length = .error e := by
  intro pds
  induction pds with
  | nil =>
    intro ps venc pre k hm he hk
    cases ps with
    | cons p ps => simp [specsMatchParams] at hm
    | nil =>
      unfold rpcParamValuesToBuffer at he
      injection he with h
      subst h
      simp at hk
  | cons pd pds ih =>
    intro ps venc pre k hm he hk
    cases ps with
    | nil => simp [specsMatchParams] at hm
    | cons p ps =>
      obtain ⟨pt, pn, pv⟩ := p
      obtain ⟨pdt, pdn, pdv⟩ := pd
      simp only [specsMatchParams, Bool.and_eq_true, beq_iff_eq, V3RPCParameter.type,
        V3RPCParameter.name, V3RPCParameter.value] at hm
      obtain ⟨⟨⟨⟨hpt, hpn⟩, hsc⟩, hwv⟩, hmrec⟩ := hm
      subst hpt
      subst hpn
      unfold rpcParamValuesToBuffer at he
      dsimp only [V3RPCParameter.type, V3RPCParameter.value] at he
      rcases hvb : entryValueToBuffer pt pv with e | vb
      · rw [hvb] at he; cases he
      · rw [hvb] at he
        dsimp only at he
        rcases hrest : rpcParamValuesToBuffer ps with e | vbs
        · rw [hrest] at he; cases he
        · rw [hrest] at he
          dsimp only at he
          injection he with h
          subst h
          simp only [List.length_append] at hk
          by_cases hkv : k < vb.length
          · have htake : (vb ++ vbs).take k = vb.take k := by
              rw [List.take_append_eq_append_take, show k - vb.length = 0 from by omega]
              simp
            rw [htake]
            obtain ⟨e, hval⟩ := scalarValue_pf pt pv vb pre
              ((pre ++ vb.take k).length) k hwv hvb hkv
            refine ⟨e, ?_⟩
            rw [rpcExecuteParamsLoop]
            dsimp only [V3RPCParameter.type]
            rw [hval]
          · push_neg at hkv
            have htake : (vb ++ vbs).take k = vb ++ vbs.take (k - vb.length) := by
              rw [List.take_append_eq_append_take, List.take_of_length_le hkv]
            rw [htake]
            obtain ⟨e, he2⟩ := ih ps vbs (pre ++ vb) (k - vb.length) hmrec hrest (by omega)
            refine ⟨e, ?_⟩
            rw [rpcExecuteParamsLoop]
            dsimp only [V3RPCParameter.type, V3RPCParameter.name]
            have hval := scalarValue_rt pt pv vb pre (vbs.take (k - vb.length))
              ((pre ++ (vb ++ vbs.take (k - vb.length))).length) hwv hvb
            rw [hval]
            dsimp only
            rw [show (pre ++ vb) ++ vbs.take (k - vb.length) =
                pre ++ (vb ++ vbs.take (k - vb.length)) from by simp,
              show (pre ++ vb).length = pre.length + vb.length from by simp] at he2
            rw [he2]

theorem resultsLoop_pf :
    ∀ (rds rs : List V3RPCResult) (venc pre : List Nat) (k : Nat),
      specsMatchResults rds rs = true → rpcResultValuesToBuffer rs = .ok venc →
      k < venc.length →
      ∃ e, rpcResponseResultsLoop (pre ++ venc.take k) rds pre.length = .error e := by
  intro rds
  induction rds with
  | nil =>
    intro rs venc pre k hm he hk
    cases rs with
    | cons r rs => simp [specsMatchResults] at hm
    | nil =>
      unfold rpcResultValuesToBuffer at he
      injection he with h
      subst h
      simp at hk
  | cons rd rds ih =>
    intro rs venc pre k hm he hk
    cases rs with
    | nil => simp [specsMatchResults] at hm
    | cons r rs =>
      obtain ⟨rt, rn, rv⟩ := r
      obtain ⟨rdt, rdn, rdv⟩ := rd
      simp only [specsMatchResults, Bool.and_eq_true, beq_iff_eq, V3RPCResult.type,
        V3RPCResult.name, V3RPCResult.value] at hm
      obtain ⟨⟨⟨⟨hrt, hrn⟩, hsc⟩, hwv⟩, hmrec⟩ := hm
      subst hrt
      subst hrn
      unfold rpcResultValuesToBuffer at he
      dsimp only [V3RPCResult.type, V3RPCResult.value] at he
      rcases hvb : entryValueToBuffer rt rv with e | vb
      · rw [hvb] at he; cases he
      · rw [hvb] at he
        dsimp only at he
        rcases hrest : rpcResultValuesToBuffer rs with e | vbs
        · rw [hrest] at he; cases he
        · rw [hrest] at he
          dsimp only at he
          injection he with h
          subst h
          simp only [List.length_append] at hk
          by_cases hkv : k < vb.length
          · have htake : (vb ++ vbs).take k = vb.take k := by
              rw [List.take_append_eq_append_take, show k - vb.length = 0 from by omega]
              simp
            rw [htake]
            obtain ⟨e, hval⟩ := scalarValue_pf rt rv vb pre
              ((pre ++ vb.take k).length) k hwv hvb hkv
            refine ⟨e, ?_⟩
            rw [rpcResponseResultsLoop]
            dsimp only [V3RPCResult.type]
            rw [hval]
          · push_neg at hkv
            have htake : (vb ++ vbs).take k = vb ++ vbs.take (k - vb.length) := by
              rw [List.take_append_eq_append_take, List.take_of_length_le hkv]
            rw [htake]
            obtain ⟨e, he2⟩ := ih rs vbs (pre ++ vb) (k - vb.length) hmrec hrest (by omega)
            refine ⟨e, ?_⟩
            rw [rpcResponseResultsLoop]
            dsimp only [V3RPCResult.type, V3RPCResult.name]
            have hval := scalarValue_rt rt rv vb pre (vbs.take (k - vb.length))
              ((pre ++ (vb ++ vbs.take (k - vb.length))).length) hwv hvb
            rw [hval]
            dsimp only
            rw [show (pre ++ vb) ++ vbs.take (k - vb.length) =
                pre ++ (vb ++ vbs.take (k - vb.length)) from by simp,
              show (pre ++ vb).length = pre.length + vb.length from by simp] at he2
            rw [he2]

theorem dispatch_clientHello (defs : Nat → Option V3RPCDefinition) (tail : List Nat) :
    getNextAvailableMessage defs (V3MessageType.CLIENT_HELLO :: tail) 0 =
      (clientHelloMessageFromBuffer (V3MessageType.CLIENT_HELLO :: tail) 0).toOption := by
  unfold getNextAvailableMessage
  rw [show getMessageType (V3MessageType.CLIENT_HELLO :: tail) 0 =
      .ok V3MessageType.CLIENT_HELLO from rfl]
  dsimp only
  simp only [V3MessageType.KEEP_ALIVE, V3MessageType.CLIENT_HELLO,
    V3MessageType.PROTO_VERSION_UNSUPPORTED, V3MessageType.SERVER_HELLO_COMPLETE,
    V3MessageType.SERVER_HELLO, V3MessageType.CLIENT_HELLO_COMPLETE,
    V3MessageType.ENTRY_UPDATE, V3MessageType.ENTRY_ASSIGNMENT,
    V3MessageType.ENTRY_FLAGS_UPDATE, V3MessageType.ENTRY_DELETE,
    V3MessageType.CLEAR_ALL_ENTRIES, V3MessageType.RPC_EXECUTE, V3MessageType.RPC_RESPONSE,
    Nat.reduceEqDiff, reduceIte]

theorem dispatch_serverHello (defs : Nat → Option V3RPCDefinition) (tail : List Nat) :
    getNextAvailableMessage defs (V3MessageType.SERVER_HELLO :: tail) 0 =
      (serverHelloMessageFromBuffer (V3MessageType.SERVER_HELLO :: tail) 0).toOption := by
  unfold getNextAvailableMessage
  rw [show getMessageType (V3MessageType.SERVER_HELLO :: tail) 0 =
      .ok V3MessageType.SERVER_HELLO from rfl]
  dsimp only
  simp only [V3MessageType.KEEP_ALIVE, V3MessageType.CLIENT_HELLO,
    V3MessageType.PROTO_VERSION_UNSUPPORTED, V3MessageType.SERVER_HELLO_COMPLETE,
    V3MessageType.SERVER_HELLO, V3MessageType.CLIENT_HELLO_COMPLETE,
    V3MessageType.ENTRY_UPDATE, V3MessageType.ENTRY_ASSIGNMENT,
    V3MessageType.ENTRY_FLAGS_UPDATE, V3MessageType.ENTRY_DELETE,
    V3MessageType.CLEAR_ALL_ENTRIES, V3MessageType.RPC_EXECUTE, V3MessageType.RPC_RESPONSE,
    Nat.reduceEqDiff, reduceIte]

theorem dispatch_entryAssignment (defs : Nat → Option V3RPCDefinition) (tail : List Nat) :
    getNextAvailableMessage defs (V3MessageType.ENTRY_ASSIGNMENT :: tail) 0 =
      (entryAssignmentMessageFromBuffer (V3MessageType.ENTRY_ASSIGNMENT :: tail) 0).toOption := by
  unfold getNextAvailableMessage
  rw [show getMessageType (V3MessageType.ENTRY_ASSIGNMENT :: tail) 0 =
      .ok V3MessageType.ENTRY_ASSIGNMENT from rfl]
  dsimp only
  simp only [V3MessageType.KEEP_ALIVE, V3MessageType.CLIENT_HELLO,
    V3MessageType.PROTO_VERSION_UNSUPPORTED, V3MessageType.SERVER_HELLO_COMPLETE,
    V3MessageType.SERVER_HELLO, V3MessageType.CLIENT_HELLO_COMPLETE,
    V3MessageType.ENTRY_UPDATE, V3MessageType.ENTRY_ASSIGNMENT,
    V3MessageType.ENTRY_FLAGS_UPDATE, V3MessageType.ENTRY_DELETE,
    V3MessageType.CLEAR_ALL_ENTRIES, V3MessageType.RPC_EXECUTE, V3MessageType.RPC_RESPONSE,
    Nat.reduceEqDiff, reduceIte]

theorem dispatch_entryUpdate (defs : Nat → Option V3RPCDefinition) (tail : List Nat) :
    getNextAvailableMessage defs (V3MessageType.ENTRY_UPDATE :: tail) 0 =
      (entryUpdateMessageFromBuffer (V3MessageType.ENTRY_UPDATE :: tail) 0).toOption := by
  unfold getNextAvailableMessage
  rw [show getMessageType (V3MessageType.ENTRY_UPDATE :: tail) 0 =
      .ok V3MessageType.ENTRY_UPDATE from rfl]
  dsimp only
  simp only [V3MessageType.KEEP_ALIVE, V3MessageType.CLIENT_HELLO,
    V3MessageType.PROTO_VERSION_UNSUPPORTED, V3MessageType.SERVER_HELLO_COMPLETE,
    V3MessageType.SERVER_HELLO, V3MessageType.CLIENT_HELLO_COMPLETE,
    V3MessageType.ENTRY_UPDATE, V3MessageType.ENTRY_ASSIGNMENT,
    V3MessageType.ENTRY_FLAGS_UPDATE, V3MessageType.ENTRY_DELETE,
    V3MessageType.CLEAR_ALL_ENTRIES, V3MessageType.RPC_EXECUTE, V3MessageType.RPC_RESPONSE,
    Nat.reduceEqDiff, reduceIte]

theorem dispatch_rpcExecute (defs : Nat → Option V3RPCDefinition) (tail : List Nat) :
    getNextAvailableMessage defs (V3MessageType.RPC_EXECUTE :: tail) 0 =
      (rpcExecuteMessageFromBuffer defs (V3MessageType.RPC_EXECUTE :: tail) 0).toOption := by
  unfold getNextAvailableMessage
  rw [show getMessageType (V3MessageType.RPC_EXECUTE :: tail) 0 =
      .ok V3MessageType.RPC_EXECUTE from rfl]
  dsimp only
  simp only [V3MessageType.KEEP_ALIVE, V3MessageType.CLIENT_HELLO,
    V3MessageType.PROTO_VERSION_UNSUPPORTED, V3MessageType.SERVER_HELLO_COMPLETE,
    V3MessageType.SERVER_HELLO, V3MessageType.CLIENT_HELLO_COMPLETE,
    V3MessageType.ENTRY_UPDATE, V3MessageType.ENTRY_ASSIGNMENT,
    V3MessageType.ENTRY_FLAGS_UPDATE, V3MessageType.ENTRY_DELETE,
    V3MessageType.CLEAR_ALL_ENTRIES, V3MessageType.RPC_EXECUTE, V3MessageType.RPC_RESPONSE,
    Nat.reduceEqDiff, reduceIte]

theorem dispatch_rpcResponse (defs : Nat → Option V3RPCDefinition) (tail : List Nat) :
    getNextAvailableMessage defs (V3MessageType.RPC_RESPONSE :: tail) 0 =
      (rpcResponseMessageFromBuffer defs (V3MessageType.RPC_RESPONSE :: tail) 0).toOption := by
  unfold getNextAvailableMessage
  rw [show getMessageType (V3MessageType.RPC_RESPONSE :: tail) 0 =
      .ok V3MessageType.RPC_RESPONSE from rfl]
  dsimp only
  simp only [V3MessageType.KEEP_ALIVE, V3MessageType.CLIENT_HELLO,
    V3MessageType.PROTO_VERSION_UNSUPPORTED, V3MessageType.SERVER_HELLO_COMPLETE,
    V3MessageType.SERVER_HELLO, V3MessageType.CLIENT_HELLO_COMPLETE,
    V3MessageType.ENTRY_UPDATE, V3MessageType.ENTRY_ASSIGNMENT,
    V3MessageType.ENTRY_FLAGS_UPDATE, V3MessageType.ENTRY_DELETE,
    V3MessageType.CLEAR_ALL_ENTRIES, V3MessageType.RPC_EXECUTE, V3MessageType.RPC_RESPONSE,
    Nat.reduceEqDiff, reduceIte]

theorem pf_protoVersionUnsupported (defs : Nat → Option V3RPCDefinition) (a b k : Nat)
    (hk : k < (protoVersionUnsupportedMessageToBuffer a b).length) :
    getNextAvailableMessage defs ((protoVersionUnsupportedMessageToBuffer a b).take k) 0 =
      none := by
  unfold protoVersionUnsupportedMessageToBuffer at hk ⊢
  simp only [List.length_cons, List.length_nil] at hk
  rcases k with _ | (_ | (_ | j))
  · rfl
  · rfl
  · rfl
  · omega

theorem pf_entryFlagsUpdate (defs : Nat → Option V3RPCDefinition) (id : Nat)
    (fl : V3EntryFlags) (b : List Nat) (k : Nat) (hid : id < 65536)
    (he : entryFlagsUpdateMessageToBuffer id fl = .ok b) (hk : k < b.length) :
    getNextAvailableMessage defs (b.take k) 0 = none := by
  unfold entryFlagsUpdateMessageToBuffer at he
  rw [show writeUInt16BE id = .ok [id / 256, id % 256] from by
    unfold writeUInt16BE; rw [if_pos hid]] at he
  dsimp only at he
  injection he with h
  subst h
  simp only [List.length_cons, List.length_append, List.length_nil] at hk
  rcases k with _ | (_ | (_ | (_ | j)))
  · rfl
  · rfl
  · rfl
  · rfl
  · omega

theorem pf_entryDelete (defs : Nat → Option V3RPCDefinition) (id : Nat)
    (b : List Nat) (k : Nat) (hid : id < 65536)
    (he : entryDeleteMessageToBuffer id = .ok b) (hk : k < b.length) :
    getNextAvailableMessage defs (b.take k) 0 = none := by
  unfold entryDeleteMessageToBuffer at he
  rw [show writeUInt16BE id = .ok [id / 256, id % 256] from by
    unfold writeUInt16BE; rw [if_pos hid]] at he
  dsimp only at he
  injection he with h
  subst h
  simp only [List.length_cons, List.length_nil] at hk
  rcases k with _ | (_ | (_ | j))
  · rfl
  · rfl
  · rfl
  · omega

theorem pf_clearAllEntries (defs : Nat → Option V3RPCDefinition) (k : Nat)
    (hk : k < clearAllEntriesMessageToBuffer.length) :
    getNextAvailableMessage defs (clearAllEntriesMessageToBuffer.take k) 0 = none := by
  have h5 : clearAllEntriesMessageToBuffer.length = 5 := rfl
  rw [h5] at hk
  rcases k with _ | (_ | (_ | (_ | (_ | j))))
  · rfl
  · rfl
  · rfl
  · rfl
  · rfl
  · omega

theorem pf_clientHello (defs : Nat → Option V3RPCDefinition) (a b : Nat) (ident : List Nat)
    (k : Nat) (hk : k < (clientHelloMessageToBuffer a b ident).length) :
    getNextAvailableMessage defs ((clientHelloMessageToBuffer a b ident).take k) 0 =
      none := by
  unfold clientHelloMessageToBuffer at hk ⊢
  simp only [List.length_cons] at hk
  rcases k with _ | (_ | (_ | (_ | j)))
  · rfl
  · rfl
  · rfl
  · rfl
  · simp only [List.take_succ_cons]
    rw [dispatch_clientHello defs (3 :: 0 :: (encodeLEB128String ident).take (j + 1))]
    have herr : clientHelloMessageFromBuffer (V3MessageType.CLIENT_HELLO :: 3 :: 0 ::
        (encodeLEB128String ident).take (j + 1)) 0 = .error .truncated := by
      unfold clientHelloMessageFromBuffer
      have hc : 0 + 4 ≤ (V3MessageType.CLIENT_HELLO :: 3 :: 0 ::
          (encodeLEB128String ident).take (j + 1)).length := by
        simp only [List.length_cons, List.length_take]
        omega
      rw [checkBufferLength_ok _ _ _ hc]
      dsimp only
      rw [show checkMessageType (V3MessageType.CLIENT_HELLO :: 3 :: 0 ::
          (encodeLEB128String ident).take (j + 1)) 0 V3MessageType.CLIENT_HELLO =
          .ok () from rfl]
      dsimp only
      have h2 := readUInt8_at [V3MessageType.CLIENT_HELLO]
        (3 :: 0 :: (encodeLEB128String ident).take (j + 1)) 3 rfl (by simp)
      rw [show ([V3MessageType.CLIENT_HELLO] : List Nat) ++
          (3 :: 0 :: (encodeLEB128String ident).take (j + 1)) =
          V3MessageType.CLIENT_HELLO :: 3 :: 0 :: (encodeLEB128String ident).take (j + 1)
          from rfl,
        show ([V3MessageType.CLIENT_HELLO] : List Nat).length = 1 from rfl] at h2
      rw [h2]
      dsimp only
      have h3 := readUInt8_at [V3MessageType.CLIENT_HELLO, 3]
        (0 :: (encodeLEB128String ident).take (j + 1)) 0 rfl (by simp)
      rw [show ([V3MessageType.CLIENT_HELLO, 3] : List Nat) ++
          (0 :: (encodeLEB128String ident).take (j + 1)) =
          V3MessageType.CLIENT_HELLO :: 3 :: 0 :: (encodeLEB128String ident).take (j + 1)
          from rfl,
        show ([V3MessageType.CLIENT_HELLO, 3] : List Nat).length = 2 from rfl] at h3
      rw [h3]
      dsimp only
      have hcut := str_cut [V3MessageType.CLIENT_HELLO, 3, 0] ident (j + 1) (by omega)
      rw [show ([V3MessageType.CLIENT_HELLO, 3, 0] : List Nat) ++
          (encodeLEB128String ident).take (j + 1) =
          V3MessageType.CLIENT_HELLO :: 3 :: 0 :: (encodeLEB128String ident).take (j + 1)
          from rfl,
        show ([V3MessageType.CLIENT_HELLO, 3, 0] : List Nat).length = 3 from rfl] at hcut
      rw [hcut]
    rw [herr]
    rfl

theorem pf_serverHello (defs : Nat → Option V3RPCDefinition) (seen : Bool)
    (ident : List Nat) (k : Nat) (hk : k < (serverHelloMessageToBuffer seen ident).length) :
    getNextAvailableMessage defs ((serverHelloMessageToBuffer seen ident).take k) 0 =
      none := by
  unfold serverHelloMessageToBuffer at hk ⊢
  simp only [List.length_cons] at hk
  rcases k with _ | (_ | (_ | j))
  · rfl
  · cases seen <;> rfl
  · cases seen <;> rfl
  · simp only [List.take_succ_cons]
    rw [dispatch_serverHello defs ((if seen then 1 else 0) ::
      (encodeLEB128String ident).take (j + 1))]
    have herr : serverHelloMessageFromBuffer (V3MessageType.SERVER_HELLO ::
        (if seen then (1 : Nat) else 0) :: (encodeLEB128String ident).take (j + 1)) 0 =
        .error .truncated := by
      unfold serverHelloMessageFromBuffer
      have hc : 0 + 3 ≤ (V3MessageType.SERVER_HELLO :: (if seen then (1 : Nat) else 0) ::
          (encodeLEB128String ident).take (j + 1)).length := by
        simp only [List.length_cons, List.length_take]
        omega
      rw [checkBufferLength_ok _ _ _ hc]
      dsimp only
      rw [show checkMessageType (V3MessageType.SERVER_HELLO ::
          (if seen then (1 : Nat) else 0) :: (encodeLEB128String ident).take (j + 1)) 0
          V3MessageType.SERVER_HELLO = .ok () from rfl]
      dsimp only
      have hcut := str_cut [V3MessageType.SERVER_HELLO, if seen then (1 : Nat) else 0]
        ident (j + 1) (by omega)
      rw [show ([V3MessageType.SERVER_HELLO, if seen then (1 : Nat) else 0] : List Nat) ++
          (encodeLEB128String ident).take (j + 1) =
          V3MessageType.SERVER_HELLO :: (if seen then (1 : Nat) else 0) ::
            (encodeLEB128String ident).take (j + 1) from rfl,
        show ([V3MessageType.SERVER_HELLO, if seen then (1 : Nat) else 0] :
          List Nat).length = 2 from rfl] at hcut
      rw [hcut]
    rw [herr]
    rfl

theorem pf_entryUpdate (defs : Nat → Option V3RPCDefinition) (id sq t : Nat)
    (v : NTEntryValue) (b : List Nat) (k : Nat) (hts : isV3EntryType t = true)
    (hid : id < 65536) (hsq : sq < 65536) (hwv : wfEntryValue t v = true)
    (he : entryUpdateMessageToBuffer id sq t v = .ok b) (hk : k < b.length) :
    getNextAvailableMessage defs (b.take k) 0 = none := by
  unfold entryUpdateMessageToBuffer at he
  rcases hc : checkEntryValue t v with e | u
  · rw [hc] at he; cases he
  · rw [hc] at he
    dsimp only at he
    rw [show writeUInt16BE id = .ok [id / 256, id % 256] from by
        unfold writeUInt16BE; rw [if_pos hid],
      show writeUInt16BE sq = .ok [sq / 256, sq % 256] from by
        unfold writeUInt16BE; rw [if_pos hsq]] at he
    dsimp only at he
    rcases hv : entryValueToBuffer t v with e | vb
    · rw [hv] at he; cases he
    · rw [hv] at he
      dsimp only at he
      injection he with h
      rw [Nat.mod_eq_of_lt (entry_type_lt t hts)] at h
      rw [show V3MessageType.ENTRY_UPDATE :: [id / 256, id % 256] ++ [sq / 256, sq % 256] ++
          (t :: vb) = V3MessageType.ENTRY_UPDATE :: id / 256 :: id % 256 :: sq / 256 ::
          sq % 256 :: t :: vb from by simp] at h
      subst h
      simp only [List.length_cons] at hk
      rcases k with _ | (_ | (_ | (_ | (_ | (_ | (_ | j))))))
      · rfl
      · rfl
      · rfl
      · rfl
      · rfl
      · rfl
      · rfl
      · simp only [List.take_succ_cons]
        rw [dispatch_entryUpdate defs (id / 256 :: id % 256 :: sq / 256 :: sq % 256 :: t ::
          vb.take (j + 1))]
        obtain ⟨e, hval⟩ := entryValue_pf t v vb
          [V3MessageType.ENTRY_UPDATE, id / 256, id % 256, sq / 256, sq % 256, t]
          ((V3MessageType.ENTRY_UPDATE :: id / 256 :: id % 256 :: sq / 256 :: sq % 256 ::
            t :: vb.take (j + 1)).length) (j + 1) hwv hv (by omega)
        rw [show ([V3MessageType.ENTRY_UPDATE, id / 256, id % 256, sq / 256, sq % 256, t] :
            List Nat) ++ vb.take (j + 1) =
            V3MessageType.ENTRY_UPDATE :: id / 256 :: id % 256 :: sq / 256 :: sq % 256 ::
              t :: vb.take (j + 1) from rfl,
          show ([V3MessageType.ENTRY_UPDATE, id / 256, id % 256, sq / 256, sq % 256, t] :
            List Nat).length = 6 from rfl] at hval
        have herr : entryUpdateMessageFromBuffer (V3MessageType.ENTRY_UPDATE :: id / 256 ::
            id % 256 :: sq / 256 :: sq % 256 :: t :: vb.take (j + 1)) 0 = .error e := by
          unfold entryUpdateMessageFromBuffer
          have hcb : 0 + 7 ≤ (V3MessageType.ENTRY_UPDATE :: id / 256 :: id % 256 ::
              sq / 256 :: sq % 256 :: t :: vb.take (j + 1)).length := by
            simp only [List.length_cons, List.length_take]
            omega
          rw [checkBufferLength_ok _ _ _ hcb]
          dsimp only
          rw [show checkMessageType (V3MessageType.ENTRY_UPDATE :: id / 256 :: id % 256 ::
              sq / 256 :: sq % 256 :: t :: vb.take (j + 1)) 0 V3MessageType.ENTRY_UPDATE =
              .ok () from rfl]
          dsimp only
          have hr1 := readUInt16BE_at [V3MessageType.ENTRY_UPDATE]
            (id / 256 :: id % 256 :: sq / 256 :: sq % 256 :: t :: vb.take (j + 1))
            (id / 256) (id % 256) rfl rfl (by simp)
          rw [show ([V3MessageType.ENTRY_UPDATE] : List Nat) ++
              (id / 256 :: id % 256 :: sq / 256 :: sq % 256 :: t :: vb.take (j + 1)) =
              V3MessageType.ENTRY_UPDATE :: id / 256 :: id % 256 :: sq / 256 :: sq % 256 ::
                t :: vb.take (j + 1) from rfl,
            show ([V3MessageType.ENTRY_UPDATE] : List Nat).length = 1 from rfl] at hr1
          rw [hr1]
          dsimp only
          have hr2 := readUInt16BE_at [V3MessageType.ENTRY_UPDATE, id / 256, id % 256]
            (sq / 256 :: sq % 256 :: t :: vb.take (j + 1))
            (sq / 256) (sq % 256) rfl rfl (by simp)
          rw [show ([V3MessageType.ENTRY_UPDATE, id / 256, id % 256] : List Nat) ++
              (sq / 256 :: sq % 256 :: t :: vb.take (j + 1)) =
              V3MessageType.ENTRY_UPDATE :: id / 256 :: id % 256 :: sq / 256 :: sq % 256 ::
                t :: vb.take (j + 1) from rfl,
            show ([V3MessageType.ENTRY_UPDATE, id / 256, id % 256] : List Nat).length = 3
              from rfl] at hr2
          rw [hr2]
          dsimp only
          rw [show (V3MessageType.ENTRY_UPDATE :: id / 256 :: id % 256 :: sq / 256 ::
              sq % 256 :: t :: vb.take (j + 1)).get? 5 = some t from rfl]
          dsimp only
          rw [if_pos hts, hval]
        rw [herr]
        rfl

theorem pf_rpcExecute (defs : Nat → Option V3RPCDefinition) (d u : Nat)
    (ps : List V3RPCParameter) (b : List Nat) (k : Nat) (rd : V3RPCDefinition)
    (hd : d < 65536) (hu : u < 65536) (hdefs : defs d = some rd)
    (hm : specsMatchParams rd.parameters ps = true)
    (he : rpcExecuteMessageToBuffer d u ps = .ok b) (hk : k < b.length) :
    getNextAvailableMessage defs (b.take k) 0 = none := by
  unfold rpcExecuteMessageToBuffer at he
  rw [show writeUInt16BE d = .ok [d / 256, d % 256] from by
      unfold writeUInt16BE; rw [if_pos hd],
    show writeUInt16BE u = .ok [u / 256, u % 256] from by
      unfold writeUInt16BE; rw [if_pos hu]] at he
  dsimp only at he
  rcases hpv : rpcParamValuesToBuffer ps with e | pvs
  · rw [hpv] at he; cases he
  · rw [hpv] at he
    dsimp only at he
    injection he with h
    rw [show V3MessageType.RPC_EXECUTE :: [d / 256, d % 256] ++ [u / 256, u % 256] ++
        toUnsignedLEB128 ps.length ++ pvs = V3MessageType.RPC_EXECUTE :: d / 256 ::
        d % 256 :: u / 256 :: u % 256 :: (toUnsignedLEB128 ps.length ++ pvs) from by simp]
      at h
    subst h
    have hleb := leb_len_pos ps.length
    simp only [List.length_cons, List.length_append] at hk
    rcases k with _ | (_ | (_ | (_ | (_ | j))))
    · rfl
    · rfl
    · rfl
    · rfl
    · rfl
    · cases j with
      | zero => rfl
      | succ m =>
        simp only [List.take_succ_cons]
        rw [dispatch_rpcExecute defs (d / 256 :: d % 256 :: u / 256 :: u % 256 ::
          (toUnsignedLEB128 ps.length ++ pvs).take (m + 1))]
        by_cases hjl : m + 1 < (toUnsignedLEB128 ps.length).length
        · have htake : (toUnsignedLEB128 ps.length ++ pvs).take (m + 1) =
              (toUnsignedLEB128 ps.length).take (m + 1) := by
            rw [List.take_append_eq_append_take,
              show m + 1 - (toUnsignedLEB128 ps.length).length = 0 from by omega]
            simp
          rw [htake]
          have herr : rpcExecuteMessageFromBuffer defs (V3MessageType.RPC_EXECUTE ::
              d / 256 :: d % 256 :: u / 256 :: u % 256 ::
              (toUnsignedLEB128 ps.length).take (m + 1)) 0 = .error .truncated := by
            unfold rpcExecuteMessageFromBuffer
            have hcb : 0 + 6 ≤ (V3MessageType.RPC_EXECUTE :: d / 256 :: d % 256 ::
                u / 256 :: u % 256 ::
                (toUnsignedLEB128 ps.length).take (m + 1)).length := by
              simp only [List.length_cons, List.length_take]
              omega
            rw [checkBufferLength_ok _ _ _ hcb]
            dsimp only
            rw [show checkMessageType (V3MessageType.RPC_EXECUTE :: d / 256 :: d % 256 ::
                u / 256 :: u % 256 :: (toUnsignedLEB128 ps.length).take (m + 1)) 0
                V3MessageType.RPC_EXECUTE = .ok () from rfl]
            dsimp only
            have hr1 := readUInt16BE_at [V3MessageType.RPC_EXECUTE]
              (d / 256 :: d % 256 :: u / 256 :: u % 256 ::
                (toUnsignedLEB128 ps.length).take (m + 1)) (d / 256) (d % 256) rfl rfl
              (by simp)
            rw [show ([V3MessageType.RPC_EXECUTE] : List Nat) ++
                (d / 256 :: d % 256 :: u / 256 :: u % 256 ::
                  (toUnsignedLEB128 ps.length).take (m + 1)) =
                V3MessageType.RPC_EXECUTE :: d / 256 :: d % 256 :: u / 256 :: u % 256 ::
                  (toUnsignedLEB128 ps.length).take (m + 1) from rfl,
              show ([V3MessageType.RPC_EXECUTE] : List Nat).length = 1 from rfl,
              show d / 256 * 256 + d % 256 = d from by omega] at hr1
            rw [hr1]
            dsimp only
            rw [hdefs]
            dsimp only
            have hr2 := readUInt16BE_at [V3MessageType.RPC_EXECUTE, d / 256, d % 256]
              (u / 256 :: u % 256 :: (toUnsignedLEB128 ps.length).take (m + 1))
              (u / 256) (u % 256) rfl rfl (by simp)
            rw [show ([V3MessageType.RPC_EXECUTE, d / 256, d % 256] : List Nat) ++
                (u / 256 :: u % 256 :: (toUnsignedLEB128 ps.length).take (m + 1)) =
                V3MessageType.RPC_EXECUTE :: d / 256 :: d % 256 :: u / 256 :: u % 256 ::
                  (toUnsignedLEB128 ps.length).take (m + 1) from rfl,
              show ([V3MessageType.RPC_EXECUTE, d / 256, d % 256] : List Nat).length = 3
                from rfl] at hr2
            rw [hr2]
            dsimp only
            unfold fromUnsignedLEB128
            rw [show (V3MessageType.RPC_EXECUTE :: d / 256 :: d % 256 :: u / 256 ::
                u % 256 :: (toUnsignedLEB128 ps.length).take (m + 1)).drop 5 =
                (toUnsignedLEB128 ps.length).take (m + 1) from rfl]
            rw [leb_cut ps.length (m + 1) hjl]
          rw [herr]
          rfl
        · push_neg at hjl
          have htake : (toUnsignedLEB128 ps.length ++ pvs).take (m + 1) =
              toUnsignedLEB128 ps.length ++
                pvs.take (m + 1 - (toUnsignedLEB128 ps.length).length) := by
            rw [List.take_append_eq_append_take, List.take_of_length_le hjl]
          rw [htake]
          obtain ⟨e, hloop⟩ := paramsLoop_pf rd.parameters ps pvs
            ([V3MessageType.RPC_EXECUTE, d / 256, d % 256, u / 256, u % 256] ++
              toUnsignedLEB128 ps.length)
            (m + 1 - (toUnsignedLEB128 ps.length).length) hm hpv (by omega)
          have herr : rpcExecuteMessageFromBuffer defs (V3MessageType.RPC_EXECUTE ::
              d / 256 :: d % 256 :: u / 256 :: u % 256 ::
              (toUnsignedLEB128 ps.length ++
                pvs.take (m + 1 - (toUnsignedLEB128 ps.length).length))) 0 =
              .error e := by
            unfold rpcExecuteMessageFromBuffer
            have hcb : 0 + 6 ≤ (V3MessageType.RPC_EXECUTE :: d / 256 :: d % 256 ::
                u / 256 :: u % 256 :: (toUnsignedLEB128 ps.length ++
                  pvs.take (m + 1 - (toUnsignedLEB128 ps.length).length))).length := by
              simp only [List.length_cons, List.length_take, List.length_append]
              omega
            rw [checkBufferLength_ok _ _ _ hcb]
            dsimp only
            rw [show checkMessageType (V3MessageType.RPC_EXECUTE :: d / 256 :: d % 256 ::
                u / 256 :: u % 256 :: (toUnsignedLEB128 ps.length ++
                  pvs.take (m + 1 - (toUnsignedLEB128 ps.length).length))) 0
                V3MessageType.RPC_EXECUTE = .ok () from rfl]
            dsimp only
            have hr1 := readUInt16BE_at [V3MessageType.RPC_EXECUTE]
              (d / 256 :: d % 256 :: u / 256 :: u % 256 :: (toUnsignedLEB128 ps.length ++
                pvs.take (m + 1 - (toUnsignedLEB128 ps.length).length)))
              (d / 256) (d % 256) rfl rfl (by simp)
            rw [show ([V3MessageType.RPC_EXECUTE] : List Nat) ++
                (d / 256 :: d % 256 :: u / 256 :: u % 256 :: (toUnsignedLEB128 ps.length ++
                  pvs.take (m + 1 - (toUnsignedLEB128 ps.length).length))) =
                V3MessageType.RPC_EXECUTE :: d / 256 :: d % 256 :: u / 256 :: u % 256 ::
                  (toUnsignedLEB128 ps.length ++
                    pvs.take (m + 1 - (toUnsignedLEB128 ps.length).length)) from rfl,
              show ([V3MessageType.RPC_EXECUTE] : List Nat).length = 1 from rfl,
              show d / 256 * 256 + d % 256 = d from by omega] at hr1
            rw [hr1]
            dsimp only
            rw [hdefs]
            dsimp only
            have hr2 := readUInt16BE_at [V3MessageType.RPC_EXECUTE, d / 256, d % 256]
              (u / 256 :: u % 256 :: (toUnsignedLEB128 ps.length ++
                pvs.take (m + 1 - (toUnsignedLEB128 ps.length).length)))
              (u / 256) (u % 256) rfl rfl (by simp)
            rw [show ([V3MessageType.RPC_EXECUTE, d / 256, d % 256] : List Nat) ++
                (u / 256 :: u % 256 :: (toUnsignedLEB128 ps.length ++
                  pvs.take (m + 1 - (toUnsignedLEB128 ps.length).length))) =
                V3MessageType.RPC_EXECUTE :: d / 256 :: d % 256 :: u / 256 :: u % 256 ::
                  (toUnsignedLEB128 ps.length ++
                    pvs.take (m + 1 - (toUnsignedLEB128 ps.length).length)) from rfl,
              show ([V3MessageType.RPC_EXECUTE, d / 256, d % 256] : List Nat).length = 3
                from rfl] at hr2
            rw [hr2]
            dsimp only
            have hlb := fromLEB_rt
              [V3MessageType.RPC_EXECUTE, d / 256, d % 256, u / 256, u % 256]
              (pvs.take (m + 1 - (toUnsignedLEB128 ps.length).length)) ps.length
            rw [show ([V3MessageType.RPC_EXECUTE, d / 256, d % 256, u / 256, u % 256] :
                List Nat) ++ (toUnsignedLEB128 ps.length ++
                  pvs.take (m + 1 - (toUnsignedLEB128 ps.length).length)) =
                V3MessageType.RPC_EXECUTE :: d / 256 :: d % 256 :: u / 256 :: u % 256 ::
                  (toUnsignedLEB128 ps.length ++
                    pvs.take (m + 1 - (toUnsignedLEB128 ps.length).length)) from rfl,
              show ([V3MessageType.RPC_EXECUTE, d / 256, d % 256, u / 256, u % 256] :
                List Nat).length = 5 from rfl] at hlb
            rw [hlb]
            dsimp only
            rw [if_pos (specsMatchParams_length rd.parameters ps hm).symm]
            rw [show ([V3MessageType.RPC_EXECUTE, d / 256, d % 256, u / 256, u % 256] ++
                toUnsignedLEB128 ps.length) ++
                  pvs.take (m + 1 - (toUnsignedLEB128 ps.length).length) =
                V3MessageType.RPC_EXECUTE :: d / 256 :: d % 256 :: u / 256 :: u % 256 ::
                  (toUnsignedLEB128 ps.length ++
                    pvs.take (m + 1 - (toUnsignedLEB128 ps.length).length)) from by simp,
              show (([V3MessageType.RPC_EXECUTE, d / 256, d % 256, u / 256, u % 256] ++
                toUnsignedLEB128 ps.length) : List Nat).length =
                5 + (toUnsignedLEB128 ps.length).length from by simp <;> omega] at hloop
            rw [hloop]
          rw [herr]
          rfl

theorem pf_rpcResponse (defs : Nat → Option V3RPCDefinition) (d u : Nat)
    (rs : List V3RPCResult) (b : List Nat) (k : Nat) (rd : V3RPCDefinition)
    (hd : d < 65536) (hu : u < 65536) (hdefs : defs d = some rd)
    (hm : specsMatchResults rd.results rs = true)
    (he : rpcResponseMessageToBuffer d u rs = .ok b) (hk : k < b.length) :
    getNextAvailableMessage defs (b.take k) 0 = none := by
  unfold rpcResponseMessageToBuffer at he
  rw [show writeUInt16BE d = .ok [d / 256, d % 256] from by
      unfold writeUInt16BE; rw [if_pos hd],
    show writeUInt16BE u = .ok [u / 256, u % 256] from by
      unfold writeUInt16BE; rw [if_pos hu]] at he
  dsimp only at he
  rcases hrv : rpcResultValuesToBuffer rs with e | rvs
  · rw [hrv] at he; cases he
  · rw [hrv] at he
    dsimp only at he
    injection he with h
    rw [show V3MessageType.RPC_RESPONSE :: [d / 256, d % 256] ++ [u / 256, u % 256] ++
        toUnsignedLEB128 rs.length ++ rvs = V3MessageType.RPC_RESPONSE :: d / 256 ::
        d % 256 :: u / 256 :: u % 256 :: (toUnsignedLEB128 rs.length ++ rvs) from by simp]
      at h
    subst h
    have hleb := leb_len_pos rs.length
    simp only [List.length_cons, List.length_append] at hk
    rcases k with _ | (_ | (_ | (_ | (_ | j))))
    · rfl
    · rfl
    · rfl
    · rfl
    · rfl
    · cases j with
      | zero => rfl
      | succ m =>
        simp only [List.take_succ_cons]
        rw [dispatch_rpcResponse defs (d / 256 :: d % 256 :: u / 256 :: u % 256 ::
          (toUnsignedLEB128 rs.length ++ rvs).take (m + 1))]
        by_cases hjl : m + 1 < (toUnsignedLEB128 rs.length).length
        · have htake : (toUnsignedLEB128 rs.length ++ rvs).take (m + 1) =
              (toUnsignedLEB128 rs.length).take (m + 1) := by
            rw [List.take_append_eq_append_take,
              show m + 1 - (toUnsignedLEB128 rs.length).length = 0 from by omega]
            simp
          rw [htake]
          have herr : rpcResponseMessageFromBuffer defs (V3MessageType.RPC_RESPONSE ::
              d / 256 :: d % 256 :: u / 256 :: u % 256 ::
              (toUnsignedLEB128 rs.length).take (m + 1)) 0 = .error .truncated := by
            unfold rpcResponseMessageFromBuffer
            have hcb : 0 + 6 ≤ (V3MessageType.RPC_RESPONSE :: d / 256 :: d % 256 ::
                u / 256 :: u % 256 ::
                (toUnsignedLEB128 rs.length).take (m + 1)).length := by
              simp only [List.length_cons, List.length_take]
              omega
            rw [checkBufferLength_ok _ _ _ hcb]
            dsimp only
            rw [show checkMessageType (V3MessageType.RPC_RESPONSE :: d / 256 :: d % 256 ::
                u / 256 :: u % 256 :: (toUnsignedLEB128 rs.length).take (m + 1)) 0
                V3MessageType.RPC_RESPONSE = .ok () from rfl]
            dsimp only
            have hr1 := readUInt16BE_at [V3MessageType.RPC_RESPONSE]
              (d / 256 :: d % 256 :: u / 256 :: u % 256 ::
                (toUnsignedLEB128 rs.length).take (m + 1)) (d / 256) (d % 256) rfl rfl
              (by simp)
            rw [show ([V3MessageType.RPC_RESPONSE] : List Nat) ++
                (d / 256 :: d % 256 :: u / 256 :: u % 256 ::
                  (toUnsignedLEB128 rs.length).take (m + 1)) =
                V3MessageType.RPC_RESPONSE :: d / 256 :: d % 256 :: u / 256 :: u % 256 ::
                  (toUnsignedLEB128 rs.length).take (m + 1) from rfl,
              show ([V3MessageType.RPC_RESPONSE] : List Nat).length = 1 from rfl,
              show d / 256 * 256 + d % 256 = d from by omega] at hr1
            rw [hr1]
            dsimp only
            rw [hdefs]
            dsimp only
            have hr2 := readUInt16BE_at [V3MessageType.RPC_RESPONSE, d / 256, d % 256]
              (u / 256 :: u % 256 :: (toUnsignedLEB128 rs.length).take (m + 1))
              (u / 256) (u % 256) rfl rfl (by simp)
            rw [show ([V3MessageType.RPC_RESPONSE, d / 256, d % 256] : List Nat) ++
                (u / 256 :: u % 256 :: (toUnsignedLEB128 rs.length).take (m + 1)) =
                V3MessageType.RPC_RESPONSE :: d / 256 :: d % 256 :: u / 256 :: u % 256 ::
                  (toUnsignedLEB128 rs.length).take (m + 1) from rfl,
              show ([V3MessageType.RPC_RESPONSE, d / 256, d % 256] : List Nat).length = 3
                from rfl] at hr2
            rw [hr2]
            dsimp only
            unfold fromUnsignedLEB128
            rw [show (V3MessageType.RPC_RESPONSE :: d / 256 :: d % 256 :: u / 256 ::
                u % 256 :: (toUnsignedLEB128 rs.length).take (m + 1)).drop 5 =
                (toUnsignedLEB128 rs.length).take (m + 1) from rfl]
            rw [leb_cut rs.length (m + 1) hjl]
          rw [herr]
          rfl
        · push_neg at hjl
          have htake : (toUnsignedLEB128 rs.length ++ rvs).take (m + 1) =
              toUnsignedLEB128 rs.length ++
                rvs.take (m + 1 - (toUnsignedLEB128 rs.length).length) := by
            rw [List.take_append_eq_append_take, List.take_of_length_le hjl]
          rw [htake]
          obtain ⟨e, hloop⟩ := resultsLoop_pf rd.results rs rvs
            ([V3MessageType.RPC_RESPONSE, d / 256, d % 256, u / 256, u % 256] ++
              toUnsignedLEB128 rs.length)
            (m + 1 - (toUnsignedLEB128 rs.length).length) hm hrv (by omega)
          have herr : rpcResponseMessageFromBuffer defs (V3MessageType.RPC_RESPONSE ::
              d / 256 :: d % 256 :: u / 256 :: u % 256 ::
              (toUnsignedLEB128 rs.length ++
                rvs.take (m + 1 - (toUnsignedLEB128 rs.length).length))) 0 =
              .error e := by
            unfold rpcResponseMessageFromBuffer
            have hcb : 0 + 6 ≤ (V3MessageType.RPC_RESPONSE :: d / 256 :: d % 256 ::
                u / 256 :: u % 256 :: (toUnsignedLEB128 rs.length ++
                  rvs.take (m + 1 - (toUnsignedLEB128 rs.length).length))).length := by
              simp only [List.length_cons, List.length_take, List.length_append]
              omega
            rw [checkBufferLength_ok _ _ _ hcb]
            dsimp only
            rw [show checkMessageType (V3MessageType.RPC_RESPONSE :: d / 256 :: d % 256 ::
                u / 256 :: u % 256 :: (toUnsignedLEB128 rs.length ++
                  rvs.take (m + 1 - (toUnsignedLEB128 rs.length).length))) 0
                V3MessageType.RPC_RESPONSE = .ok () from rfl]
            dsimp only
            have hr1 := readUInt16BE_at [V3MessageType.RPC_RESPONSE]
              (d / 256 :: d % 256 :: u / 256 :: u % 256 :: (toUnsignedLEB128 rs.length ++
                rvs.take (m + 1 - (toUnsignedLEB128 rs.length).length)))
              (d / 256) (d % 256) rfl rfl (by simp)
            rw [show ([V3MessageType.RPC_RESPONSE] : List Nat) ++
                (d / 256 :: d % 256 :: u / 256 :: u % 256 :: (toUnsignedLEB128 rs.length ++
                  rvs.take (m + 1 - (toUnsignedLEB128 rs.length).length))) =
                V3MessageType.RPC_RESPONSE :: d / 256 :: d % 256 :: u / 256 :: u % 256 ::
                  (toUnsignedLEB128 rs.length ++
                    rvs.take (m + 1 - (toUnsignedLEB128 rs.length).length)) from rfl,
              show ([V3MessageType.RPC_RESPONSE] : List Nat).length = 1 from rfl,
              show d / 256 * 256 + d % 256 = d from by omega] at hr1
            rw [hr1]
            dsimp only
            rw [hdefs]
            dsimp only
            have hr2 := readUInt16BE_at [V3MessageType.RPC_RESPONSE, d / 256, d % 256]
              (u / 256 :: u % 256 :: (toUnsignedLEB128 rs.length ++
                rvs.take (m + 1 - (toUnsignedLEB128 rs.length).length)))
              (u / 256) (u % 256) rfl rfl (by simp)
            rw [show ([V3MessageType.RPC_RESPONSE, d / 256, d % 256] : List Nat) ++
                (u / 256 :: u % 256 :: (toUnsignedLEB128 rs.length ++
                  rvs.take (m + 1 - (toUnsignedLEB128 rs.length).length))) =
                V3MessageType.RPC_RESPONSE :: d / 256 :: d % 256 :: u / 256 :: u % 256 ::
                  (toUnsignedLEB128 rs.length ++
                    rvs.take (m + 1 - (toUnsignedLEB128 rs.length).length)) from rfl,
              show ([V3MessageType.RPC_RESPONSE, d / 256, d % 256] : List Nat).length = 3
                from rfl] at hr2
            rw [hr2]
            dsimp only
            have hlb := fromLEB_rt
              [V3MessageType.RPC_RESPONSE, d / 256, d % 256, u / 256, u % 256]
              (rvs.take (m + 1 - (toUnsignedLEB128 rs.length).length)) rs.length
            rw [show ([V3MessageType.RPC_RESPONSE, d / 256, d % 256, u / 256, u % 256] :
                List Nat) ++ (toUnsignedLEB128 rs.length ++
                  rvs.take (m + 1 - (toUnsignedLEB128 rs.length).length)) =
                V3MessageType.RPC_RESPONSE :: d / 256 :: d % 256 :: u / 256 :: u % 256 ::
                  (toUnsignedLEB128 rs.length ++
                    rvs.take (m + 1 - (toUnsignedLEB128 rs.length).length)) from rfl,
              show ([V3MessageType.RPC_RESPONSE, d / 256, d % 256, u / 256, u % 256] :
                List Nat).length = 5 from rfl] at hlb
            rw [hlb]
            dsimp only
            rw [if_pos (specsMatchResults_length rd.results rs hm).symm]
            rw [show ([V3MessageType.RPC_RESPONSE, d / 256, d % 256, u / 256, u % 256] ++
                toUnsignedLEB128 rs.length) ++
                  rvs.take (m + 1 - (toUnsignedLEB128 rs.length).length) =
                V3MessageType.RPC_RESPONSE :: d / 256 :: d % 256 :: u / 256 :: u % 256 ::
                  (toUnsignedLEB128 rs.length ++
                    rvs.take (m + 1 - (toUnsignedLEB128 rs.length).length)) from by simp,
              show (([V3MessageType.RPC_RESPONSE, d / 256, d % 256, u / 256, u % 256] ++
                toUnsignedLEB128 rs.length) : List Nat).length =
                5 + (toUnsignedLEB128 rs.length).length from by simp <;> omega] at hloop
            rw [hloop]
          rw [herr]
          rfl

theorem entryAssignment_decode_pf (n : List Nat) (t id sq : Nat) (fl : V3EntryFlags)
    (vb : List Nat) (v : NTEntryValue) (k1 : Nat) (hts : isV3EntryType t = true)
    (hwv : wfEntryValue t v = true) (hv : entryValueToBuffer t v = .ok vb)
    (hk : k1 < (encodeLEB128String n).length + (6 + vb.length)) :
    ∃ e, entryAssignmentMessageFromBuffer (V3MessageType.ENTRY_ASSIGNMENT ::
      (encodeLEB128String n ++ (t :: id / 256 :: id % 256 :: sq / 256 :: sq % 256 ::
        entryFlagsToUInt8 fl :: vb)).take k1) 0 = .error e := by
  by_cases h8 : k1 < 8
  · refine ⟨.truncated, ?_⟩
    unfold entryAssignmentMessageFromBuffer
    have hneg : ¬ (0 + 9 ≤ (V3MessageType.ENTRY_ASSIGNMENT ::
        (encodeLEB128String n ++ (t :: id / 256 :: id % 256 :: sq / 256 :: sq % 256 ::
          entryFlagsToUInt8 fl :: vb)).take k1).length) := by
      simp only [List.length_cons, List.length_take, List.length_append]
      omega
    unfold checkBufferLength
    rw [if_neg hneg]
  · push_neg at h8
    by_cases hS : k1 < (encodeLEB128String n).length
    · refine ⟨.truncated, ?_⟩
      unfold entryAssignmentMessageFromBuffer
      have hcb : 0 + 9 ≤ (V3MessageType.ENTRY_ASSIGNMENT ::
          (encodeLEB128String n ++ (t :: id / 256 :: id % 256 :: sq / 256 :: sq % 256 ::
            entryFlagsToUInt8 fl :: vb)).take k1).length := by
        simp only [List.length_cons, List.length_take, List.length_append]
        omega
      rw [checkBufferLength_ok _ _ _ hcb]
      dsimp only
      rw [show checkMessageType (V3MessageType.ENTRY_ASSIGNMENT ::
          (encodeLEB128String n ++ (t :: id / 256 :: id % 256 :: sq / 256 :: sq % 256 ::
            entryFlagsToUInt8 fl :: vb)).take k1) 0 V3MessageType.ENTRY_ASSIGNMENT =
          .ok () from rfl]
      dsimp only
      have htake : (encodeLEB128String n ++ (t :: id / 256 :: id % 256 :: sq / 256 ::
          sq % 256 :: entryFlagsToUInt8 fl :: vb)).take k1 =
          (encodeLEB128String n).take k1 := by
        rw [List.take_append_eq_append_take,
          show k1 - (encodeLEB128String n).length = 0 from by omega]
        simp
      rw [htake]
      have hcut := str_cut [V3MessageType.ENTRY_ASSIGNMENT] n k1 hS
      rw [show ([V3MessageType.ENTRY_ASSIGNMENT] : List Nat) ++
          (encodeLEB128String n).take k1 =
          V3MessageType.ENTRY_ASSIGNMENT :: (encodeLEB128String n).take k1 from rfl,
        show ([V3MessageType.ENTRY_ASSIGNMENT] : List Nat).length = 1 from rfl] at hcut
      rw [hcut]
    · push_neg at hS
      obtain ⟨j, rfl⟩ : ∃ j, k1 = (encodeLEB128String n).length + j :=
        ⟨k1 - (encodeLEB128String n).length, by omega⟩
      rw [List.take_append]
      have hcb : 0 + 9 ≤ (V3MessageType.ENTRY_ASSIGNMENT :: (encodeLEB128String n ++
          (t :: id / 256 :: id % 256 :: sq / 256 :: sq % 256 ::
            entryFlagsToUInt8 fl :: vb).take j)).length := by
        simp only [List.length_cons, List.length_take, List.length_append]
        omega
      have hj6 : j < 6 + vb.length := by omega
      rcases j with _ | (_ | (_ | (_ | (_ | j5))))
      · refine ⟨.invalidEntryType, ?_⟩
        unfold entryAssignmentMessageFromBuffer
        rw [checkBufferLength_ok _ _ _ hcb]
        dsimp only
        rw [show checkMessageType (V3MessageType.ENTRY_ASSIGNMENT ::
            (encodeLEB128String n ++ (t :: id / 256 :: id % 256 :: sq / 256 :: sq % 256 ::
              entryFlagsToUInt8 fl :: vb).take 0)) 0 V3MessageType.ENTRY_ASSIGNMENT =
            .ok () from rfl]
        dsimp only
        simp only [List.take_zero]
        have hstr := str_rt [V3MessageType.ENTRY_ASSIGNMENT] ([] : List Nat) n
        rw [show ([V3MessageType.ENTRY_ASSIGNMENT] : List Nat) ++
            (encodeLEB128String n ++ []) =
            V3MessageType.ENTRY_ASSIGNMENT :: (encodeLEB128String n ++ []) from rfl,
          show ([V3MessageType.ENTRY_ASSIGNMENT] : List Nat).length = 1 from rfl] at hstr
        rw [hstr]
        dsimp only
        have hg := get?_append_zero ([V3MessageType.ENTRY_ASSIGNMENT] ++
          encodeLEB128String n) ([] : List Nat)
        rw [show (([V3MessageType.ENTRY_ASSIGNMENT] ++ encodeLEB128String n) : List Nat) ++
            ([] : List Nat) =
            V3MessageType.ENTRY_ASSIGNMENT :: (encodeLEB128String n ++ []) from by simp,
          show (([V3MessageType.ENTRY_ASSIGNMENT] ++ encodeLEB128String n) :
            List Nat).length = 1 + (encodeLEB128String n).length from by simp <;> omega]
          at hg
        rw [hg]
        rfl
      · refine ⟨.outOfRange, ?_⟩
        unfold entryAssignmentMessageFromBuffer
        rw [checkBufferLength_ok _ _ _ hcb]
        dsimp only
        rw [show checkMessageType (V3MessageType.ENTRY_ASSIGNMENT ::
            (encodeLEB128String n ++ (t :: id / 256 :: id % 256 :: sq / 256 :: sq % 256 ::
              entryFlagsToUInt8 fl :: vb).take 1)) 0 V3MessageType.ENTRY_ASSIGNMENT =
            .ok () from rfl]
        dsimp only
        simp only [List.take_succ_cons, List.take_zero]
        have hstr := str_rt [V3MessageType.ENTRY_ASSIGNMENT] ([t] : List Nat) n
        rw [show ([V3MessageType.ENTRY_ASSIGNMENT] : List Nat) ++
            (encodeLEB128String n ++ [t]) =
            V3MessageType.ENTRY_ASSIGNMENT :: (encodeLEB128String n ++ [t]) from rfl,
          show ([V3MessageType.ENTRY_ASSIGNMENT] : List Nat).length = 1 from rfl] at hstr
        rw [hstr]
        dsimp only
        have hg := get?_append_zero ([V3MessageType.ENTRY_ASSIGNMENT] ++
          encodeLEB128String n) ([t] : List Nat)
        rw [show (([V3MessageType.ENTRY_ASSIGNMENT] ++ encodeLEB128String n) : List Nat) ++
            ([t] : List Nat) =
            V3MessageType.ENTRY_ASSIGNMENT :: (encodeLEB128String n ++ [t]) from by simp,
          show (([V3MessageType.ENTRY_ASSIGNMENT] ++ encodeLEB128String n) :
            List Nat).length = 1 + (encodeLEB128String n).length from by simp <;> omega,
          show (([t] : List Nat)).get? 0 = some t from rfl] at hg
        rw [hg]
        dsimp only
        rw [if_pos hts]
        rw [readUInt16BE_short _ _ (by
          simp only [List.length_cons, List.length_append, List.length_nil]
          omega)]
      · refine ⟨.outOfRange, ?_⟩
        unfold entryAssignmentMessageFromBuffer
        rw [checkBufferLength_ok _ _ _ hcb]
        dsimp only
        rw [show checkMessageType (V3MessageType.ENTRY_ASSIGNMENT ::
            (encodeLEB128String n ++ (t :: id / 256 :: id % 256 :: sq / 256 :: sq % 256 ::
              entryFlagsToUInt8 fl :: vb).take 2)) 0 V3MessageType.ENTRY_ASSIGNMENT =
            .ok () from rfl]
        dsimp only
        simp only [List.take_succ_cons, List.take_zero]
        have hstr := str_rt [V3MessageType.ENTRY_ASSIGNMENT] ([t, id / 256] : List Nat) n
        rw [show ([V3MessageType.ENTRY_ASSIGNMENT] : List Nat) ++
            (encodeLEB128String n ++ [t, id / 256]) =
            V3MessageType.ENTRY_ASSIGNMENT :: (encodeLEB128String n ++ [t, id / 256])
            from rfl,
          show ([V3MessageType.ENTRY_ASSIGNMENT] : List Nat).length = 1 from rfl] at hstr
        rw [hstr]
        dsimp only
        have hg := get?_append_zero ([V3MessageType.ENTRY_ASSIGNMENT] ++
          encodeLEB128String n) ([t, id / 256] : List Nat)
        rw [show (([V3MessageType.ENTRY_ASSIGNMENT] ++ encodeLEB128String n) : List Nat) ++
            ([t, id / 256] : List Nat) =
            V3MessageType.ENTRY_ASSIGNMENT :: (encodeLEB128String n ++ [t, id / 256])
            from by simp,
          show (([V3MessageType.ENTRY_ASSIGNMENT] ++ encodeLEB128String n) :
            List Nat).length = 1 + (encodeLEB128String n).length from by simp <;> omega,
          show (([t, id / 256] : List Nat)).get? 0 = some t from rfl] at hg
        rw [hg]
        dsimp only
        rw [if_pos hts]
        rw [readUInt16BE_short _ _ (by
          simp only [List.length_cons, List.length_append, List.length_nil]
          omega)]
      · refine ⟨.outOfRange, ?_⟩
        unfold entryAssignmentMessageFromBuffer
        rw [checkBufferLength_ok _ _ _ hcb]
        dsimp only
        rw [show checkMessageType (V3MessageType.ENTRY_ASSIGNMENT ::
            (encodeLEB128String n ++ (t :: id / 256 :: id % 256 :: sq / 256 :: sq % 256 ::
              entryFlagsToUInt8 fl :: vb).take 3)) 0 V3MessageType.ENTRY_ASSIGNMENT =
            .ok () from rfl]
        dsimp only
        simp only [List.take_succ_cons, List.take_zero]
        have hstr := str_rt [V3MessageType.ENTRY_ASSIGNMENT]
          ([t, id / 256, id % 256] : List Nat) n
        rw [show ([V3MessageType.ENTRY_ASSIGNMENT] : List Nat) ++
            (encodeLEB128String n ++ [t, id / 256, id % 256]) =
            V3MessageType.ENTRY_ASSIGNMENT ::
              (encodeLEB128String n ++ [t, id / 256, id % 256]) from rfl,
          show ([V3MessageType.ENTRY_ASSIGNMENT] : List Nat).length = 1 from rfl] at hstr
        rw [hstr]
        dsimp only
        have hg := get?_append_zero ([V3MessageType.ENTRY_ASSIGNMENT] ++
          encodeLEB128String n) ([t, id / 256, id % 256] : List Nat)
        rw [show (([V3MessageType.ENTRY_ASSIGNMENT] ++ encodeLEB128String n) : List Nat) ++
            ([t, id / 256, id % 256] : List Nat) =
            V3MessageType.ENTRY_ASSIGNMENT ::
              (encodeLEB128String n ++ [t, id / 256, id % 256]) from by simp,
          show (([V3MessageType.ENTRY_ASSIGNMENT] ++ encodeLEB128String n) :
            List Nat).length = 1 + (encodeLEB128String n).length from by simp <;> omega,
          show (([t, id / 256, id % 256] : List Nat)).get? 0 = some t from rfl] at hg
        rw [hg]
        dsimp only
        rw [if_pos hts]
        have hr1 := readUInt16BE_at (([V3MessageType.ENTRY_ASSIGNMENT] ++
          encodeLEB128String n) ++ [t]) ([id / 256, id % 256] : List Nat)
          (id / 256) (id % 256) rfl rfl (by simp)
        rw [show ((([V3MessageType.ENTRY_ASSIGNMENT] ++ encodeLEB128String n) ++ [t]) :
            List Nat) ++ ([id / 256, id % 256] : List Nat) =
            V3MessageType.ENTRY_ASSIGNMENT ::
              (encodeLEB128String n ++ [t, id / 256, id % 256]) from by simp,
          show ((([V3MessageType.ENTRY_ASSIGNMENT] ++ encodeLEB128String n) ++ [t]) :
            List Nat).length = 1 + (encodeLEB128String n).length + 1 from by simp <;> omega]
          at hr1
        rw [hr1]
        dsimp only
        rw [readUInt16BE_short _ _ (by
          simp only [List.length_cons, List.length_append, List.length_nil]
          omega)]
      · refine ⟨.outOfRange, ?_⟩
        unfold entryAssignmentMessageFromBuffer
        rw [checkBufferLength_ok _ _ _ hcb]
        dsimp only
        rw [show checkMessageType (V3MessageType.ENTRY_ASSIGNMENT ::
            (encodeLEB128String n ++ (t :: id / 256 :: id % 256 :: sq / 256 :: sq % 256 ::
              entryFlagsToUInt8 fl :: vb).take 4)) 0 V3MessageType.ENTRY_ASSIGNMENT =
            .ok () from rfl]
        dsimp only
        simp only [List.take_succ_cons, List.take_zero]
        have hstr := str_rt [V3MessageType.ENTRY_ASSIGNMENT]
          ([t, id / 256, id % 256, sq / 256] : List Nat) n
        rw [show ([V3MessageType.ENTRY_ASSIGNMENT] : List Nat) ++
            (encodeLEB128String n ++ [t, id / 256, id % 256, sq / 256]) =
            V3MessageType.ENTRY_ASSIGNMENT ::
              (encodeLEB128String n ++ [t, id / 256, id % 256, sq / 256]) from rfl,
          show ([V3MessageType.ENTRY_ASSIGNMENT] : List Nat).length = 1 from rfl] at hstr
        rw [hstr]
        dsimp only
        have hg := get?_append_zero ([V3MessageType.ENTRY_ASSIGNMENT] ++
          encodeLEB128String n) ([t, id / 256, id % 256, sq / 256] : List Nat)
        rw [show (([V3MessageType.ENTRY_ASSIGNMENT] ++ encodeLEB128String n) : List Nat) ++
            ([t, id / 256, id % 256, sq / 256] : List Nat) =
            V3MessageType.ENTRY_ASSIGNMENT ::
              (encodeLEB128String n ++ [t, id / 256, id % 256, sq / 256]) from by simp,
          show (([V3MessageType.ENTRY_ASSIGNMENT] ++ encodeLEB128String n) :
            List Nat).length = 1 + (encodeLEB128String n).length from by simp <;> omega,
          show (([t, id / 256, id % 256, sq / 256] : List Nat)).get? 0 = some t from rfl]
          at hg
        rw [hg]
        dsimp only
        rw [if_pos hts]
        have hr1 := readUInt16BE_at (([V3MessageType.ENTRY_ASSIGNMENT] ++
          encodeLEB128String n) ++ [t]) ([id / 256, id % 256, sq / 256] : List Nat)
          (id / 256) (id % 256) rfl rfl (by simp)
        rw [show ((([V3MessageType.ENTRY_ASSIGNMENT] ++ encodeLEB128String n) ++ [t]) :
            List Nat) ++ ([id / 256, id % 256, sq / 256] : List Nat) =
            V3MessageType.ENTRY_ASSIGNMENT ::
              (encodeLEB128String n ++ [t, id / 256, id % 256, sq / 256]) from by simp,
          show ((([V3MessageType.ENTRY_ASSIGNMENT] ++ encodeLEB128String n) ++ [t]) :
            List Nat).length = 1 + (encodeLEB128String n).length + 1 from by simp <;> omega]
          at hr1
        rw [hr1]
        dsimp only
        rw [readUInt16BE_short _ _ (by
          simp only [List.length_cons, List.length_append, List.length_nil]
          omega)]
      · have htk : (t :: id / 256 :: id % 256 :: sq / 256 :: sq % 256 ::
            entryFlagsToUInt8 fl :: vb).take (j5 + 5) =
            t :: id / 256 :: id % 256 :: sq / 256 :: sq % 256 ::
              (entryFlagsToUInt8 fl :: vb).take j5 := by
          simp only [List.take_succ_cons]
        rw [htk]
        rw [htk] at hcb
        have hstr := str_rt [V3MessageType.ENTRY_ASSIGNMENT]
          (t :: id / 256 :: id % 256 :: sq / 256 :: sq % 256 ::
            (entryFlagsToUInt8 fl :: vb).take j5) n
        rw [show ([V3MessageType.ENTRY_ASSIGNMENT] : List Nat) ++
            (encodeLEB128String n ++ (t :: id / 256 :: id % 256 :: sq / 256 :: sq % 256 ::
              (entryFlagsToUInt8 fl :: vb).take j5)) =
            V3MessageType.ENTRY_ASSIGNMENT :: (encodeLEB128String n ++
              (t :: id / 256 :: id % 256 :: sq / 256 :: sq % 256 ::
                (entryFlagsToUInt8 fl :: vb).take j5)) from rfl,
          show ([V3MessageType.ENTRY_ASSIGNMENT] : List Nat).length = 1 from rfl] at hstr
        have hg := get?_append_zero ([V3MessageType.ENTRY_ASSIGNMENT] ++
          encodeLEB128String n) (t :: id / 256 :: id % 256 :: sq / 256 :: sq % 256 ::
            (entryFlagsToUInt8 fl :: vb).take j5)
        rw [show (([V3MessageType.ENTRY_ASSIGNMENT] ++ encodeLEB128String n) : List Nat) ++
            (t :: id / 256 :: id % 256 :: sq / 256 :: sq % 256 ::
              (entryFlagsToUInt8 fl :: vb).take j5) =
            V3MessageType.ENTRY_ASSIGNMENT :: (encodeLEB128String n ++
              (t :: id / 256 :: id % 256 :: sq / 256 :: sq % 256 ::
                (entryFlagsToUInt8 fl :: vb).take j5)) from by simp,
          show (([V3MessageType.ENTRY_ASSIGNMENT] ++ encodeLEB128String n) :
            List Nat).length = 1 + (encodeLEB128String n).length from by simp <;> omega,
          show (t :: id / 256 :: id % 256 :: sq / 256 :: sq % 256 ::
            (entryFlagsToUInt8 fl :: vb).take j5).get? 0 = some t from rfl] at hg
        have hr1 := readUInt16BE_at (([V3MessageType.ENTRY_ASSIGNMENT] ++
          encodeLEB128String n) ++ [t]) (id / 256 :: id % 256 :: sq / 256 :: sq % 256 ::
            (entryFlagsToUInt8 fl :: vb).take j5)
          (id / 256) (id % 256) rfl rfl (by simp)
        rw [show ((([V3MessageType.ENTRY_ASSIGNMENT] ++ encodeLEB128String n) ++ [t]) :
            List Nat) ++ (id / 256 :: id % 256 :: sq / 256 :: sq % 256 ::
              (entryFlagsToUInt8 fl :: vb).take j5) =
            V3MessageType.ENTRY_ASSIGNMENT :: (encodeLEB128String n ++
              (t :: id / 256 :: id % 256 :: sq / 256 :: sq % 256 ::
                (entryFlagsToUInt8 fl :: vb).take j5)) from by simp,
          show ((([V3MessageType.ENTRY_ASSIGNMENT] ++ encodeLEB128String n) ++ [t]) :
            List Nat).length = 1 + (encodeLEB128String n).length + 1 from by simp <;> omega]
          at hr1
        have hr2 := readUInt16BE_at (([V3MessageType.ENTRY_ASSIGNMENT] ++
          encodeLEB128String n) ++ [t, id / 256, id % 256])
          (sq / 256 :: sq % 256 :: (entryFlagsToUInt8 fl :: vb).take j5)
          (sq / 256) (sq % 256) rfl rfl (by simp)
        rw [show ((([V3MessageType.ENTRY_ASSIGNMENT] ++ encodeLEB128String n) ++
            [t, id / 256, id % 256]) : List Nat) ++
            (sq / 256 :: sq % 256 :: (entryFlagsToUInt8 fl :: vb).take j5) =
            V3MessageType.ENTRY_ASSIGNMENT :: (encodeLEB128String n ++
              (t :: id / 256 :: id % 256 :: sq / 256 :: sq % 256 ::
                (entryFlagsToUInt8 fl :: vb).take j5)) from by simp,
          show ((([V3MessageType.ENTRY_ASSIGNMENT] ++ encodeLEB128String n) ++
            [t, id / 256, id % 256]) : List Nat).length =
            1 + (encodeLEB128String n).length + 3 from by simp <;> omega] at hr2
        cases j5 with
        | zero =>
          obtain ⟨e, hval⟩ := entryValue_oob t (V3MessageType.ENTRY_ASSIGNMENT ::
            (encodeLEB128String n ++ (t :: id / 256 :: id % 256 :: sq / 256 :: sq % 256 ::
              (entryFlagsToUInt8 fl :: vb).take 0)))
            ((V3MessageType.ENTRY_ASSIGNMENT :: (encodeLEB128String n ++
              (t :: id / 256 :: id % 256 :: sq / 256 :: sq % 256 ::
                (entryFlagsToUInt8 fl :: vb).take 0))).length)
            (1 + (encodeLEB128String n).length + 6) hts
            (by simp only [List.take_zero, List.length_cons, List.length_append,
              List.length_nil]; omega)
          refine ⟨e, ?_⟩
          unfold entryAssignmentMessageFromBuffer
          rw [checkBufferLength_ok _ _ _ hcb]
          dsimp only
          rw [show checkMessageType (V3MessageType.ENTRY_ASSIGNMENT ::
              (encodeLEB128String n ++ (t :: id / 256 :: id % 256 :: sq / 256 :: sq % 256 ::
                (entryFlagsToUInt8 fl :: vb).take 0))) 0 V3MessageType.ENTRY_ASSIGNMENT =
              .ok () from rfl]
          dsimp only
          rw [hstr]
          dsimp only
          rw [hg]
          dsimp only
          rw [if_pos hts]
          rw [hr1]
          dsimp only
          rw [hr2]
          dsimp only
          rw [hval]
        | succ j6 =>
          simp only [List.take_succ_cons] at hstr hg hr1 hr2 hcb ⊢
          obtain ⟨e, hval⟩ := entryValue_pf t v vb
            ([V3MessageType.ENTRY_ASSIGNMENT] ++ encodeLEB128String n ++
              [t, id / 256, id % 256, sq / 256, sq % 256, entryFlagsToUInt8 fl])
            ((V3MessageType.ENTRY_ASSIGNMENT :: (encodeLEB128String n ++
              (t :: id / 256 :: id % 256 :: sq / 256 :: sq % 256 ::
                entryFlagsToUInt8 fl :: vb.take j6))).length) j6 hwv hv (by omega)
          rw [show (([V3MessageType.ENTRY_ASSIGNMENT] ++ encodeLEB128String n ++
              [t, id / 256, id % 256, sq / 256, sq % 256, entryFlagsToUInt8 fl]) :
              List Nat) ++ vb.take j6 =
              V3MessageType.ENTRY_ASSIGNMENT :: (encodeLEB128String n ++
                (t :: id / 256 :: id % 256 :: sq / 256 :: sq % 256 ::
                  entryFlagsToUInt8 fl :: vb.take j6)) from by simp,
            show (([V3MessageType.ENTRY_ASSIGNMENT] ++ encodeLEB128String n ++
              [t, id / 256, id % 256, sq / 256, sq % 256, entryFlagsToUInt8 fl]) :
              List Nat).length = 1 + (encodeLEB128String n).length + 6 from by
                simp <;> omega] at hval
          refine ⟨e, ?_⟩
          unfold entryAssignmentMessageFromBuffer
          rw [checkBufferLength_ok _ _ _ hcb]
          dsimp only
          rw [show checkMessageType (V3MessageType.ENTRY_ASSIGNMENT ::
              (encodeLEB128String n ++ (t :: id / 256 :: id % 256 :: sq / 256 :: sq % 256 ::
                entryFlagsToUInt8 fl :: vb.take j6))) 0 V3MessageType.ENTRY_ASSIGNMENT =
              .ok () from rfl]
          dsimp only
          rw [hstr]
          dsimp only
          rw [hg]
          dsimp only
          rw [if_pos hts]
          rw [hr1]
          dsimp only
          rw [hr2]
          dsimp only
          rw [hval]

theorem pf_entryAssignment (defs : Nat → Option V3RPCDefinition) (n : List Nat)
    (t id sq : Nat) (fl : V3EntryFlags) (v : NTEntryValue) (b : List Nat) (k : Nat)
    (hts : isV3EntryType t = true) (hid : id < 65536) (hsq : sq < 65536)
    (hwv : wfEntryValue t v = true)
    (he : entryAssignmentMessageToBuffer n t id sq fl v = .ok b) (hk : k < b.length) :
    getNextAvailableMessage defs (b.take k) 0 = none := by
  unfold entryAssignmentMessageToBuffer at he
  rcases hc : checkEntryValue t v with e | u
  · rw [hc] at he; cases he
  · rw [hc] at he
    dsimp only at he
    rw [show writeUInt16BE id = .ok [id / 256, id % 256] from by
        unfold writeUInt16BE; rw [if_pos hid],
      show writeUInt16BE sq = .ok [sq / 256, sq % 256] from by
        unfold writeUInt16BE; rw [if_pos hsq]] at he
    dsimp only at he
    rcases hv : entryValueToBuffer t v with e | vb
    · rw [hv] at he; cases he
    · rw [hv] at he
      dsimp only at he
      injection he with h
      rw [Nat.mod_eq_of_lt (entry_type_lt t hts)] at h
      rw [show V3MessageType.ENTRY_ASSIGNMENT :: encodeLEB128String n ++
          (t :: [id / 256, id % 256]) ++ [sq / 256, sq % 256] ++
          (entryFlagsToUInt8 fl :: vb) =
          V3MessageType.ENTRY_ASSIGNMENT :: (encodeLEB128String n ++
            (t :: id / 256 :: id % 256 :: sq / 256 :: sq % 256 ::
              entryFlagsToUInt8 fl :: vb)) from by simp] at h
      subst h
      simp only [List.length_cons, List.length_append] at hk
      rcases k with _ | k1
      · rfl
      · simp only [List.take_succ_cons]
        rw [dispatch_entryAssignment defs ((encodeLEB128String n ++
          (t :: id / 256 :: id % 256 :: sq / 256 :: sq % 256 ::
            entryFlagsToUInt8 fl :: vb)).take k1)]
        obtain ⟨e, herr⟩ := entryAssignment_decode_pf n t id sq fl vb v k1 hts hwv hv
          (by omega)
        rw [herr]
        rfl

theorem message_pf (defs : Nat → Option V3RPCDefinition) (m : V3Message) (b : List Nat)
    (k : Nat) (hw : wfMessage defs m = true) (he : messageToBuffer m = .ok b)
    (hk : k < b.length) :
    getNextAvailableMessage defs (b.take k) 0 = none := by
  cases m with
  | keepAlive =>
    unfold messageToBuffer at he
    injection he with h
    subst h
    rw [show keepAliveMessageToBuffer.length = 1 from rfl] at hk
    obtain rfl : k = 0 := by omega
    rfl
  | clientHello a b2 i =>
    unfold messageToBuffer at he
    injection he with h
    subst h
    exact pf_clientHello defs a b2 i k hk
  | protoVersionUnsupported a b2 =>
    unfold messageToBuffer at he
    injection he with h
    subst h
    exact pf_protoVersionUnsupported defs a b2 k hk
  | serverHelloComplete =>
    unfold messageToBuffer at he
    injection he with h
    subst h
    rw [show serverHelloCompleteMessageToBuffer.length = 1 from rfl] at hk
    obtain rfl : k = 0 := by omega
    rfl
  | serverHello s i =>
    unfold messageToBuffer at he
    injection he with h
    subst h
    exact pf_serverHello defs s i k hk
  | clientHelloComplete =>
    unfold messageToBuffer at he
    injection he with h
    subst h
    rw [show clientHelloCompleteMessageToBuffer.length = 1 from rfl] at hk
    obtain rfl : k = 0 := by omega
    rfl
  | entryAssignment n t id sq fl v =>
    simp only [wfMessage, Bool.and_eq_true, decide_eq_true_eq] at hw
    unfold messageToBuffer at he
    exact pf_entryAssignment defs n t id sq fl v b k hw.1.1.1 hw.1.1.2 hw.1.2 hw.2 he hk
  | entryUpdate id sq t v =>
    simp only [wfMessage, Bool.and_eq_true, decide_eq_true_eq] at hw
    unfold messageToBuffer at he
    exact pf_entryUpdate defs id sq t v b k hw.1.1.1 hw.1.1.2 hw.1.2 hw.2 he hk
  | entryFlagsUpdate id fl =>
    simp only [wfMessage, decide_eq_true_eq] at hw
    unfold messageToBuffer at he
    exact pf_entryFlagsUpdate defs id fl b k hw he hk
  | entryDelete id =>
    simp only [wfMessage, decide_eq_true_eq] at hw
    unfold messageToBuffer at he
    exact pf_entryDelete defs id b k hw he hk
  | clearAllEntries =>
    unfold messageToBuffer at he
    injection he with h
    subst h
    exact pf_clearAllEntries defs k hk
  | rpcExecute d u ps =>
    simp only [wfMessage, Bool.and_eq_true, decide_eq_true_eq] at hw
    obtain ⟨⟨hd, hu⟩, hmm⟩ := hw
    unfold messageToBuffer at he
    rcases hdf : defs d with _ | rd
    · rw [hdf] at hmm; simp at hmm
    · rw [hdf] at hmm
      dsimp only at hmm
      exact pf_rpcExecute defs d u ps b k rd hd hu hdf hmm he hk
  | rpcResponse d u rs =>
    simp only [wfMessage, Bool.and_eq_true, decide_eq_true_eq] at hw
    obtain ⟨⟨hd, hu⟩, hmm⟩ := hw
    unfold messageToBuffer at he
    rcases hdf : defs d with _ | rd
    · rw [hdf] at hmm; simp at hmm
    · rw [hdf] at hmm
      dsimp only at hmm
      exact pf_rpcResponse defs d u rs b k rd hd hu hdf hmm he hk

/-- C1 (counterexample to the three-outcome part): the reference decoder's two
failure classes are not distinguishable.  `[0x13]` is a strict prefix of the
valid ENTRY_DELETE encoding `[0x13, 0, 7]` — the claim's NeedMore case — while
`[0xFF]` is not a prefix of any valid message — the claim's Invalid case; the
source's `try`/`catch` collapses both to `undefined`, so
`getNextAvailableMessage` returns the same `none` for both. -/
theorem claim_C1_counterexample :
    messageToBuffer (.entryDelete 7) = .ok [19, 0, 7] ∧
    getNextAvailableMessage (fun _ => none) (([19, 0, 7] : List Nat).take 1) 0 = none ∧
    getNextAvailableMessage (fun _ => none) [255] 0 = none :=
  ⟨rfl, rfl, rfl⟩

/-- C1 (amended): at offset 0, for every well-formed message, every strict
prefix of its encoding makes `getNextAvailableMessage` return `none` — the
same observable outcome as malformed input, not a distinguishable NeedMore —
and the full encoding parses to the original message with newOffset equal to
the encoded length. -/
theorem claim_C1_decoder_prefix_behavior (defs : Nat → Option V3RPCDefinition)
    (m : V3Message) (b : List Nat) (hw : wfMessage defs m = true)
    (he : messageToBuffer m = .ok b) :
    (∀ k, k < b.length → getNextAvailableMessage defs (b.take k) 0 = none) ∧
    getNextAvailableMessage defs b 0 = some (m, b.length) :=
  ⟨fun k hk => message_pf defs m b k hw he hk, message_rt defs m b hw he⟩

/-- Witness for C1 at the concrete message ENTRY_DELETE 7. -/
theorem claim_C1_decoder_prefix_behavior_witness :
    wfMessage (fun _ => none) (.entryDelete 7) = true ∧
    messageToBuffer (.entryDelete 7) = .ok [19, 0, 7] ∧
    ((∀ k, k < ([19, 0, 7] : List Nat).length →
      getNextAvailableMessage (fun _ => none) (([19, 0, 7] : List Nat).take k) 0 = none) ∧
    getNextAvailableMessage (fun _ => none) [19, 0, 7] 0 =
      some (.entryDelete 7, ([19, 0, 7] : List Nat).length)) :=
  ⟨by decide, rfl, claim_C1_decoder_prefix_behavior (fun _ => none) (.entryDelete 7)
    [19, 0, 7] (by decide) rfl⟩

set_option maxRecDepth 100000 in
/-- C2 (counterexample): a well-typed RPC entry value whose definition
serializes to 128 bytes encodes successfully into an ENTRY_ASSIGNMENT
message, but `getNextAvailableMessage` cannot decode the encoder's own
output (the single truncated length byte `128` reads back as an unfinished
LEB128, consuming the next byte and overrunning the buffer), returning
`none` instead of the message. -/
theorem claim_C2_counterexample :
    messageToBuffer (.entryAssignment [] V3EntryType.RPC 0 0 ⟨false⟩
        (mkRpc (.mk (List.replicate 124 65) [] []))) =
      .ok ([16, 0, 32, 0, 0, 0, 0, 0, 128, 1, 124] ++ List.replicate 124 65 ++ [0, 0]) ∧
    getNextAvailableMessage (fun _ => none)
      ([16, 0, 32, 0, 0, 0, 0, 0, 128, 1, 124] ++ List.replicate 124 65 ++ [0, 0]) 0 =
      none :=
  ⟨rfl, rfl⟩

/-- C2 (amended): at offset 0, restricted to the well-formedness predicate
`wfMessage` — which in particular limits RPC definitions to serialized forms
under 128 bytes, the regime where the code's one-byte length prefix is valid
LEB128 — every encoded message decodes back to itself with newOffset equal to
the encoded buffer's length. -/
theorem claim_C2_encode_decode_roundtrip (defs : Nat → Option V3RPCDefinition)
    (m : V3Message) (b : List Nat) (hw : wfMessage defs m = true)
    (he : messageToBuffer m = .ok b) :
    getNextAvailableMessage defs b 0 = some (m, b.length) :=
  message_rt defs m b hw he

/-- Witness for C2 at the concrete message CLIENT_HELLO (3, 0, "A"). -/
theorem claim_C2_encode_decode_roundtrip_witness :
    wfMessage (fun _ => none) (.clientHello 3 0 [65]) = true ∧
    messageToBuffer (.clientHello 3 0 [65]) = .ok [1, 3, 0, 1, 65] ∧
    getNextAvailableMessage (fun _ => none) [1, 3, 0, 1, 65] 0 =
      some (.clientHello 3 0 [65], ([1, 3, 0, 1, 65] : List Nat).length) :=
  ⟨by decide, rfl, claim_C2_encode_decode_roundtrip (fun _ => none)
    (.clientHello 3 0 [65]) [1, 3, 0, 1, 65] (by decide) rfl⟩
